import Mathlib

/-!
# intro-hub: request, contact and login rules

A shallow embedding of the rules of the intro-hub backend (the services in
`backend/internal/services`, the MySQL repositories they call and the HTTP
handlers in front of them), followed by theorems about the embedded
functions.

Modelling conventions

* Go `uint` values are `Nat`; `time.Time` values are `Nat` timestamps and
  `time.Now()` is an explicit argument `now`.
* A table is the list of its rows in insertion order.  A statement is
  modelled by its relational meaning on that list: `SELECT ... WHERE id = ?`
  read with `QueryRow` is the first matching row, `UPDATE`/`DELETE ... WHERE
  id = ?` act on every matching row and report the number of matching rows.
  Failures of the connection or the driver are outside the model, so the
  only repository errors are the ones the repositories raise themselves.
* `AUTO_INCREMENT` ids are drawn from a counter stored next to the rows.
* `go f(x)` is modelled by recording the dispatched task in the order of
  dispatch; the task body runs detached and is not part of the call.
* SQL `=` on strings is string equality.  `strings.ToLower` maps every
  character by `unicode.ToLower`, whose table of lower-case forms is part of
  the model; a Lean string holds Unicode characters only, so the treatment of
  invalid UTF-8 is outside the model.
* The functions of libraries outside the repository (bcrypt, the JWT signer,
  the `email` tag of the validator) are arguments, collected in `Libraries`.
-/

namespace IntroHub

/-! ## Domain models (`internal/domain/models`) -/

deriving instance DecidableEq for Except

/-- Timestamps, standing for `time.Time`. -/
abbrev Time := Nat

/-- Go `type RequestStatus string`. -/
abbrev RequestStatus := String

def RequestStatusPending : RequestStatus := "pending"
def RequestStatusApproved : RequestStatus := "approved"
def RequestStatusDeclined : RequestStatus := "declined"

/-- Go `models.User`. -/
structure User where
  ID : Nat
  Email : String
  PasswordHash : String
  FirstName : String
  LastName : String
  Company : String
  Position : String
  Bio : String
  ProfilePicture : String
  CreatedAt : Time
  UpdatedAt : Time
  deriving DecidableEq, Repr

/-- Go `models.UserResponse`. -/
structure UserResponse where
  ID : Nat
  Email : String
  FirstName : String
  LastName : String
  FullName : String
  Company : String
  Position : String
  Bio : String
  ProfilePicture : String
  CreatedAt : Time
  UpdatedAt : Time
  deriving DecidableEq, Repr

/-- Go `models.Contact`. -/
structure Contact where
  ID : Nat
  UserID : Nat
  Email : String
  FirstName : String
  LastName : String
  Company : String
  Position : String
  Notes : String
  Phone : String
  LinkedInURL : String
  CreatedAt : Time
  UpdatedAt : Time
  deriving DecidableEq, Repr

/-- Go `models.ContactResponse`. -/
structure ContactResponse where
  ID : Nat
  UserID : Nat
  Email : String
  FirstName : String
  LastName : String
  FullName : String
  Company : String
  Position : String
  Notes : String
  Phone : String
  LinkedInURL : String
  User : UserResponse
  CreatedAt : Time
  UpdatedAt : Time
  deriving DecidableEq, Repr

/-- Go `models.IntroductionRequest`. -/
structure IntroductionRequest where
  ID : Nat
  RequesterID : Nat
  ApproverID : Nat
  TargetContactID : Nat
  Message : String
  Status : RequestStatus
  ResponseMessage : String
  CreatedAt : Time
  UpdatedAt : Time
  deriving DecidableEq, Repr

/-- Go `models.RequestCreateRequest`. -/
structure RequestCreateRequest where
  ApproverID : Nat
  TargetContactID : Nat
  Message : String
  deriving DecidableEq, Repr

/-- Go `models.RequestUpdateRequest`. -/
structure RequestUpdateRequest where
  Status : RequestStatus
  ResponseMessage : String
  deriving DecidableEq, Repr

/-- Go `models.RequestResponse`. -/
structure RequestResponse where
  ID : Nat
  Requester : UserResponse
  Approver : UserResponse
  TargetContact : ContactResponse
  Message : String
  Status : RequestStatus
  ResponseMessage : String
  CreatedAt : Time
  UpdatedAt : Time
  deriving DecidableEq, Repr

/-- Go `models.NewIntroductionRequest`: the id and the response message keep
their zero values. -/
def NewIntroductionRequest (now : Time) (req : RequestCreateRequest) (requesterID : Nat) :
    IntroductionRequest :=
  { ID := 0
    RequesterID := requesterID
    ApproverID := req.ApproverID
    TargetContactID := req.TargetContactID
    Message := req.Message
    Status := RequestStatusPending
    ResponseMessage := ""
    CreatedAt := now
    UpdatedAt := now }

/-- Go `(*User).ToResponse`. -/
def User.ToResponse (u : User) : UserResponse :=
  { ID := u.ID
    Email := u.Email
    FirstName := u.FirstName
    LastName := u.LastName
    FullName := u.FirstName ++ " " ++ u.LastName
    Company := u.Company
    Position := u.Position
    Bio := u.Bio
    ProfilePicture := u.ProfilePicture
    CreatedAt := u.CreatedAt
    UpdatedAt := u.UpdatedAt }

/-- Go `(*Contact).ToResponse`. -/
def Contact.ToResponse (c : Contact) (user : User) : ContactResponse :=
  { ID := c.ID
    UserID := c.UserID
    Email := c.Email
    FirstName := c.FirstName
    LastName := c.LastName
    FullName := c.FirstName ++ " " ++ c.LastName
    Company := c.Company
    Position := c.Position
    Notes := c.Notes
    Phone := c.Phone
    LinkedInURL := c.LinkedInURL
    User := user.ToResponse
    CreatedAt := c.CreatedAt
    UpdatedAt := c.UpdatedAt }

/-- Go `(*IntroductionRequest).ToResponse`. -/
def IntroductionRequest.ToResponse (r : IntroductionRequest) (requester approver : User)
    (contact : Contact) : RequestResponse :=
  { ID := r.ID
    Requester := requester.ToResponse
    Approver := approver.ToResponse
    TargetContact := contact.ToResponse approver
    Message := r.Message
    Status := r.Status
    ResponseMessage := r.ResponseMessage
    CreatedAt := r.CreatedAt
    UpdatedAt := r.UpdatedAt }

/-- Go `models.ContactCreateRequest`. -/
structure ContactCreateRequest where
  Email : String
  FirstName : String
  LastName : String
  Company : String
  Position : String
  Notes : String
  Phone : String
  LinkedInURL : String
  deriving DecidableEq, Repr

/-- Go `models.ContactUpdateRequest`. -/
structure ContactUpdateRequest where
  Email : String
  FirstName : String
  LastName : String
  Company : String
  Position : String
  Notes : String
  Phone : String
  LinkedInURL : String
  deriving DecidableEq, Repr

/-- Go `models.ContactBatchImportRequest`. -/
structure ContactBatchImportRequest where
  Contacts : List ContactCreateRequest
  deriving DecidableEq, Repr

/-- Go `models.BatchImportError`. -/
structure BatchImportError where
  Data : ContactCreateRequest
  Errors : List String
  deriving DecidableEq, Repr

/-- Go `models.BatchImportResponse`; the two `int` counters only count up from
zero and are natural numbers here. -/
structure BatchImportResponse where
  SuccessCount : Nat
  ErrorCount : Nat
  Errors : List BatchImportError
  deriving DecidableEq, Repr

/-- Go `models.UserLoginRequest`. -/
structure UserLoginRequest where
  Email : String
  Password : String
  deriving DecidableEq, Repr

/-- Go `models.UserSignupRequest`. -/
structure UserSignupRequest where
  Email : String
  Password : String
  PasswordConfirm : String
  FirstName : String
  LastName : String
  Company : String
  Position : String
  deriving DecidableEq, Repr

/-- Go `models.NewContactFromCreateRequest`. -/
def NewContactFromCreateRequest (now : Time) (req : ContactCreateRequest) (userID : Nat) :
    Contact :=
  { ID := 0
    UserID := userID
    Email := req.Email
    FirstName := req.FirstName
    LastName := req.LastName
    Company := req.Company
    Position := req.Position
    Notes := req.Notes
    Phone := req.Phone
    LinkedInURL := req.LinkedInURL
    CreatedAt := now
    UpdatedAt := now }

/-! ## Lower-casing (Go packages `unicode` and `strings`) -/

/-- Go `unicode.MaxASCII`. -/
def MaxASCII : Nat := 127

/-- A range of the lower-case part of Go `unicode.CaseRanges`: the characters
`Lo`, `Lo + Stride`, ... up to `Hi` have a lower-case form, and the one of
`Lo + k` is `To + k`. -/
structure CaseRange where
  Lo : Nat
  Hi : Nat
  Stride : Nat
  To : Nat
  deriving DecidableEq, Repr

/-- The characters above `MaxASCII` that `unicode.ToLower` changes: the simple
lower-case mappings of the Unicode Character Database (version 14.0; version
15.0 has the same ones), 1407 characters in 181 ranges. A range of one
character is written with stride 2, and a range in which upper-case and
lower-case letters alternate has stride 2 and `To = Lo + 1`. -/
def lowerCaseRanges : List CaseRange :=
  [CaseRange.mk 192 214 1 224, CaseRange.mk 216 222 1 248, CaseRange.mk 256 302 2 257,
   CaseRange.mk 304 304 2 105, CaseRange.mk 306 310 2 307, CaseRange.mk 313 327 2 314,
   CaseRange.mk 330 374 2 331, CaseRange.mk 376 376 2 255, CaseRange.mk 377 381 2 378,
   CaseRange.mk 385 385 2 595, CaseRange.mk 386 388 2 387, CaseRange.mk 390 390 2 596,
   CaseRange.mk 391 391 2 392, CaseRange.mk 393 394 1 598, CaseRange.mk 395 395 2 396,
   CaseRange.mk 398 398 2 477, CaseRange.mk 399 399 2 601, CaseRange.mk 400 400 2 603,
   CaseRange.mk 401 401 2 402, CaseRange.mk 403 403 2 608, CaseRange.mk 404 404 2 611,
   CaseRange.mk 406 406 2 617, CaseRange.mk 407 407 2 616, CaseRange.mk 408 408 2 409,
   CaseRange.mk 412 412 2 623, CaseRange.mk 413 413 2 626, CaseRange.mk 415 415 2 629,
   CaseRange.mk 416 420 2 417, CaseRange.mk 422 422 2 640, CaseRange.mk 423 423 2 424,
   CaseRange.mk 425 425 2 643, CaseRange.mk 428 428 2 429, CaseRange.mk 430 430 2 648,
   CaseRange.mk 431 431 2 432, CaseRange.mk 433 434 1 650, CaseRange.mk 435 437 2 436,
   CaseRange.mk 439 439 2 658, CaseRange.mk 440 440 2 441, CaseRange.mk 444 444 2 445,
   CaseRange.mk 452 452 2 454, CaseRange.mk 453 453 2 454, CaseRange.mk 455 455 2 457,
   CaseRange.mk 456 456 2 457, CaseRange.mk 458 458 2 460, CaseRange.mk 459 475 2 460,
   CaseRange.mk 478 494 2 479, CaseRange.mk 497 497 2 499, CaseRange.mk 498 500 2 499,
   CaseRange.mk 502 502 2 405, CaseRange.mk 503 503 2 447, CaseRange.mk 504 542 2 505,
   CaseRange.mk 544 544 2 414, CaseRange.mk 546 562 2 547, CaseRange.mk 570 570 2 11365,
   CaseRange.mk 571 571 2 572, CaseRange.mk 573 573 2 410, CaseRange.mk 574 574 2 11366,
   CaseRange.mk 577 577 2 578, CaseRange.mk 579 579 2 384, CaseRange.mk 580 580 2 649,
   CaseRange.mk 581 581 2 652, CaseRange.mk 582 590 2 583, CaseRange.mk 880 882 2 881,
   CaseRange.mk 886 886 2 887, CaseRange.mk 895 895 2 1011, CaseRange.mk 902 902 2 940,
   CaseRange.mk 904 906 1 941, CaseRange.mk 908 908 2 972, CaseRange.mk 910 911 1 973,
   CaseRange.mk 913 929 1 945, CaseRange.mk 931 939 1 963, CaseRange.mk 975 975 2 983,
   CaseRange.mk 984 1006 2 985, CaseRange.mk 1012 1012 2 952, CaseRange.mk 1015 1015 2 1016,
   CaseRange.mk 1017 1017 2 1010, CaseRange.mk 1018 1018 2 1019, CaseRange.mk 1021 1023 1 891,
   CaseRange.mk 1024 1039 1 1104, CaseRange.mk 1040 1071 1 1072, CaseRange.mk 1120 1152 2 1121,
   CaseRange.mk 1162 1214 2 1163, CaseRange.mk 1216 1216 2 1231, CaseRange.mk 1217 1229 2 1218,
   CaseRange.mk 1232 1326 2 1233, CaseRange.mk 1329 1366 1 1377, CaseRange.mk 4256 4293 1 11520,
   CaseRange.mk 4295 4295 2 11559, CaseRange.mk 4301 4301 2 11565, CaseRange.mk 5024 5103 1 43888,
   CaseRange.mk 5104 5109 1 5112, CaseRange.mk 7312 7354 1 4304, CaseRange.mk 7357 7359 1 4349,
   CaseRange.mk 7680 7828 2 7681, CaseRange.mk 7838 7838 2 223, CaseRange.mk 7840 7934 2 7841,
   CaseRange.mk 7944 7951 1 7936, CaseRange.mk 7960 7965 1 7952, CaseRange.mk 7976 7983 1 7968,
   CaseRange.mk 7992 7999 1 7984, CaseRange.mk 8008 8013 1 8000, CaseRange.mk 8025 8031 2 8017,
   CaseRange.mk 8040 8047 1 8032, CaseRange.mk 8072 8079 1 8064, CaseRange.mk 8088 8095 1 8080,
   CaseRange.mk 8104 8111 1 8096, CaseRange.mk 8120 8121 1 8112, CaseRange.mk 8122 8123 1 8048,
   CaseRange.mk 8124 8124 2 8115, CaseRange.mk 8136 8139 1 8050, CaseRange.mk 8140 8140 2 8131,
   CaseRange.mk 8152 8153 1 8144, CaseRange.mk 8154 8155 1 8054, CaseRange.mk 8168 8169 1 8160,
   CaseRange.mk 8170 8171 1 8058, CaseRange.mk 8172 8172 2 8165, CaseRange.mk 8184 8185 1 8056,
   CaseRange.mk 8186 8187 1 8060, CaseRange.mk 8188 8188 2 8179, CaseRange.mk 8486 8486 2 969,
   CaseRange.mk 8490 8490 2 107, CaseRange.mk 8491 8491 2 229, CaseRange.mk 8498 8498 2 8526,
   CaseRange.mk 8544 8559 1 8560, CaseRange.mk 8579 8579 2 8580, CaseRange.mk 9398 9423 1 9424,
   CaseRange.mk 11264 11311 1 11312, CaseRange.mk 11360 11360 2 11361,
   CaseRange.mk 11362 11362 2 619, CaseRange.mk 11363 11363 2 7549,
   CaseRange.mk 11364 11364 2 637, CaseRange.mk 11367 11371 2 11368,
   CaseRange.mk 11373 11373 2 593, CaseRange.mk 11374 11374 2 625, CaseRange.mk 11375 11375 2 592,
   CaseRange.mk 11376 11376 2 594, CaseRange.mk 11378 11378 2 11379,
   CaseRange.mk 11381 11381 2 11382, CaseRange.mk 11390 11391 1 575,
   CaseRange.mk 11392 11490 2 11393, CaseRange.mk 11499 11501 2 11500,
   CaseRange.mk 11506 11506 2 11507, CaseRange.mk 42560 42604 2 42561,
   CaseRange.mk 42624 42650 2 42625, CaseRange.mk 42786 42798 2 42787,
   CaseRange.mk 42802 42862 2 42803, CaseRange.mk 42873 42875 2 42874,
   CaseRange.mk 42877 42877 2 7545, CaseRange.mk 42878 42886 2 42879,
   CaseRange.mk 42891 42891 2 42892, CaseRange.mk 42893 42893 2 613,
   CaseRange.mk 42896 42898 2 42897, CaseRange.mk 42902 42920 2 42903,
   CaseRange.mk 42922 42922 2 614, CaseRange.mk 42923 42923 2 604, CaseRange.mk 42924 42924 2 609,
   CaseRange.mk 42925 42925 2 620, CaseRange.mk 42926 42926 2 618, CaseRange.mk 42928 42928 2 670,
   CaseRange.mk 42929 42929 2 647, CaseRange.mk 42930 42930 2 669,
   CaseRange.mk 42931 42931 2 43859, CaseRange.mk 42932 42946 2 42933,
   CaseRange.mk 42948 42948 2 42900, CaseRange.mk 42949 42949 2 642,
   CaseRange.mk 42950 42950 2 7566, CaseRange.mk 42951 42953 2 42952,
   CaseRange.mk 42960 42960 2 42961, CaseRange.mk 42966 42968 2 42967,
   CaseRange.mk 42997 42997 2 42998, CaseRange.mk 65313 65338 1 65345,
   CaseRange.mk 66560 66599 1 66600, CaseRange.mk 66736 66771 1 66776,
   CaseRange.mk 66928 66938 1 66967, CaseRange.mk 66940 66954 1 66979,
   CaseRange.mk 66956 66962 1 66995, CaseRange.mk 66964 66965 1 67003,
   CaseRange.mk 68736 68786 1 68800, CaseRange.mk 71840 71871 1 71872,
   CaseRange.mk 93760 93791 1 93792, CaseRange.mk 125184 125217 1 125218]

/-- The character with code `n` is one of the characters of the range. -/
def CaseRange.holds (e : CaseRange) (n : Nat) : Bool :=
  e.Lo ≤ n && n ≤ e.Hi && (n - e.Lo) % e.Stride == 0

/-- Go `unicode.ToLower`. -/
def unicode.ToLower (r : Char) : Char :=
  if r.toNat ≤ MaxASCII then r.toLower
  else
    match lowerCaseRanges.find? (fun e => e.holds r.toNat) with
    | some e => Char.ofNat (e.To + (r.toNat - e.Lo))
    | none => r

/-- Go `strings.ToLower`: every character mapped by `unicode.ToLower`. -/
def ToLower (s : String) : String :=
  String.mk (s.data.map unicode.ToLower)

/-- No lower-case form of the first range is a character of the second
range: the forms lie below or above it, or on its odd places. -/
def CaseRange.misses (e1 e2 : CaseRange) : Bool :=
  e1.To + (e1.Hi - e1.Lo) < e2.Lo || e2.Hi < e1.To ||
    (e1.Stride == 2 && e2.Stride == 2 && (e1.To + e2.Lo) % 2 == 1)

/-- The range lies above `MaxASCII`, its lower-case forms are characters, and
a form within ASCII is not an upper-case letter. -/
def CaseRange.sound (e : CaseRange) : Bool :=
  e.Lo ≤ e.Hi && 127 < e.Lo &&
  (e.To + (e.Hi - e.Lo) < 55296 || (57344 ≤ e.To && e.To + (e.Hi - e.Lo) < 1114112)) &&
  (127 < e.To || (e.Lo == e.Hi && (e.To < 65 || 90 < e.To)))

/-- Every range is sound, and no lower-case form has a lower-case form of its
own. -/
def lowerCaseRangesClosed : Bool :=
  lowerCaseRanges.all (fun e1 => e1.sound && lowerCaseRanges.all (fun e2 => e1.misses e2))

/-! ## The store (`internal/repository/mysql`) -/

/-- The three tables the rules read and write, and the `AUTO_INCREMENT`
counters of `introduction_requests`, `contacts` and `users`. -/
structure DB where
  users : List User
  contacts : List Contact
  requests : List IntroductionRequest
  nextRequestID : Nat
  nextContactID : Nat
  nextUserID : Nat
  deriving DecidableEq, Repr

/-- Go `(*UserRepository).GetByID`. -/
def UserRepository.GetByID (db : DB) (id : Nat) : Except String User :=
  match db.users.find? (fun u => u.ID == id) with
  | some u => .ok u
  | none => .error "user not found"

/-- Go `(*ContactRepository).GetByID`. -/
def ContactRepository.GetByID (db : DB) (id : Nat) : Except String Contact :=
  match db.contacts.find? (fun c => c.ID == id) with
  | some c => .ok c
  | none => .error "contact not found"

/-- Go `(*RequestRepository).Create`: inserts the row and writes the generated
id back into the request.  The key constraints of the table are declared in a
migration that is not part of the sources; the insert is modelled without
one. -/
def RequestRepository.Create (db : DB) (request : IntroductionRequest) :
    Except String (IntroductionRequest × DB) :=
  let row := { request with ID := db.nextRequestID }
  .ok (row, { db with requests := db.requests ++ [row], nextRequestID := db.nextRequestID + 1 })

/-- Go `(*RequestRepository).GetByID`. -/
def RequestRepository.GetByID (db : DB) (id : Nat) : Except String IntroductionRequest :=
  match db.requests.find? (fun r => r.ID == id) with
  | some r => .ok r
  | none => .error "request not found"

/-- Go `(*RequestRepository).Update`: stamps `UpdatedAt`, writes status,
response message and `updated_at` of the rows with the request's id, and
fails when no row has that id. -/
def RequestRepository.Update (db : DB) (now : Time) (request : IntroductionRequest) :
    Except String (IntroductionRequest × DB) :=
  let request := { request with UpdatedAt := now }
  let rowsAffected := db.requests.countP (fun r => r.ID == request.ID)
  if rowsAffected == 0 then .error "request not found"
  else
    .ok (request,
      { db with
        requests := db.requests.map (fun r =>
          if r.ID == request.ID then
            { r with
              Status := request.Status
              ResponseMessage := request.ResponseMessage
              UpdatedAt := request.UpdatedAt }
          else r) })

/-- Go `(*RequestRepository).Delete`. -/
def RequestRepository.Delete (db : DB) (id : Nat) : Except String DB :=
  let rowsAffected := db.requests.countP (fun r => r.ID == id)
  if rowsAffected == 0 then .error "request not found"
  else .ok { db with requests := db.requests.filter (fun r => !(r.ID == id)) }

/-- Go `(*RequestRepository).Exists`: `COUNT(*) > 0` over the rows of the
requester for the contact. -/
def RequestRepository.Exists (db : DB) (requesterID targetContactID : Nat) : Except String Bool :=
  let count := db.requests.countP
    (fun r => r.RequesterID == requesterID && r.TargetContactID == targetContactID)
  .ok (decide (count > 0))

/-- Go `(*UserRepository).GetByEmail`: the row whose email equals the
lower-cased argument. -/
def UserRepository.GetByEmail (db : DB) (email : String) : Except String User :=
  match db.users.find? (fun u => u.Email == ToLower email) with
  | some u => .ok u
  | none => .error "user not found"

/-- Go `(*UserRepository).Create`: inserts the row with the email lower-cased
and writes the generated id back into the user, whose email stays as given.
As for the other tables, the insert is modelled without a key constraint. -/
def UserRepository.Create (db : DB) (user : User) : Except String (User × DB) :=
  let row := { user with ID := db.nextUserID, Email := ToLower user.Email }
  .ok ({ user with ID := db.nextUserID },
    { db with users := db.users ++ [row], nextUserID := db.nextUserID + 1 })

/-- Go `(*ContactRepository).Create`: inserts the row with the email
lower-cased and writes the generated id back into the contact, whose email
stays as given.  As for requests, the insert is modelled without a key
constraint. -/
def ContactRepository.Create (db : DB) (contact : Contact) : Except String (Contact × DB) :=
  let row := { contact with ID := db.nextContactID, Email := ToLower contact.Email }
  .ok ({ contact with ID := db.nextContactID },
    { db with contacts := db.contacts ++ [row], nextContactID := db.nextContactID + 1 })

/-- Go `(*ContactRepository).GetByIDAndUserID`. -/
def ContactRepository.GetByIDAndUserID (db : DB) (id userID : Nat) : Except String Contact :=
  match db.contacts.find? (fun c => c.ID == id && c.UserID == userID) with
  | some c => .ok c
  | none => .error "contact not found"

/-- The `SET` clause of the `UPDATE` of the contact repository, applied to a
row: the nine columns are taken from the contact, the email lower-cased. -/
def ContactRepository.Update.set (contact : Contact) (c : Contact) : Contact :=
  { c with
    Email := ToLower contact.Email
    FirstName := contact.FirstName
    LastName := contact.LastName
    Company := contact.Company
    Position := contact.Position
    Notes := contact.Notes
    Phone := contact.Phone
    LinkedInURL := contact.LinkedInURL
    UpdatedAt := contact.UpdatedAt }

/-- Go `(*ContactRepository).Update`: stamps `UpdatedAt`, writes the nine
columns of the rows with the contact's id and owner, the email lower-cased,
and fails when no row matches. -/
def ContactRepository.Update (db : DB) (now : Time) (contact : Contact) :
    Except String (Contact × DB) :=
  let contact := { contact with UpdatedAt := now }
  let rowsAffected :=
    db.contacts.countP (fun c => c.ID == contact.ID && c.UserID == contact.UserID)
  if rowsAffected == 0 then .error "contact not found"
  else
    .ok (contact,
      { db with
        contacts := db.contacts.map (fun c =>
          if c.ID == contact.ID && c.UserID == contact.UserID then
            ContactRepository.Update.set contact c
          else c) })

/-- Go `(*ContactRepository).Delete`. -/
def ContactRepository.Delete (db : DB) (id userID : Nat) : Except String DB :=
  let rowsAffected := db.contacts.countP (fun c => c.ID == id && c.UserID == userID)
  if rowsAffected == 0 then .error "contact not found"
  else .ok { db with contacts := db.contacts.filter (fun c => !(c.ID == id && c.UserID == userID)) }

/-- Go `(*ContactRepository).IsEmailUsed`: `COUNT(*) > 0` over the rows of the
user whose email equals the lower-cased argument. -/
def ContactRepository.IsEmailUsed (db : DB) (email : String) (userID : Nat) :
    Except String Bool :=
  let count := db.contacts.countP (fun c => c.Email == ToLower email && c.UserID == userID)
  .ok (decide (count > 0))

/-- The rows in the order of `ORDER BY created_at DESC`; rows with the same
`created_at`, whose order SQL leaves open, stay in insertion order. -/
def orderByCreatedAtDesc (rows : List IntroductionRequest) : List IntroductionRequest :=
  rows.insertionSort (fun a b => a.CreatedAt ≥ b.CreatedAt)

/-- Go `(*RequestRepository).GetAllByRequesterID`. -/
def RequestRepository.GetAllByRequesterID (db : DB) (requesterID : Nat) :
    Except String (List IntroductionRequest) :=
  .ok (orderByCreatedAtDesc (db.requests.filter (fun r => r.RequesterID == requesterID)))

/-- Go `(*RequestRepository).GetAllByApproverID`. -/
def RequestRepository.GetAllByApproverID (db : DB) (approverID : Nat) :
    Except String (List IntroductionRequest) :=
  .ok (orderByCreatedAtDesc (db.requests.filter (fun r => r.ApproverID == approverID)))

/-- SQL `text LIKE pattern` with the default escape character: `%` matches
any run of characters, `_` any one character, a backslash makes the next
pattern character literal, and every other character matches itself. -/
def likeMatch : List Char → List Char → Bool
  | [], text => text.isEmpty
  | '%' :: pattern, text => text.tails.any (fun rest => likeMatch pattern rest)
  | '_' :: pattern, text =>
    match text with
    | [] => false
    | _ :: rest => likeMatch pattern rest
  | '\\' :: c :: pattern, text =>
    match text with
    | [] => false
    | x :: rest => x == c && likeMatch pattern rest
  | c :: pattern, text =>
    match text with
    | [] => false
    | x :: rest => x == c && likeMatch pattern rest

/-- SQL `LOWER(text) LIKE pattern`. -/
def lowerLike (text pattern : String) : Bool :=
  likeMatch pattern.data (ToLower text).data

/-- The rows in the order of `ORDER BY first_name, last_name`, compared as
strings; rows with the same names stay in insertion order. -/
def orderByName (rows : List Contact) : List Contact :=
  rows.insertionSort (fun a b =>
    a.FirstName < b.FirstName ∨ (a.FirstName = b.FirstName ∧ ¬ b.LastName < a.LastName))

/-- Go `(*ContactRepository).SearchByNameOrCompany`. -/
def ContactRepository.SearchByNameOrCompany (db : DB) (userID : Nat) (query : String) :
    Except String (List Contact) :=
  let searchPattern := "%" ++ ToLower query ++ "%"
  .ok (orderByName (db.contacts.filter (fun c =>
    c.UserID == userID &&
      (lowerLike c.FirstName searchPattern || lowerLike c.LastName searchPattern ||
        lowerLike c.Company searchPattern))))

/-! ## Mailer (`internal/email/mailer.go`) -/

/-- Go `email.Mailer`. -/
structure Mailer where
  host : String
  port : Int
  username : String
  password : String
  /-- The field `from`. -/
  fromEmail : String
  fromName : String
  deriving DecidableEq, Repr

/-- A mail as `sendEmailToMultiple` is asked to send it: the sender, the
recipients handed to `smtp.SendMail`, the subject, the template file and the
template data. -/
structure Email where
  From : String
  To : List String
  Subject : String
  TemplateFile : String
  Requester : User
  Approver : User
  Contact : Contact
  Request : IntroductionRequest
  deriving DecidableEq, Repr

/-- The outcome of loading and rendering the template and of `smtp.SendMail`
for a mail: the error, or none when the mail was accepted.  Templates and
transport are not part of the sources and are taken as given. -/
abbrev Delivery := Email → Option String

/-- Go `(*Mailer).sendEmailToMultiple`: the error returned, and the mails
accepted so far with this one added when it was accepted. -/
def Mailer.sendEmailToMultiple (m : Mailer) (delivery : Delivery) (outbox : List Email)
    (recipients : List String) (subject templateFile : String) (requester approver : User)
    (contact : Contact) (request : IntroductionRequest) : Option String × List Email :=
  let mail : Email :=
    { From := m.fromEmail, To := recipients, Subject := subject, TemplateFile := templateFile,
      Requester := requester, Approver := approver, Contact := contact, Request := request }
  match delivery mail with
  | some err => (some err, outbox)
  | none => (none, outbox ++ [mail])

/-- Go `(*Mailer).sendEmail`. -/
def Mailer.sendEmail (m : Mailer) (delivery : Delivery) (outbox : List Email)
    (recipient subject templateFile : String) (requester approver : User)
    (contact : Contact) (request : IntroductionRequest) : Option String × List Email :=
  m.sendEmailToMultiple delivery outbox [recipient] subject templateFile requester approver contact
    request

/-- Go `(*Mailer).SendNewRequestEmail`. -/
def Mailer.SendNewRequestEmail (m : Mailer) (delivery : Delivery) (outbox : List Email)
    (recipient : String) (requester approver : User) (contact : Contact)
    (request : IntroductionRequest) : Option String × List Email :=
  let subject := requester.FirstName ++ " " ++ requester.LastName ++
    " would like an introduction to " ++ contact.FirstName ++ " " ++ contact.LastName
  m.sendEmail delivery outbox recipient subject "new_request.html" requester approver contact request

/-- Go `(*Mailer).SendRequestApprovedEmail`. -/
def Mailer.SendRequestApprovedEmail (m : Mailer) (delivery : Delivery) (outbox : List Email)
    (toRequester toContact ccApprover : String) (requester approver : User) (contact : Contact)
    (request : IntroductionRequest) : Option String × List Email :=
  let subject := "Introduction: " ++ requester.FirstName ++ " " ++ requester.LastName ++
    " <> " ++ contact.FirstName ++ " " ++ contact.LastName
  let recipients := [toRequester, toContact, ccApprover]
  m.sendEmailToMultiple delivery outbox recipients subject "request_approved.html" requester approver
    contact request

/-- Go `(*Mailer).SendRequestDeclinedEmail`. -/
def Mailer.SendRequestDeclinedEmail (m : Mailer) (delivery : Delivery) (outbox : List Email)
    (recipient : String) (requester approver : User) (contact : Contact)
    (request : IntroductionRequest) : Option String × List Email :=
  let subject := "Introduction request to " ++ contact.FirstName ++ " " ++ contact.LastName ++
    " was declined"
  m.sendEmail delivery outbox recipient subject "request_declined.html" requester approver contact
    request

/-! ## Request service (`internal/services/request_service.go`) -/

/-- A notification task started with `go`: which helper was started and the
request it was given. -/
inductive Notification where
  | sendNewRequestNotification (request : IntroductionRequest)
  | sendApprovalNotification (request : IntroductionRequest)
  | sendDeclineNotification (request : IntroductionRequest)
  deriving DecidableEq, Repr

/-- The state a service call runs in: the store and the notification tasks
dispatched so far, oldest first. -/
structure World where
  db : DB
  dispatched : List Notification
  deriving DecidableEq, Repr

/-- Go `(*RequestService).CreateRequest`. -/
def RequestService.CreateRequest (w : World) (now : Time) (req : RequestCreateRequest)
    (requesterID : Nat) : Except String IntroductionRequest × World :=
  match ContactRepository.GetByID w.db req.TargetContactID with
  | .error err => (.error err, w)
  | .ok contact =>
    if contact.UserID != req.ApproverID then
      (.error "target contact does not belong to specified approver", w)
    else
      match RequestRepository.Exists w.db requesterID req.TargetContactID with
      | .error err => (.error err, w)
      | .ok found =>
        if found then
          (.error "a request for this contact already exists", w)
        else
          let request := NewIntroductionRequest now req requesterID
          match RequestRepository.Create w.db request with
          | .error err => (.error err, w)
          | .ok (request, db) =>
            (.ok request,
              { db := db
                dispatched := w.dispatched ++ [.sendNewRequestNotification request] })

/-- Go `(*RequestService).GetRequest`. -/
def RequestService.GetRequest (db : DB) (id userID : Nat) :
    Except String (IntroductionRequest × User × User × Contact) :=
  match RequestRepository.GetByID db id with
  | .error err => .error err
  | .ok request =>
    if request.RequesterID != userID && request.ApproverID != userID then
      .error "unauthorized to access this request"
    else
      match UserRepository.GetByID db request.RequesterID with
      | .error err => .error err
      | .ok requester =>
        match UserRepository.GetByID db request.ApproverID with
        | .error err => .error err
        | .ok approver =>
          match ContactRepository.GetByID db request.TargetContactID with
          | .error err => .error err
          | .ok contact => .ok (request, requester, approver, contact)

/-- Go `(*RequestService).UpdateRequest`. -/
def RequestService.UpdateRequest (w : World) (now : Time) (id userID : Nat)
    (req : RequestUpdateRequest) : Except String IntroductionRequest × World :=
  match RequestRepository.GetByID w.db id with
  | .error err => (.error err, w)
  | .ok request =>
    if request.ApproverID != userID then
      (.error "only the approver can update this request", w)
    else
      let request := { request with Status := req.Status, ResponseMessage := req.ResponseMessage }
      match RequestRepository.Update w.db now request with
      | .error err => (.error err, w)
      | .ok (request, db) =>
        if request.Status == RequestStatusApproved then
          (.ok request,
            { db := db, dispatched := w.dispatched ++ [.sendApprovalNotification request] })
        else if request.Status == RequestStatusDeclined then
          (.ok request,
            { db := db, dispatched := w.dispatched ++ [.sendDeclineNotification request] })
        else
          (.ok request, { db := db, dispatched := w.dispatched })

/-- Go `(*RequestService).DeleteRequest`. -/
def RequestService.DeleteRequest (w : World) (id userID : Nat) : Except String Unit × World :=
  match RequestRepository.GetByID w.db id with
  | .error err => (.error err, w)
  | .ok request =>
    if request.RequesterID != userID then
      (.error "only the requester can delete this request", w)
    else if request.Status != RequestStatusPending then
      (.error "only pending requests can be deleted", w)
    else
      match RequestRepository.Delete w.db id with
      | .error err => (.error err, w)
      | .ok db => (.ok (), { w with db := db })

/-- Go `(*RequestService).GetRequestsByType`. -/
def RequestService.GetRequestsByType (db : DB) (userID : Nat) (isSent : Bool) :
    Except String (List IntroductionRequest) :=
  if isSent then RequestRepository.GetAllByRequesterID db userID
  else RequestRepository.GetAllByApproverID db userID

/-- Go `(*RequestService).sendNewRequestNotification`, run on the store as it
is when the task runs: the mails accepted afterwards.  The function returns
nothing; the error of the mailer is dropped. -/
def RequestService.sendNewRequestNotification (m : Mailer) (delivery : Delivery) (db : DB)
    (outbox : List Email) (request : IntroductionRequest) : List Email :=
  match UserRepository.GetByID db request.RequesterID with
  | .error _ => outbox
  | .ok requester =>
    match UserRepository.GetByID db request.ApproverID with
    | .error _ => outbox
    | .ok approver =>
      match ContactRepository.GetByID db request.TargetContactID with
      | .error _ => outbox
      | .ok contact =>
        (m.SendNewRequestEmail delivery outbox approver.Email requester approver contact
          request).2

/-- Go `(*RequestService).sendApprovalNotification`. -/
def RequestService.sendApprovalNotification (m : Mailer) (delivery : Delivery) (db : DB)
    (outbox : List Email) (request : IntroductionRequest) : List Email :=
  match UserRepository.GetByID db request.RequesterID with
  | .error _ => outbox
  | .ok requester =>
    match UserRepository.GetByID db request.ApproverID with
    | .error _ => outbox
    | .ok approver =>
      match ContactRepository.GetByID db request.TargetContactID with
      | .error _ => outbox
      | .ok contact =>
        (m.SendRequestApprovedEmail delivery outbox requester.Email contact.Email
          approver.Email requester approver contact request).2

/-- Go `(*RequestService).sendDeclineNotification`. -/
def RequestService.sendDeclineNotification (m : Mailer) (delivery : Delivery) (db : DB)
    (outbox : List Email) (request : IntroductionRequest) : List Email :=
  match UserRepository.GetByID db request.RequesterID with
  | .error _ => outbox
  | .ok requester =>
    match UserRepository.GetByID db request.ApproverID with
    | .error _ => outbox
    | .ok approver =>
      match ContactRepository.GetByID db request.TargetContactID with
      | .error _ => outbox
      | .ok contact =>
        (m.SendRequestDeclinedEmail delivery outbox requester.Email requester approver
          contact request).2

/-- The run of a dispatched task: the helper named by the notification, on the
store and the outbox as they are when the task runs. -/
def Notification.run (m : Mailer) (delivery : Delivery) (db : DB) (outbox : List Email) :
    Notification → List Email
  | .sendNewRequestNotification request =>
    RequestService.sendNewRequestNotification m delivery db outbox request
  | .sendApprovalNotification request =>
    RequestService.sendApprovalNotification m delivery db outbox request
  | .sendDeclineNotification request =>
    RequestService.sendDeclineNotification m delivery db outbox request

/-- The state after the dispatched tasks have run, oldest first, and the mails
accepted: the tasks read the store and write to the transport only. -/
def World.runDispatched (m : Mailer) (delivery : Delivery) (w : World) (outbox : List Email) :
    World × List Email :=
  ({ w with dispatched := [] },
    w.dispatched.foldl (fun box task => task.run m delivery w.db box) outbox)

/-! ## Contact service (`internal/services/contact_service.go`) -/

/-- Go `(*ContactService).SearchContacts`. -/
def ContactService.SearchContacts (db : DB) (userID : Nat) (query : String) :
    Except String (List Contact) :=
  ContactRepository.SearchByNameOrCompany db userID query


/-- Go `(*ContactService).CreateContact`. -/
def ContactService.CreateContact (db : DB) (now : Time) (req : ContactCreateRequest)
    (userID : Nat) : Except String Contact × DB :=
  match ContactRepository.IsEmailUsed db req.Email userID with
  | .error err => (.error err, db)
  | .ok found =>
    if found then (.error "email already exists for one of your contacts", db)
    else
      let contact := NewContactFromCreateRequest now req userID
      match ContactRepository.Create db contact with
      | .error err => (.error err, db)
      | .ok (contact, db) => (.ok contact, db)

/-- The email block of `UpdateContact`: the uniqueness check and the
assignment, made when an email is supplied that differs from the current
one. -/
def ContactService.UpdateContact.email (db : DB) (userID : Nat) (req : ContactUpdateRequest)
    (contact : Contact) : Except String Contact :=
  if req.Email != "" && req.Email != contact.Email then
    match ContactRepository.IsEmailUsed db req.Email userID with
    | .error err => .error err
    | .ok found =>
      if found then .error "email already exists for one of your contacts"
      else .ok { contact with Email := req.Email }
  else .ok contact

/-- The field block of `UpdateContact`: first and last name are assigned when
supplied, the five other fields always. -/
def ContactService.UpdateContact.fields (req : ContactUpdateRequest) (contact : Contact) :
    Contact :=
  let contact := if req.FirstName != "" then { contact with FirstName := req.FirstName }
    else contact
  let contact := if req.LastName != "" then { contact with LastName := req.LastName }
    else contact
  { contact with
    Company := req.Company
    Position := req.Position
    Notes := req.Notes
    Phone := req.Phone
    LinkedInURL := req.LinkedInURL }

/-- Go `(*ContactService).UpdateContact`. -/
def ContactService.UpdateContact (db : DB) (now : Time) (id userID : Nat)
    (req : ContactUpdateRequest) : Except String Contact × DB :=
  match ContactRepository.GetByIDAndUserID db id userID with
  | .error err => (.error err, db)
  | .ok contact =>
    match ContactService.UpdateContact.email db userID req contact with
    | .error err => (.error err, db)
    | .ok contact =>
      let contact := ContactService.UpdateContact.fields req contact
      match ContactRepository.Update db now contact with
      | .error err => (.error err, db)
      | .ok (contact, db) => (.ok contact, db)

/-- Go `(*ContactService).DeleteContact`. -/
def ContactService.DeleteContact (db : DB) (id userID : Nat) : Except String Unit × DB :=
  match ContactRepository.Delete db id userID with
  | .error err => (.error err, db)
  | .ok db => (.ok (), db)

/-- The body of the loop of `BatchImportContacts` for one item, on the result
built so far and the store. -/
def ContactService.BatchImportContacts.body (now : Time) (userID : Nat)
    (acc : BatchImportResponse × DB) (contactReq : ContactCreateRequest) :
    BatchImportResponse × DB :=
  let result := acc.1
  let db := acc.2
  let contact := NewContactFromCreateRequest now contactReq userID
  match ContactRepository.IsEmailUsed db contact.Email userID with
  | .error err =>
    ({ result with
       Errors := result.Errors ++ [{ Data := contactReq, Errors := [err] }]
       ErrorCount := result.ErrorCount + 1 }, db)
  | .ok found =>
    if found then
      ({ result with
         Errors := result.Errors ++
           [{ Data := contactReq, Errors := ["email already exists for one of your contacts"] }]
         ErrorCount := result.ErrorCount + 1 }, db)
    else
      match ContactRepository.Create db contact with
      | .error err =>
        ({ result with
           Errors := result.Errors ++ [{ Data := contactReq, Errors := [err] }]
           ErrorCount := result.ErrorCount + 1 }, db)
      | .ok (_, db) => ({ result with SuccessCount := result.SuccessCount + 1 }, db)

/-- Go `(*ContactService).BatchImportContacts`; the items are stamped with one
reading of the clock. -/
def ContactService.BatchImportContacts (db : DB) (now : Time) (req : ContactBatchImportRequest)
    (userID : Nat) : Except String BatchImportResponse × DB :=
  let result : BatchImportResponse := { SuccessCount := 0, ErrorCount := 0, Errors := [] }
  let final := req.Contacts.foldl (ContactService.BatchImportContacts.body now userID)
    (result, db)
  (.ok final.1, final.2)

/-! ## Authentication service (`internal/services/auth_service.go`) -/

/-- The library functions behind `utils.CheckPasswordHash`,
`utils.GenerateJWT` and the `email` tag of the validator; they are not part
of the sources and are taken as given. -/
structure Libraries where
  /-- `bcrypt.CompareHashAndPassword(hash, password)` returned no error. -/
  CompareHashAndPassword : String → String → Bool
  /-- `SignedString` of the HS256 token with the given user id, expiry time
  and issue time, under the secret. -/
  SignedString : Nat → Int → Int → String → Except String String
  /-- The `email` tag accepts the string. -/
  IsEmail : String → Bool
  /-- `bcrypt.GenerateFromPassword(password, 10)`; the second argument stands
  for the random salt the library draws. -/
  GenerateFromPassword : String → String → Except String String
  /-- `jwt.ParseWithClaims` with the key function of `ParseJWT` (HMAC methods
  only, the secret as key): the user id of the parsed claims and the `Valid`
  flag of the token, or the error. -/
  ParseWithClaims : String → String → Except String (Nat × Bool)

/-- Go `utils.CheckPasswordHash`. -/
def CheckPasswordHash (lib : Libraries) (password hash : String) : Bool :=
  lib.CompareHashAndPassword hash password

/-- Go `(*User).CheckPassword`. -/
def User.CheckPassword (lib : Libraries) (u : User) (password : String) : Bool :=
  CheckPasswordHash lib password u.PasswordHash

/-- Go `utils.GenerateJWT`; `expiry` is a `time.Duration`. -/
def GenerateJWT (lib : Libraries) (now : Time) (userID : Nat) (secret : String) (expiry : Int) :
    Except String String :=
  let expirationTime : Int := now + expiry
  match lib.SignedString userID expirationTime now secret with
  | .error err => .error ("error signing token: " ++ err)
  | .ok tokenString => .ok tokenString

/-- Go `time.Hour`, in nanoseconds. -/
def Hour : Int := 3600000000000

/-- The value of an `int64` computation: the result modulo 2^64, in the
signed range. -/
def wrapInt64 (x : Int) : Int :=
  (x + 2 ^ 63) % 2 ^ 64 - 2 ^ 63

/-- Go `services.AuthService`, without the repository it points to. -/
structure AuthService where
  jwtSecret : String
  jwtExpiryHrs : Int
  deriving DecidableEq, Repr

/-- Go `(*AuthService).Login`: the token, the user and the error returned. -/
def AuthService.Login (lib : Libraries) (s : AuthService) (db : DB) (now : Time)
    (req : UserLoginRequest) : String × Option User × Option String :=
  match UserRepository.GetByEmail db req.Email with
  | .error _ => ("", none, some "invalid email or password")
  | .ok user =>
    if !user.CheckPassword lib req.Password then
      ("", none, some "invalid email or password")
    else
      match GenerateJWT lib now user.ID s.jwtSecret (wrapInt64 (s.jwtExpiryHrs * Hour)) with
      | .error err => ("", none, some err)
      | .ok token => (token, some user, none)

/-- Go `utils.HashPassword`. -/
def HashPassword (lib : Libraries) (password salt : String) : Except String String :=
  match lib.GenerateFromPassword password salt with
  | .error err => .error ("error hashing password: " ++ err)
  | .ok bytes => .ok bytes

/-- Go `models.NewUserFromSignupRequest`. -/
def NewUserFromSignupRequest (lib : Libraries) (now : Time) (salt : String)
    (req : UserSignupRequest) : Except String User :=
  match HashPassword lib req.Password salt with
  | .error err => .error err
  | .ok passwordHash =>
    .ok { ID := 0
          Email := req.Email
          PasswordHash := passwordHash
          FirstName := req.FirstName
          LastName := req.LastName
          Company := req.Company
          Position := req.Position
          Bio := ""
          ProfilePicture := ""
          CreatedAt := now
          UpdatedAt := now }

/-- Go `services.NewAuthService`. -/
def NewAuthService (jwtSecret : String) (jwtExpiryHrs : Int) : AuthService :=
  { jwtSecret := jwtSecret, jwtExpiryHrs := jwtExpiryHrs }

/-- Go `(*AuthService).Register`: the token, the user and the error returned,
and the store left behind. -/
def AuthService.Register (lib : Libraries) (s : AuthService) (db : DB) (now : Time)
    (salt : String) (req : UserSignupRequest) : (String × Option User × Option String) × DB :=
  match UserRepository.GetByEmail db req.Email with
  | .ok _ => (("", none, some "email already registered"), db)
  | .error _ =>
    match NewUserFromSignupRequest lib now salt req with
    | .error err => (("", none, some err), db)
    | .ok user =>
      match UserRepository.Create db user with
      | .error err => (("", none, some err), db)
      | .ok (user, db) =>
        match GenerateJWT lib now user.ID s.jwtSecret (wrapInt64 (s.jwtExpiryHrs * Hour)) with
        | .error err => (("", none, some err), db)
        | .ok token => ((token, some user, none), db)

/-- Go `utils.ParseJWT`. -/
def ParseJWT (lib : Libraries) (tokenString secret : String) : Except String Nat :=
  match lib.ParseWithClaims tokenString secret with
  | .error err => .error ("error parsing token: " ++ err)
  | .ok (userID, valid) => if !valid then .error "invalid token" else .ok userID

/-! ## Configuration (`internal/config/config.go`) -/

/-- The process environment: `os.LookupEnv`. -/
abbrev Env := String → Option String

/-- The `Err` of the `*NumError` of `strconv`. -/
inductive NumError where
  | ErrSyntax
  | ErrRange
  deriving DecidableEq, Repr

/-- The decimal value of a string of digits. -/
def digitsValue (cs : List Char) : Nat :=
  cs.foldl (fun acc c => acc * 10 + (c.toNat - 48)) 0

/-- Go `strconv.Atoi` for a 64-bit `int`: an optional sign and a non-empty run
of decimal digits; a syntax error yields 0 and a range error the nearest
representable value. -/
def Atoi (s : String) : Int × Option NumError :=
  let digits := match s.data with
    | '+' :: rest => rest
    | '-' :: rest => rest
    | cs => cs
  let neg := match s.data with
    | '-' :: _ => true
    | _ => false
  if digits.isEmpty || !digits.all Char.isDigit then (0, some .ErrSyntax)
  else
    let n : Int := digitsValue digits
    if neg then
      if n > 2 ^ 63 then (-(2 ^ 63), some .ErrRange) else (-n, none)
    else
      if n > 2 ^ 63 - 1 then (2 ^ 63 - 1, some .ErrRange) else (n, none)

/-- Go `config.getEnv`. -/
def getEnv (env : Env) (key fallback : String) : String :=
  match env key with
  | some value => value
  | none => fallback

/-- Go `config.getIntEnv`. -/
def getIntEnv (env : Env) (key : String) (fallback : Int) : Int :=
  match env key with
  | some value =>
    match Atoi value with
    | (intVal, none) => intVal
    | (_, some _) => fallback
  | none => fallback

/-- Go `config.getEnvSlice`. -/
def getEnvSlice (env : Env) (key : String) (fallback : List String) : List String :=
  match env key with
  | some value => [value]
  | none => fallback

/-- Go `time.Second`, in nanoseconds. -/
def Second : Int := 1000000000

/-- Go `config.Config`. -/
structure Config where
  ServerPort : String
  ServerTimeout : Int
  ServerEnv : String
  AllowedOrigins : List String
  TrustedProxies : List String
  LogLevel : String
  MySQLDSN : String
  JWTSecret : String
  JWTExpiryHours : Int
  SMTPHost : String
  SMTPPort : Int
  SMTPUsername : String
  SMTPPassword : String
  SMTPFromEmail : String
  SMTPFromName : String
  deriving DecidableEq, Repr

/-- Go `config.NewConfig`. -/
def NewConfig (env : Env) : Config :=
  let jwtExpiryHours := (Atoi (getEnv env "JWT_EXPIRY_HOURS" "24")).1
  let smtpPort := (Atoi (getEnv env "SMTP_PORT" "587")).1
  { ServerPort := getEnv env "SERVER_PORT" "8080"
    ServerTimeout := wrapInt64 (getIntEnv env "SERVER_TIMEOUT_SECONDS" 30 * Second)
    ServerEnv := getEnv env "SERVER_ENV" "development"
    AllowedOrigins := getEnvSlice env "ALLOWED_ORIGINS" ["*"]
    TrustedProxies := getEnvSlice env "TRUSTED_PROXIES" []
    LogLevel := getEnv env "LOG_LEVEL" "info"
    MySQLDSN := getEnv env "MYSQL_DSN" "root:password@tcp(localhost:3306)/introhub?parseTime=true"
    JWTSecret := getEnv env "JWT_SECRET" "your-secret-key"
    JWTExpiryHours := jwtExpiryHours
    SMTPHost := getEnv env "SMTP_HOST" "smtp.example.com"
    SMTPPort := smtpPort
    SMTPUsername := getEnv env "SMTP_USERNAME" ""
    SMTPPassword := getEnv env "SMTP_PASSWORD" ""
    SMTPFromEmail := getEnv env "SMTP_FROM_EMAIL" "noreply@introhub.com"
    SMTPFromName := getEnv env "SMTP_FROM_NAME" "Intro-Hub" }

/-! ## Authentication middleware (`internal/api/middleware/auth.go`) -/

/-- Go `strings.HasPrefix`. -/
def HasPrefix (s pre : String) : Bool :=
  pre.data.isPrefixOf s.data

/-- Go `strings.TrimPrefix`. -/
def TrimPrefix (s pre : String) : String :=
  if HasPrefix s pre then String.mk (s.data.drop pre.data.length) else s

/-- The part of the `gin.Context` the handlers read: the value stored under
the key `userID`, if any. -/
structure Context where
  userID : Option Nat
  deriving DecidableEq, Repr

/-- Go `middleware.GetUserID`. -/
def GetUserID (c : Context) : Nat :=
  match c.userID with
  | none => 0
  | some userID => userID

/-! ## HTTP handlers (`internal/api/handlers/requests.go`) -/

/-- Go `strconv.ParseUint(s, 10, bitSize)`: a non-empty string of decimal
digits whose value fits in `bitSize` bits. -/
def ParseUint (s : String) (bitSize : Nat) : Option Nat :=
  let cs := s.toList
  if cs.isEmpty then none
  else if cs.all Char.isDigit then
    let n := cs.foldl (fun acc c => acc * 10 + (c.toNat - 48)) 0
    if n < 2 ^ bitSize then some n else none
  else none

/-- Go `utils.Validate` on a `RequestUpdateRequest`, whose only constrained
field is `status` with the tag `required,oneof=pending approved declined`.
The result is `none` when the request is valid and the error text otherwise
(the field messages are those of the English translation of the validator
library). -/
def RequestUpdateRequest.Validate (req : RequestUpdateRequest) : Option String :=
  if req.Status == "" then
    some "validation failed: status is a required field"
  else if req.Status == "pending" || req.Status == "approved" || req.Status == "declined" then
    none
  else
    some "validation failed: status must be one of [pending approved declined]"

/-- The JSON body written by a handler. -/
inductive Body where
  | error (message : String)
  | request (response : RequestResponse)
  | auth (token : String) (user : UserResponse)
  | requests (responses : List RequestResponse)
  | empty
  deriving DecidableEq, Repr

/-- The HTTP response written by a handler. -/
structure Response where
  status : Nat
  body : Body
  deriving DecidableEq, Repr

def StatusOK : Nat := 200
def StatusCreated : Nat := 201
def StatusNoContent : Nat := 204
def StatusBadRequest : Nat := 400
def StatusUnauthorized : Nat := 401
def StatusForbidden : Nat := 403
def StatusNotFound : Nat := 404
def StatusInternalServerError : Nat := 500

/-- Go `(*RequestHandler).GetRequest`; `userID` is the id the authentication
middleware stored in the context and `idParam` the path parameter `id`. -/
def RequestHandler.GetRequest (db : DB) (userID : Nat) (idParam : String) : Response :=
  match ParseUint idParam 32 with
  | none => { status := StatusBadRequest, body := .error "Invalid request ID" }
  | some requestID =>
    match RequestService.GetRequest db requestID userID with
    | .error err =>
      let status :=
        if err == "request not found" || err == "unauthorized to access this request" then
          StatusNotFound
        else StatusInternalServerError
      { status := status, body := .error err }
    | .ok (request, requester, approver, contact) =>
      { status := StatusOK, body := .request (request.ToResponse requester approver contact) }

/-- Go `(*RequestHandler).UpdateRequest`; `body` is the result of
`ShouldBindJSON`, `none` when the body does not bind. -/
def RequestHandler.UpdateRequest (w : World) (now : Time) (userID : Nat) (idParam : String)
    (body : Option RequestUpdateRequest) : Response × World :=
  match ParseUint idParam 32 with
  | none => ({ status := StatusBadRequest, body := .error "Invalid request ID" }, w)
  | some requestID =>
    match body with
    | none => ({ status := StatusBadRequest, body := .error "Invalid request body" }, w)
    | some req =>
      match req.Validate with
      | some err => ({ status := StatusBadRequest, body := .error err }, w)
      | none =>
        match RequestService.UpdateRequest w now requestID userID req with
        | (.error err, w1) =>
          let status :=
            if err == "request not found" then StatusNotFound
            else if err == "only the approver can update this request" then StatusForbidden
            else StatusInternalServerError
          ({ status := status, body := .error err }, w1)
        | (.ok request, w1) =>
          match RequestService.GetRequest w1.db request.ID userID with
          | .error err => ({ status := StatusInternalServerError, body := .error err }, w1)
          | .ok (fullRequest, requester, approver, contact) =>
            ({ status := StatusOK,
               body := .request (fullRequest.ToResponse requester approver contact) }, w1)

/-- Go `(*RequestHandler).DeleteRequest`. -/
def RequestHandler.DeleteRequest (w : World) (userID : Nat) (idParam : String) :
    Response × World :=
  match ParseUint idParam 32 with
  | none => ({ status := StatusBadRequest, body := .error "Invalid request ID" }, w)
  | some requestID =>
    match RequestService.DeleteRequest w requestID userID with
    | (.error err, w1) =>
      let status :=
        if err == "request not found" then StatusNotFound
        else if err == "only the requester can delete this request"
            || err == "only pending requests can be deleted" then StatusForbidden
        else StatusInternalServerError
      ({ status := status, body := .error err }, w1)
    | (.ok _, w1) => ({ status := StatusNoContent, body := .empty }, w1)

/-- Go `utils.Validate` on a `RequestCreateRequest`, whose three fields carry
the tag `required`: the failing fields are reported in field order. -/
def RequestCreateRequest.Validate (req : RequestCreateRequest) : Option String :=
  let errorMessages :=
    (if req.ApproverID == 0 then ["approver_id is a required field"] else []) ++
    (if req.TargetContactID == 0 then ["target_contact_id is a required field"] else []) ++
    (if req.Message == "" then ["message is a required field"] else [])
  if errorMessages.isEmpty then none
  else some ("validation failed: " ++ ", ".intercalate errorMessages)

/-- Go `(*RequestHandler).CreateRequest`. -/
def RequestHandler.CreateRequest (w : World) (now : Time) (userID : Nat)
    (body : Option RequestCreateRequest) : Response × World :=
  match body with
  | none => ({ status := StatusBadRequest, body := .error "Invalid request body" }, w)
  | some req =>
    match req.Validate with
    | some err => ({ status := StatusBadRequest, body := .error err }, w)
    | none =>
      match RequestService.CreateRequest w now req userID with
      | (.error err, w1) => ({ status := StatusBadRequest, body := .error err }, w1)
      | (.ok request, w1) =>
        match RequestService.GetRequest w1.db request.ID userID with
        | .error err => ({ status := StatusInternalServerError, body := .error err }, w1)
        | .ok (fullRequest, requester, approver, contact) =>
          ({ status := StatusCreated,
             body := .request (fullRequest.ToResponse requester approver contact) }, w1)

/-- Go `(*RequestHandler).ListRequests`; `typeParam` is the query parameter
`type`, if given. -/
def RequestHandler.ListRequests (db : DB) (userID : Nat) (typeParam : Option String) :
    Response :=
  let requestType := typeParam.getD "received"
  let isSent := requestType == "sent"
  match RequestService.GetRequestsByType db userID isSent with
  | .error err => { status := StatusInternalServerError, body := .error err }
  | .ok requests =>
    let responses := requests.filterMap (fun request =>
      match RequestService.GetRequest db request.ID userID with
      | .error _ => none
      | .ok (fullRequest, requester, approver, contact) =>
        some (fullRequest.ToResponse requester approver contact))
    { status := StatusOK, body := .requests responses }

/-- Go `middleware.AuthMiddleware`: `authHeader` is the value of the header
`Authorization`, empty when the header is missing, and `next` the rest of the
handler chain, run on the context with `userID` set. -/
def AuthMiddleware (lib : Libraries) (jwtSecret : String) (c : Context) (authHeader : String)
    (next : Context → Response) : Response :=
  if authHeader == "" then
    { status := StatusUnauthorized, body := .error "Authorization header is required" }
  else if !HasPrefix authHeader "Bearer " then
    { status := StatusUnauthorized,
      body := .error "Authorization header must start with Bearer" }
  else
    let token := TrimPrefix authHeader "Bearer "
    if token == "" then
      { status := StatusUnauthorized, body := .error "Token is required" }
    else
      match ParseJWT lib token jwtSecret with
      | .error _ => { status := StatusUnauthorized, body := .error "Invalid or expired token" }
      | .ok userID => next { c with userID := some userID }

/-! ## HTTP handlers (`internal/api/handlers/auth.go`) -/

/-- Go `utils.Validate` on a `UserLoginRequest`: `email` carries
`required,email` and `password` carries `required`; a field reports its first
failing tag. -/
def UserLoginRequest.Validate (lib : Libraries) (req : UserLoginRequest) : Option String :=
  let errorMessages :=
    (if req.Email == "" then ["email is a required field"]
     else if !lib.IsEmail req.Email then ["email must be a valid email address"]
     else []) ++
    (if req.Password == "" then ["password is a required field"] else [])
  if errorMessages.isEmpty then none
  else some ("validation failed: " ++ ", ".intercalate errorMessages)

/-- Go `(*AuthHandler).Login`.  The last case, no user and no error, is not a
result of `Login`; the handler would dereference the nil user there and the
recovery of the framework would answer 500. -/
def AuthHandler.Login (lib : Libraries) (s : AuthService) (db : DB) (now : Time)
    (body : Option UserLoginRequest) : Response :=
  match body with
  | none => { status := StatusBadRequest, body := .error "Invalid request body" }
  | some req =>
    match req.Validate lib with
    | some err => { status := StatusBadRequest, body := .error err }
    | none =>
      match AuthService.Login lib s db now req with
      | (_, _, some err) => { status := StatusUnauthorized, body := .error err }
      | (token, some user, none) => { status := StatusOK, body := .auth token user.ToResponse }
      | (_, none, none) => { status := StatusInternalServerError, body := .empty }

/-! ## Well-formed stores and reachable states -/

/-- The primary-key discipline of `introduction_requests`: ids are pairwise
distinct and below the `AUTO_INCREMENT` counter. -/
def DB.WellFormed (db : DB) : Prop :=
  (db.requests.map (fun r => r.ID)).Nodup ∧ ∀ r ∈ db.requests, r.ID < db.nextRequestID

instance (db : DB) : Decidable db.WellFormed := by
  unfold DB.WellFormed; infer_instance

/-- States reachable from an empty request table by calls of the three
mutating operations of the request service, in any order and with any
arguments; `other` stands for the calls of other services in between, which
leave the request table and its counter alone. -/
inductive Reachable : World → Prop where
  | init (users : List User) (contacts : List Contact)
      (nextRequestID nextContactID nextUserID : Nat) (dispatched : List Notification) :
      Reachable
        { db := { users := users, contacts := contacts, requests := [],
                  nextRequestID := nextRequestID, nextContactID := nextContactID,
                  nextUserID := nextUserID },
          dispatched := dispatched }
  | create (w : World) (now : Time) (req : RequestCreateRequest) (requesterID : Nat) :
      Reachable w → Reachable (RequestService.CreateRequest w now req requesterID).2
  | update (w : World) (now : Time) (id userID : Nat) (req : RequestUpdateRequest) :
      Reachable w → Reachable (RequestService.UpdateRequest w now id userID req).2
  | delete (w : World) (id userID : Nat) :
      Reachable w → Reachable (RequestService.DeleteRequest w id userID).2
  | other (w w2 : World) :
      Reachable w → w2.db.requests = w.db.requests →
      w2.db.nextRequestID = w.db.nextRequestID → Reachable w2

/-- The discipline of the `contacts` table: ids are pairwise distinct and below
the `AUTO_INCREMENT` counter, and emails are stored lower-cased. -/
def DB.ContactsWellFormed (db : DB) : Prop :=
  (db.contacts.map (fun c => c.ID)).Nodup ∧
  (∀ c ∈ db.contacts, c.ID < db.nextContactID) ∧
  (∀ c ∈ db.contacts, ToLower c.Email = c.Email)

instance (db : DB) : Decidable db.ContactsWellFormed := by
  unfold DB.ContactsWellFormed; infer_instance

/-- No owner holds two contacts with the same stored email. -/
def DB.EmailsUnique (db : DB) : Prop :=
  (db.contacts.map (fun c => (c.UserID, c.Email))).Nodup

instance (db : DB) : Decidable db.EmailsUnique := by
  unfold DB.EmailsUnique; infer_instance

/-- The owner holds a contact stored under the lower-cased email: the row
condition of `IsEmailUsed`. -/
def DB.holdsEmail (db : DB) (userID : Nat) (email : String) : Bool :=
  db.contacts.any (fun c => c.Email == ToLower email && c.UserID == userID)

/-- The row a batch item or a create request is stored as, up to its id. -/
def storedRow (now : Time) (userID : Nat) (req : ContactCreateRequest) : Contact :=
  { NewContactFromCreateRequest now req userID with Email := ToLower req.Email }

/-- The entry `BatchImportContacts` appends to `Errors` for an item whose
email the owner holds. -/
def duplicateEmailError (item : ContactCreateRequest) : BatchImportError :=
  { Data := item, Errors := ["email already exists for one of your contacts"] }

/-- States of the store reachable from an empty contact table by calls of the
four mutating operations of the contact service, in any order and with any
arguments; `other` stands for the calls of other services in between, which
leave the contact table and its counter alone. -/
inductive ContactReachable : DB → Prop where
  | init (users : List User) (requests : List IntroductionRequest)
      (nextRequestID nextContactID nextUserID : Nat) :
      ContactReachable
        { users := users, contacts := [], requests := requests,
          nextRequestID := nextRequestID, nextContactID := nextContactID,
          nextUserID := nextUserID }
  | create (db : DB) (now : Time) (req : ContactCreateRequest) (userID : Nat) :
      ContactReachable db → ContactReachable (ContactService.CreateContact db now req userID).2
  | update (db : DB) (now : Time) (id userID : Nat) (req : ContactUpdateRequest) :
      ContactReachable db →
      ContactReachable (ContactService.UpdateContact db now id userID req).2
  | delete (db : DB) (id userID : Nat) :
      ContactReachable db → ContactReachable (ContactService.DeleteContact db id userID).2
  | batchImport (db : DB) (now : Time) (req : ContactBatchImportRequest) (userID : Nat) :
      ContactReachable db →
      ContactReachable (ContactService.BatchImportContacts db now req userID).2
  | other (db db2 : DB) :
      ContactReachable db → db2.contacts = db.contacts →
      db2.nextContactID = db.nextContactID → ContactReachable db2

/-- The response item of a row whose requester, approver and target contact
are all found in the store, and none when one of them is not. -/
def resolvedResponse (db : DB) (r : IntroductionRequest) : Option RequestResponse :=
  match UserRepository.GetByID db r.RequesterID, UserRepository.GetByID db r.ApproverID,
    ContactRepository.GetByID db r.TargetContactID with
  | .ok requester, .ok approver, .ok contact => some (r.ToResponse requester approver contact)
  | _, _, _ => none

/-- The discipline of the `users` table that `UserRepository.Create` keeps:
emails are stored lower-cased. -/
def DB.UserEmailsLowerCased (db : DB) : Prop :=
  ∀ u ∈ db.users, ToLower u.Email = u.Email

instance (db : DB) : Decidable db.UserEmailsLowerCased := by
  unfold DB.UserEmailsLowerCased; infer_instance

/-- States of the store reachable from an empty user table by Register calls,
with any arguments; `other` stands for the calls in between, which write no
email and insert no user: the `UPDATE` of the user repository sets the other
columns, and its `DELETE` removes rows. -/
inductive UserReachable : DB → Prop where
  | init (contacts : List Contact) (requests : List IntroductionRequest)
      (nextRequestID nextContactID nextUserID : Nat) :
      UserReachable
        { users := [], contacts := contacts, requests := requests,
          nextRequestID := nextRequestID, nextContactID := nextContactID,
          nextUserID := nextUserID }
  | register (lib : Libraries) (s : AuthService) (db : DB) (now : Time) (salt : String)
      (req : UserSignupRequest) :
      UserReachable db → UserReachable (AuthService.Register lib s db now salt req).2
  | other (db db2 : DB) :
      UserReachable db → (∀ u ∈ db2.users, ∃ v ∈ db.users, v.Email = u.Email) →
      UserReachable db2

/-! ## Terms of the specification -/

/-- A character with a special meaning in a LIKE pattern. -/
def likeSpecial (c : Char) : Bool := c == '%' || c == '_' || c == '\\'

/-- The text contains the query as a case-insensitive substring. -/
def containsIgnoreCase (text query : String) : Prop :=
  (ToLower query).data <:+: (ToLower text).data

instance (text query : String) : Decidable (containsIgnoreCase text query) := by
  unfold containsIgnoreCase; infer_instance

/-- The items of a batch, each with the items before it; `earlier` are the
items before the first one. -/
def withEarlier (earlier : List ContactCreateRequest) :
    List ContactCreateRequest → List (List ContactCreateRequest × ContactCreateRequest)
  | [] => []
  | item :: rest => (earlier, item) :: withEarlier (earlier ++ [item]) rest

/-- The item of a batch duplicates an email: the owner holds its email, up to
letter case, in the store the import starts from, or an earlier item of the
batch carries its email, up to letter case. -/
def duplicatesEmail (db : DB) (userID : Nat)
    (p : List ContactCreateRequest × ContactCreateRequest) : Bool :=
  db.holdsEmail userID p.2.Email || p.1.any (fun j => ToLower j.Email == ToLower p.2.Email)

/-- The items of a batch that duplicate an email, in input order. -/
def duplicateItems (db : DB) (userID : Nat) (items : List ContactCreateRequest) :
    List ContactCreateRequest :=
  ((withEarlier [] items).filter (duplicatesEmail db userID)).map Prod.snd

/-- The items of a batch that duplicate no email, in input order. -/
def freshItems (db : DB) (userID : Nat) (items : List ContactCreateRequest) :
    List ContactCreateRequest :=
  ((withEarlier [] items).filter (fun p => !duplicatesEmail db userID p)).map Prod.snd

/-- The string is a decimal integer: an optional sign and one or more decimal
digits. -/
def DecimalInteger (s : String) : Prop :=
  ∃ digits : List Char,
    (s.data = digits ∨ s.data = '+' :: digits ∨ s.data = '-' :: digits) ∧
      digits ≠ [] ∧ ∀ c ∈ digits, c.isDigit = true

/-! ## Sample data -/

def sampleContact : Contact :=
  { ID := 7, UserID := 1, Email := "x@y.com", FirstName := "Carol", LastName := "C",
    Company := "Acme", Position := "CTO", Notes := "", Phone := "", LinkedInURL := "",
    CreatedAt := 10, UpdatedAt := 10 }

def sampleUserA : User :=
  { ID := 1, Email := "a@y.com", PasswordHash := "h1", FirstName := "Ann", LastName := "A",
    Company := "Acme", Position := "CEO", Bio := "", ProfilePicture := "",
    CreatedAt := 1, UpdatedAt := 1 }

def sampleUserB : User :=
  { ID := 2, Email := "b@y.com", PasswordHash := "h2", FirstName := "Bob", LastName := "B",
    Company := "Bolt", Position := "Dev", Bio := "", ProfilePicture := "",
    CreatedAt := 2, UpdatedAt := 2 }

/-- Users A (id 1) and B (id 2), contact 7 owned by A, no request. -/
def sampleDB : DB :=
  { users := [sampleUserA, sampleUserB], contacts := [sampleContact], requests := [],
    nextRequestID := 1, nextContactID := 8, nextUserID := 3 }

def sampleWorld : World := { db := sampleDB, dispatched := [] }

/-- A request of B for contact 7, with approver A. -/
def sampleRequest (status : RequestStatus) : IntroductionRequest :=
  { ID := 1, RequesterID := 2, ApproverID := 1, TargetContactID := 7, Message := "hi",
    Status := status, ResponseMessage := "", CreatedAt := 20, UpdatedAt := 20 }

/-- The sample store holding one request of the given status. -/
def sampleWorldWith (status : RequestStatus) : World :=
  { db := { sampleDB with requests := [sampleRequest status], nextRequestID := 2 },
    dispatched := [] }

/-- The sample store with a second contact of owner 1, stored under
`dan@y.com`. -/
def sampleDBTwoContacts : DB :=
  { sampleDB with
    contacts := [sampleContact, { sampleContact with ID := 8, Email := "dan@y.com" }]
    nextContactID := 9 }

/-- The sample store with a second contact of owner 1, stored under
`éva@x.com`. -/
def sampleDBAccented : DB :=
  { sampleDB with
    contacts := [sampleContact, { sampleContact with ID := 8, Email := "éva@x.com" }]
    nextContactID := 9 }

/-- A create request for a contact with the given email. -/
def sampleCreate (email : String) : ContactCreateRequest :=
  { Email := email, FirstName := "Dan", LastName := "D", Company := "Dot", Position := "PM",
    Notes := "", Phone := "", LinkedInURL := "" }

/-- An update request with the given email and first name and empty other
fields. -/
def sampleUpdate (email firstName : String) : ContactUpdateRequest :=
  { Email := email, FirstName := firstName, LastName := "", Company := "", Position := "",
    Notes := "", Phone := "", LinkedInURL := "" }

/-- Library functions for the examples: the hash of a password is the password
after `h:`, and signing always succeeds. -/
def sampleLib : Libraries :=
  { CompareHashAndPassword := fun hash password => hash == "h:" ++ password
    SignedString := fun userID _ _ secret => .ok (secret ++ "." ++ toString userID)
    IsEmail := fun s => s.data.contains '@'
    GenerateFromPassword := fun password _ => .ok ("h:" ++ password)
    ParseWithClaims := fun token secret =>
      if token == secret ++ ".1" then .ok (1, true)
      else if token == secret ++ ".2" then .ok (2, true)
      else if token == secret ++ ".old" then .ok (1, false)
      else .error "token is malformed" }

def sampleAuth : AuthService := { jwtSecret := "k", jwtExpiryHrs := 24 }

/-- The sample store with user B stored under the hash of `pw`. -/
def sampleAuthDB : DB :=
  { sampleDB with users := [sampleUserA, { sampleUserB with PasswordHash := "h:pw" }] }

/-- The sample store with user B stored under `éva@x.com` and the hash of
`pw`. -/
def sampleAuthDBAccented : DB :=
  { sampleDB with
    users := [sampleUserA, { sampleUserB with Email := "éva@x.com", PasswordHash := "h:pw" }] }

/-- A store in which user 1 has received two requests for contact 7: request 1
of user 2, and the later request 2 of user 3, who is not stored. -/
def sampleListDB : DB :=
  { sampleDB with
    requests := [sampleRequest "pending",
      { sampleRequest "pending" with ID := 2, RequesterID := 3, CreatedAt := 30 }]
    nextRequestID := 3 }

/-- A signup with the given email. -/
def sampleSignup (email : String) : UserSignupRequest :=
  { Email := email, Password := "secret1", PasswordConfirm := "secret1", FirstName := "Bea",
    LastName := "B", Company := "", Position := "" }

def sampleMailer : Mailer :=
  { host := "smtp.example.com", port := 587, username := "", password := "",
    fromEmail := "noreply@introhub.com", fromName := "Intro-Hub" }

/-- A transport that accepts every mail. -/
def deliveryUp : Delivery := fun _ => none

/-- A transport that refuses every mail. -/
def deliveryDown : Delivery := fun _ => some "dial tcp: connection refused"

/-- An environment in which only `JWT_EXPIRY_HOURS` is set. -/
def sampleEnv (value : String) : Env :=
  fun key => if key == "JWT_EXPIRY_HOURS" then some value else none

/-- A store without rows. -/
def sampleEmptyDB : DB :=
  { users := [], contacts := [], requests := [], nextRequestID := 1, nextContactID := 1,
    nextUserID := 1 }

/-- The user stored for the sample signup under `new@y.com` at time 50. -/
def sampleSignedUp : User :=
  { ID := 3, Email := "new@y.com", PasswordHash := "h:secret1", FirstName := "Bea",
    LastName := "B", Company := "", Position := "", Bio := "", ProfilePicture := "",
    CreatedAt := 50, UpdatedAt := 50 }

/-- The sample store after that signup. -/
def sampleSignedUpDB : DB :=
  { sampleDB with users := [sampleUserA, sampleUserB, sampleSignedUp], nextUserID := 4 }

/-! ## Theorems -/

/-- What CreateRequest does to the state: nothing, or one row appended under
the next id for a (requester, contact) pair that no stored row has. -/
theorem CreateRequest_state (w : World) (now : Time) (req : RequestCreateRequest)
    (requesterID : Nat) :
    (RequestService.CreateRequest w now req requesterID).2 = w ∨
    ∃ row, (RequestService.CreateRequest w now req requesterID).2.db.requests =
        w.db.requests ++ [row] ∧
      (RequestService.CreateRequest w now req requesterID).2.db.nextRequestID =
        w.db.nextRequestID + 1 ∧
      row.ID = w.db.nextRequestID ∧
      row.RequesterID = requesterID ∧ row.TargetContactID = req.TargetContactID ∧
      ∀ r ∈ w.db.requests,
        ¬ (r.RequesterID = requesterID ∧ r.TargetContactID = req.TargetContactID) := by
  unfold RequestService.CreateRequest
  cases hc : ContactRepository.GetByID w.db req.TargetContactID with
  | error e => simp
  | ok contact =>
    by_cases hown : contact.UserID = req.ApproverID
    · by_cases hex : 0 < w.db.requests.countP
          (fun r => r.RequesterID == requesterID && r.TargetContactID == req.TargetContactID)
      · simp [hown, RequestRepository.Exists, hex]
      · right
        have hnone : ∀ r ∈ w.db.requests,
            ¬ (r.RequesterID = requesterID ∧ r.TargetContactID = req.TargetContactID) := by
          intro r hr hp
          exact hex (List.countP_pos_iff.mpr ⟨r, hr, by simp [hp.1, hp.2]⟩)
        simp only [Nat.not_lt, Nat.le_zero_eq] at hex
        simp [hown, RequestRepository.Exists, hex, RequestRepository.Create,
          NewIntroductionRequest]
        exact fun r hr h1 h2 => hnone r hr ⟨h1, h2⟩
    · simp [hown]

/-- The row-level effect of the `UPDATE` statement of the request repository. -/
theorem Update_ok (db : DB) (now : Time) (request : IntroductionRequest)
    (h : db.requests.countP (fun r => r.ID == request.ID) ≠ 0) :
    RequestRepository.Update db now request =
      .ok ({ request with UpdatedAt := now },
        { db with
          requests := db.requests.map (fun r =>
            if r.ID == request.ID then
              { r with Status := request.Status, ResponseMessage := request.ResponseMessage,
                       UpdatedAt := now }
            else r) }) := by
  simp [RequestRepository.Update, h]

/-- What UpdateRequest does to the state: the rows keep their place and all
their fields except status, response message and update time. -/
theorem UpdateRequest_state (w : World) (now : Time) (id userID : Nat)
    (req : RequestUpdateRequest) :
    ∃ f : IntroductionRequest → IntroductionRequest,
      (∀ r, (f r).ID = r.ID ∧ (f r).RequesterID = r.RequesterID ∧
        (f r).ApproverID = r.ApproverID ∧ (f r).TargetContactID = r.TargetContactID ∧
        (f r).Message = r.Message ∧ (f r).CreatedAt = r.CreatedAt) ∧
      (RequestService.UpdateRequest w now id userID req).2.db.requests =
        w.db.requests.map f ∧
      (RequestService.UpdateRequest w now id userID req).2.db.nextRequestID =
        w.db.nextRequestID := by
  unfold RequestService.UpdateRequest
  cases hg : RequestRepository.GetByID w.db id with
  | error e => exact ⟨fun r => r, by simp, by simp, by simp⟩
  | ok request =>
    by_cases happ : request.ApproverID = userID
    · subst happ
      by_cases hcnt : w.db.requests.countP (fun r => r.ID == request.ID) = 0
      · refine ⟨fun r => r, by simp, ?_, ?_⟩ <;>
          simp [RequestRepository.Update, hcnt]
      · have hcnt2 : w.db.requests.countP (fun r => r.ID ==
            ({ request with Status := req.Status,
                            ResponseMessage := req.ResponseMessage } : IntroductionRequest).ID)
            ≠ 0 := hcnt
        refine ⟨fun r => if r.ID == request.ID then
            { r with Status := req.Status, ResponseMessage := req.ResponseMessage,
                     UpdatedAt := now } else r, ?_, ?_, ?_⟩
        · intro r; by_cases h : r.ID = request.ID <;> simp [h]
        · simp only [bne_self_eq_false, Bool.false_eq_true, if_false, Update_ok _ _ _ hcnt2]
          split_ifs <;> rfl
        · simp only [bne_self_eq_false, Bool.false_eq_true, if_false, Update_ok _ _ _ hcnt2]
          split_ifs <;> rfl
    · exact ⟨fun r => r, by simp, by simp [happ], by simp [happ]⟩

/-- What DeleteRequest does to the state: nothing, or the rows with the given
id are removed. -/
theorem DeleteRequest_state (w : World) (id userID : Nat) :
    ((RequestService.DeleteRequest w id userID).2 = w ∨
      (RequestService.DeleteRequest w id userID).2.db.requests =
        w.db.requests.filter (fun r => !(r.ID == id))) ∧
    (RequestService.DeleteRequest w id userID).2.db.nextRequestID = w.db.nextRequestID := by
  unfold RequestService.DeleteRequest
  cases hg : RequestRepository.GetByID w.db id with
  | error e => simp
  | ok request =>
    by_cases hcnt : w.db.requests.countP (fun r => r.ID == id) = 0
    · simp only [RequestRepository.Delete, hcnt]
      split_ifs <;> simp
    · simp only [RequestRepository.Delete]
      split_ifs <;> simp_all

/-- In a reachable state no two rows share requester and target contact. -/
theorem Reachable_pairs_nodup (w : World) (h : Reachable w) :
    (w.db.requests.map (fun r => (r.RequesterID, r.TargetContactID))).Nodup := by
  induction h with
  | init users contacts nextRequestID nextContactID nextUserID dispatched => simp
  | create w now req requesterID _ ih =>
    rcases CreateRequest_state w now req requesterID with h | ⟨row, hrows, _, _, hr, ht, hnone⟩
    · rw [h]; exact ih
    · rw [hrows, List.map_append, List.nodup_append]
      refine ⟨ih, by simp, ?_⟩
      intro a ha hb
      simp only [List.map_cons, List.map_nil, List.mem_singleton] at hb
      rcases List.mem_map.mp ha with ⟨r, hmem, hpair⟩
      rw [hb, hr, ht] at hpair
      injection hpair with h1 h2
      exact hnone r hmem ⟨h1, h2⟩
  | update w now id userID req _ ih =>
    obtain ⟨f, hf, hrows, _⟩ := UpdateRequest_state w now id userID req
    rw [hrows, List.map_map]
    have hfun : ((fun r : IntroductionRequest => (r.RequesterID, r.TargetContactID)) ∘ f) =
        (fun r => (r.RequesterID, r.TargetContactID)) := by
      funext r
      simp [(hf r).2.1, (hf r).2.2.2.1]
    rw [hfun]; exact ih
  | delete w id userID _ ih =>
    rcases (DeleteRequest_state w id userID).1 with h | h
    · rw [h]; exact ih
    · rw [h]
      exact ih.sublist (List.Sublist.map _ (List.filter_sublist _))
  | other w w2 _ hrows _ ih => rw [hrows]; exact ih

/-- In a list whose (requester, contact) pairs are distinct, at most one row
matches a given pair. -/
theorem filter_pair_length_le_one (l : List IntroductionRequest) (requesterID targetContactID : Nat)
    (h : (l.map (fun r => (r.RequesterID, r.TargetContactID))).Nodup) :
    (l.filter (fun r => r.RequesterID == requesterID &&
      r.TargetContactID == targetContactID)).length ≤ 1 := by
  induction l with
  | nil => simp
  | cons a l ih =>
    rw [List.map_cons, List.nodup_cons] at h
    by_cases hp : a.RequesterID = requesterID ∧ a.TargetContactID = targetContactID
    · have hnil : l.filter (fun r => r.RequesterID == requesterID &&
          r.TargetContactID == targetContactID) = [] := by
        rw [List.filter_eq_nil_iff]
        intro r hr hq
        simp only [Bool.and_eq_true, beq_iff_eq] at hq
        exact h.1 (List.mem_map.mpr ⟨r, hr, by rw [hq.1, hq.2, hp.1, hp.2]⟩)
      simp [List.filter_cons, hp.1, hp.2, hnil]
    · have hq : (a.RequesterID == requesterID && a.TargetContactID == targetContactID) = false := by
        simpa using hp
      rw [List.filter_cons, hq]
      exact ih h.2

/-- Reachable states keep the primary-key discipline. -/
theorem Reachable_wellFormed (w : World) (h : Reachable w) : w.db.WellFormed := by
  induction h with
  | init users contacts nextRequestID nextContactID nextUserID dispatched => simp [DB.WellFormed]
  | create w now req requesterID _ ih =>
    rcases CreateRequest_state w now req requesterID with h | ⟨row, hrows, hnext, hid, _, _, _⟩
    · rw [h]; exact ih
    · unfold DB.WellFormed
      rw [hrows, hnext, List.map_append, List.nodup_append]
      refine ⟨⟨ih.1, by simp, ?_⟩, ?_⟩
      · intro a ha hb
        simp only [List.map_cons, List.map_nil, List.mem_singleton] at hb
        rcases List.mem_map.mp ha with ⟨r, hmem, hrid⟩
        have := ih.2 r hmem
        omega
      · intro r hr
        rcases List.mem_append.mp hr with hr | hr
        · have := ih.2 r hr; omega
        · simp only [List.mem_singleton] at hr
          rw [hr, hid]; omega
  | update w now id userID req _ ih =>
    obtain ⟨f, hf, hrows, hnext⟩ := UpdateRequest_state w now id userID req
    unfold DB.WellFormed
    rw [hrows, hnext, List.map_map]
    have hfun : ((fun r : IntroductionRequest => r.ID) ∘ f) = (fun r => r.ID) := by
      funext r
      simp [(hf r).1]
    rw [hfun]
    refine ⟨ih.1, ?_⟩
    intro r hr
    rcases List.mem_map.mp hr with ⟨r0, hr0, rfl⟩
    rw [(hf r0).1]; exact ih.2 r0 hr0
  | delete w id userID _ ih =>
    obtain ⟨hrows, hnext⟩ := DeleteRequest_state w id userID
    rcases hrows with h | h
    · rw [h]; exact ih
    · unfold DB.WellFormed
      rw [h, hnext]
      exact ⟨ih.1.sublist (List.Sublist.map _ (List.filter_sublist _)),
        fun r hr => ih.2 r (List.mem_of_mem_filter hr)⟩
  | other w w2 _ hrows hnext ih =>
    unfold DB.WellFormed
    rw [hrows, hnext]; exact ih

/-- In a well-formed store the lookup by id of a stored row returns that row. -/
theorem GetByID_of_mem (db : DB) (r : IntroductionRequest) (hwf : db.WellFormed)
    (hmem : r ∈ db.requests) : RequestRepository.GetByID db r.ID = .ok r := by
  have key : ∀ l : List IntroductionRequest, (l.map (fun x => x.ID)).Nodup → r ∈ l →
      l.find? (fun x => x.ID == r.ID) = some r := by
    intro l
    induction l with
    | nil => simp
    | cons a l ih =>
      intro hnd hm
      rw [List.map_cons, List.nodup_cons] at hnd
      rcases List.mem_cons.mp hm with rfl | hm
      · simp
      · have hne : a.ID ≠ r.ID := fun he =>
          hnd.1 (List.mem_map.mpr ⟨r, hm, he.symm⟩)
        simp [List.find?_cons, hne, ih hnd.2 hm]
  simp [RequestRepository.GetByID, key db.requests hwf.1 hmem]

/-- The lookup by id fails exactly when no stored row has the id. -/
theorem GetByID_not_found (db : DB) (id : Nat) (h : ∀ r ∈ db.requests, r.ID ≠ id) :
    RequestRepository.GetByID db id = .error "request not found" := by
  have : db.requests.find? (fun r => r.ID == id) = none := by
    rw [List.find?_eq_none]
    intro r hr
    simpa using h r hr
  simp [RequestRepository.GetByID, this]

/-- A successful lookup by id returns a stored row with that id. -/
theorem GetByID_ok (db : DB) (id : Nat) (r : IntroductionRequest)
    (h : RequestRepository.GetByID db id = .ok r) : r ∈ db.requests ∧ r.ID = id := by
  unfold RequestRepository.GetByID at h
  cases hf : db.requests.find? (fun r => r.ID == id) with
  | none => simp [hf] at h
  | some r0 =>
    simp only [hf, Except.ok.injEq] at h
    subst h
    exact ⟨List.mem_of_find?_eq_some hf, by simpa using List.find?_some hf⟩

/-- UpdateRequest on a stored request by its approver: the value returned
and the store left behind. -/
theorem UpdateRequest_eq (w : World) (now : Time) (id userID : Nat) (req : RequestUpdateRequest)
    (old : IntroductionRequest) (hg : RequestRepository.GetByID w.db id = .ok old)
    (happ : old.ApproverID = userID) :
    (RequestService.UpdateRequest w now id userID req).1 =
      .ok { old with Status := req.Status, ResponseMessage := req.ResponseMessage,
                     UpdatedAt := now } ∧
    (RequestService.UpdateRequest w now id userID req).2.db =
      { w.db with
        requests := w.db.requests.map (fun r =>
          if r.ID == id then
            { r with Status := req.Status, ResponseMessage := req.ResponseMessage,
                     UpdatedAt := now }
          else r) } := by
  obtain ⟨hmem, hid⟩ := GetByID_ok w.db id old hg
  subst happ
  have hcnt : w.db.requests.countP (fun r => r.ID ==
      ({ old with Status := req.Status,
                  ResponseMessage := req.ResponseMessage } : IntroductionRequest).ID) ≠ 0 := by
    have : 0 < w.db.requests.countP (fun r => r.ID == old.ID) :=
      List.countP_pos_iff.mpr ⟨old, hmem, by simp⟩
    exact Nat.pos_iff_ne_zero.mp this
  unfold RequestService.UpdateRequest
  simp only [hg, bne_self_eq_false, Bool.false_eq_true, if_false, Update_ok _ _ _ hcnt]
  subst hid
  constructor <;> split_ifs <;> rfl

/-- Rewriting rows without touching their ids keeps a store well-formed. -/
theorem WellFormed_map (db : DB) (f : IntroductionRequest → IntroductionRequest)
    (hf : ∀ r, (f r).ID = r.ID) (hwf : db.WellFormed) :
    ({ db with requests := db.requests.map f } : DB).WellFormed := by
  unfold DB.WellFormed
  simp only [List.map_map]
  have hfun : ((fun r : IntroductionRequest => r.ID) ∘ f) = (fun r => r.ID) := by
    funext r
    simp [hf r]
  rw [hfun]
  refine ⟨hwf.1, ?_⟩
  intro r hr
  rcases List.mem_map.mp hr with ⟨r0, hr0, rfl⟩
  rw [hf r0]; exact hwf.2 r0 hr0

/-- In a well-formed store two stored rows with the same id are the same row. -/
theorem eq_of_ID_eq (db : DB) (hwf : db.WellFormed) (a b : IntroductionRequest)
    (ha : a ∈ db.requests) (hb : b ∈ db.requests) (h : a.ID = b.ID) : a = b := by
  have hg := GetByID_of_mem db a hwf ha
  rw [h, GetByID_of_mem db b hwf hb] at hg
  simp only [Except.ok.injEq] at hg
  exact hg.symm

/-- UpdateRequest by anyone but the approver of the stored request. -/
theorem UpdateRequest_forbidden (w : World) (now : Time) (id userID : Nat)
    (req : RequestUpdateRequest) (r : IntroductionRequest)
    (hg : RequestRepository.GetByID w.db id = .ok r) (h : r.ApproverID ≠ userID) :
    RequestService.UpdateRequest w now id userID req =
      (.error "only the approver can update this request", w) := by
  simp [RequestService.UpdateRequest, hg, h]

/-- DeleteRequest by anyone but the requester of the stored request. -/
theorem DeleteRequest_not_requester (w : World) (id userID : Nat) (r : IntroductionRequest)
    (hg : RequestRepository.GetByID w.db id = .ok r) (h : r.RequesterID ≠ userID) :
    RequestService.DeleteRequest w id userID =
      (.error "only the requester can delete this request", w) := by
  simp [RequestService.DeleteRequest, hg, h]

/-- DeleteRequest by the requester of a stored request that is not pending. -/
theorem DeleteRequest_not_pending (w : World) (id userID : Nat) (r : IntroductionRequest)
    (hg : RequestRepository.GetByID w.db id = .ok r) (h1 : r.RequesterID = userID)
    (h2 : r.Status ≠ RequestStatusPending) :
    RequestService.DeleteRequest w id userID =
      (.error "only pending requests can be deleted", w) := by
  simp [RequestService.DeleteRequest, hg, h1, h2]

/-- DeleteRequest by the requester of a stored pending request. -/
theorem DeleteRequest_ok (w : World) (id userID : Nat) (r : IntroductionRequest)
    (hg : RequestRepository.GetByID w.db id = .ok r) (h1 : r.RequesterID = userID)
    (h2 : r.Status = RequestStatusPending) :
    RequestService.DeleteRequest w id userID =
      (.ok (), { w with db := { w.db with
        requests := w.db.requests.filter (fun x => !(x.ID == id)) } }) := by
  obtain ⟨hmem, hid⟩ := GetByID_ok w.db id r hg
  have hcnt : w.db.requests.countP (fun x => x.ID == id) ≠ 0 := by
    have : 0 < w.db.requests.countP (fun x => x.ID == id) :=
      List.countP_pos_iff.mpr ⟨r, hmem, by simp [hid]⟩
    exact Nat.pos_iff_ne_zero.mp this
  simp [RequestService.DeleteRequest, hg, h1, h2, RequestRepository.Delete, hcnt]

/-- CreateRequest for a contact of the named approver, when the requester
has no stored request for it: the row built and the state left behind. -/
theorem CreateRequest_ok (w : World) (now : Time) (req : RequestCreateRequest)
    (requesterID : Nat) (contact : Contact)
    (hc : ContactRepository.GetByID w.db req.TargetContactID = .ok contact)
    (hown : contact.UserID = req.ApproverID)
    (hfresh : ∀ r ∈ w.db.requests,
      ¬ (r.RequesterID = requesterID ∧ r.TargetContactID = req.TargetContactID)) :
    RequestService.CreateRequest w now req requesterID =
      (.ok { NewIntroductionRequest now req requesterID with ID := w.db.nextRequestID },
        { db := { w.db with
            requests := w.db.requests ++
              [{ NewIntroductionRequest now req requesterID with ID := w.db.nextRequestID }]
            nextRequestID := w.db.nextRequestID + 1 }
          dispatched := w.dispatched ++ [.sendNewRequestNotification
            { NewIntroductionRequest now req requesterID with ID := w.db.nextRequestID }] }) := by
  have hex : w.db.requests.countP
      (fun r => r.RequesterID == requesterID && r.TargetContactID == req.TargetContactID) = 0 := by
    rw [List.countP_eq_zero]
    intro r hr
    simpa using hfresh r hr
  simp [RequestService.CreateRequest, hc, hown, RequestRepository.Exists, hex,
    RequestRepository.Create]

/-- Appending a row under the counter value and advancing the counter keeps a
store well-formed. -/
theorem WellFormed_insert (db : DB) (row : IntroductionRequest) (hwf : db.WellFormed)
    (hid : row.ID = db.nextRequestID) :
    ({ db with requests := db.requests ++ [row], nextRequestID := db.nextRequestID + 1 } :
      DB).WellFormed := by
  unfold DB.WellFormed
  simp only [List.map_append, List.nodup_append]
  refine ⟨⟨hwf.1, by simp, ?_⟩, ?_⟩
  · intro a ha hb
    simp only [List.map_cons, List.map_nil, List.mem_singleton] at hb
    rcases List.mem_map.mp ha with ⟨r, hmem, hrid⟩
    have := hwf.2 r hmem
    omega
  · intro r hr
    rcases List.mem_append.mp hr with hr | hr
    · have := hwf.2 r hr; omega
    · simp only [List.mem_singleton] at hr
      rw [hr, hid]; omega

/-- After UpdateRequest by the approver on a stored request of a well-formed
store, the lookup by id returns the request with the new status, response
message and update time. -/
theorem stored_after_UpdateRequest (w : World) (now : Time) (r : IntroductionRequest)
    (req : RequestUpdateRequest) (hwf : w.db.WellFormed) (hmem : r ∈ w.db.requests) :
    RequestRepository.GetByID (RequestService.UpdateRequest w now r.ID r.ApproverID req).2.db r.ID =
      .ok { r with Status := req.Status, ResponseMessage := req.ResponseMessage,
                   UpdatedAt := now } := by
  obtain ⟨_, h2⟩ := UpdateRequest_eq w now r.ID r.ApproverID req r
    (GetByID_of_mem w.db r hwf hmem) rfl
  rw [h2]
  have hwf2 := WellFormed_map w.db (fun x =>
      if x.ID == r.ID then
        { x with Status := req.Status, ResponseMessage := req.ResponseMessage,
                 UpdatedAt := now }
      else x)
    (by intro x; by_cases hx : x.ID = r.ID <;> simp [hx]) hwf
  have hmem2 : ({ r with Status := req.Status, ResponseMessage := req.ResponseMessage,
                         UpdatedAt := now } : IntroductionRequest) ∈
      ({ w.db with requests := w.db.requests.map (fun x =>
          if x.ID == r.ID then
            { x with Status := req.Status, ResponseMessage := req.ResponseMessage,
                     UpdatedAt := now }
          else x) } : DB).requests :=
    List.mem_map.mpr ⟨r, hmem, by simp⟩
  exact GetByID_of_mem _ _ hwf2 hmem2

/-- C1: when the target contact exists and its owner is not the approver named
in the request, CreateRequest fails with "target contact does not belong to
specified approver" and returns the state it was given: no row is inserted
and no notification is dispatched. -/
theorem CreateRequest_rejects_foreign_contact (w : World) (now : Time)
    (req : RequestCreateRequest) (requesterID : Nat) (contact : Contact)
    (hc : ContactRepository.GetByID w.db req.TargetContactID = .ok contact)
    (hne : contact.UserID ≠ req.ApproverID) :
    RequestService.CreateRequest w now req requesterID =
      (.error "target contact does not belong to specified approver", w) := by
  simp [RequestService.CreateRequest, hc, hne]

/-- C1, instance: user 2 names itself approver for contact 7, which user 1 owns. -/
theorem CreateRequest_rejects_foreign_contact_witness :
    RequestService.CreateRequest sampleWorld 30
        { ApproverID := 2, TargetContactID := 7, Message := "hi" } 2 =
      (.error "target contact does not belong to specified approver", sampleWorld) :=
  CreateRequest_rejects_foreign_contact sampleWorld 30
    { ApproverID := 2, TargetContactID := 7, Message := "hi" } 2 sampleContact
    (by decide) (by decide)

/-- C2: when a request of the same requester for the same contact is already
stored, in whatever status, CreateRequest naming the contact's owner as
approver fails with "a request for this contact already exists" and returns
the state it was given. -/
theorem CreateRequest_rejects_duplicate (w : World) (now : Time)
    (req : RequestCreateRequest) (requesterID : Nat) (contact : Contact)
    (earlier : IntroductionRequest)
    (hc : ContactRepository.GetByID w.db req.TargetContactID = .ok contact)
    (ha : req.ApproverID = contact.UserID)
    (hmem : earlier ∈ w.db.requests)
    (hr : earlier.RequesterID = requesterID)
    (ht : earlier.TargetContactID = req.TargetContactID) :
    RequestService.CreateRequest w now req requesterID =
      (.error "a request for this contact already exists", w) := by
  have hcount : 0 < w.db.requests.countP
      (fun r => r.RequesterID == requesterID && r.TargetContactID == req.TargetContactID) :=
    List.countP_pos_iff.mpr ⟨earlier, hmem, by simp [hr, ht]⟩
  simp [RequestService.CreateRequest, hc, ha, RequestRepository.Exists, hcount]

/-- C2, instance: user 2 asks again for contact 7 after its first request was declined. -/
theorem CreateRequest_rejects_duplicate_witness :
    RequestService.CreateRequest (sampleWorldWith "declined") 30
        { ApproverID := 1, TargetContactID := 7, Message := "again" } 2 =
      (.error "a request for this contact already exists", sampleWorldWith "declined") :=
  CreateRequest_rejects_duplicate (sampleWorldWith "declined") 30
    { ApproverID := 1, TargetContactID := 7, Message := "again" } 2 sampleContact
    (sampleRequest "declined") (by decide) (by decide) (by decide) (by decide) (by decide)

/-- C3: in every state reachable from an empty request table by CreateRequest,
UpdateRequest and DeleteRequest calls, at most one stored request has a given
requester and target contact. -/
theorem at_most_one_request_per_pair (w : World) (h : Reachable w)
    (requesterID targetContactID : Nat) :
    (w.db.requests.filter (fun r => r.RequesterID == requesterID &&
      r.TargetContactID == targetContactID)).length ≤ 1 :=
  filter_pair_length_le_one w.db.requests requesterID targetContactID
    (Reachable_pairs_nodup w h)

/-- C3, instance: the state after two CreateRequest calls of user 2 for contact 7. -/
theorem at_most_one_request_per_pair_witness :
    ((RequestService.CreateRequest
        (RequestService.CreateRequest sampleWorld 30
          { ApproverID := 1, TargetContactID := 7, Message := "hi" } 2).2 31
        { ApproverID := 1, TargetContactID := 7, Message := "again" } 2).2.db.requests.filter
      (fun r => r.RequesterID == 2 && r.TargetContactID == 7)).length ≤ 1 :=
  at_most_one_request_per_pair _
    (Reachable.create _ 31 { ApproverID := 1, TargetContactID := 7, Message := "again" } 2
      (Reachable.create _ 30 { ApproverID := 1, TargetContactID := 7, Message := "hi" } 2
        (Reachable.init sampleDB.users sampleDB.contacts 1 8 3 []))) 2 7

/-- C4: when CreateRequest succeeds, the returned request is the row appended
to the request table; it is pending, has an empty response message, the caller
as requester, the approver, target contact and message of the input and the
call time as both timestamps; and the target contact is stored with the
approver as its owner. -/
theorem CreateRequest_success (w w2 : World) (now : Time) (req : RequestCreateRequest)
    (requesterID : Nat) (request : IntroductionRequest)
    (h : RequestService.CreateRequest w now req requesterID = (.ok request, w2)) :
    request.Status = RequestStatusPending ∧ request.ResponseMessage = "" ∧
    request.RequesterID = requesterID ∧ request.ApproverID = req.ApproverID ∧
    request.TargetContactID = req.TargetContactID ∧ request.Message = req.Message ∧
    request.CreatedAt = now ∧ request.UpdatedAt = now ∧
    w2.db.requests = w.db.requests ++ [request] ∧
    ∃ contact, ContactRepository.GetByID w.db req.TargetContactID = .ok contact ∧
      contact.UserID = request.ApproverID := by
  unfold RequestService.CreateRequest at h
  cases hc : ContactRepository.GetByID w.db req.TargetContactID with
  | error e => simp [hc] at h
  | ok contact =>
    by_cases hown : contact.UserID = req.ApproverID
    · by_cases hex : 0 < w.db.requests.countP
          (fun r => r.RequesterID == requesterID && r.TargetContactID == req.TargetContactID)
      · simp [hc, hown, RequestRepository.Exists, hex] at h
      · simp only [Nat.not_lt, Nat.le_zero_eq] at hex
        simp [hc, hown, RequestRepository.Exists, hex, RequestRepository.Create,
          NewIntroductionRequest] at h
        obtain ⟨hreq, hw⟩ := h
        subst hreq
        subst hw
        simp [RequestStatusPending, hown]
    · simp [hc, hown] at h

/-- C4, instance: the first request of user 2 for contact 7 in the sample store. -/
theorem CreateRequest_success_witness :
    (sampleRequest "pending").Status = RequestStatusPending ∧
    (sampleRequest "pending").ResponseMessage = "" ∧
    (sampleRequest "pending").RequesterID = 2 ∧
    (sampleRequest "pending").ApproverID = 1 ∧
    (sampleRequest "pending").TargetContactID = 7 ∧
    (sampleRequest "pending").Message = "hi" ∧
    (sampleRequest "pending").CreatedAt = 20 ∧ (sampleRequest "pending").UpdatedAt = 20 ∧
    ({ db := { sampleDB with requests := [sampleRequest "pending"], nextRequestID := 2 },
       dispatched := [.sendNewRequestNotification (sampleRequest "pending")] } :
        World).db.requests = sampleWorld.db.requests ++ [sampleRequest "pending"] ∧
    ∃ contact, ContactRepository.GetByID sampleWorld.db 7 = .ok contact ∧
      contact.UserID = (sampleRequest "pending").ApproverID :=
  CreateRequest_success sampleWorld
    { db := { sampleDB with requests := [sampleRequest "pending"], nextRequestID := 2 },
      dispatched := [.sendNewRequestNotification (sampleRequest "pending")] }
    20 { ApproverID := 1, TargetContactID := 7, Message := "hi" } 2
    (sampleRequest "pending") (by decide)

/-- C5 (as the code behaves): when UpdateRequest succeeds the caller is the
approver of the stored request and the status after the call is the status
supplied, whatever the status before; the rows with other ids are left as
they were; and the handler validation admits exactly pending, approved and
declined as the status supplied. -/
theorem UpdateRequest_sets_supplied_status (w w2 : World) (now : Time) (id userID : Nat)
    (req : RequestUpdateRequest) (updated : IntroductionRequest)
    (h : RequestService.UpdateRequest w now id userID req = (.ok updated, w2)) :
    (∃ old, RequestRepository.GetByID w.db id = .ok old ∧ old.ApproverID = userID ∧
      updated = { old with Status := req.Status, ResponseMessage := req.ResponseMessage,
                           UpdatedAt := now }) ∧
    updated.Status = req.Status ∧
    (∀ r ∈ w2.db.requests, r.ID = id → r.Status = req.Status) ∧
    (∀ r ∈ w2.db.requests, r.ID ≠ id → r ∈ w.db.requests) ∧
    (∀ r ∈ w.db.requests, r.ID ≠ id → r ∈ w2.db.requests) ∧
    w2.db = { w.db with
      requests := w.db.requests.map (fun r =>
        if r.ID == id then
          { r with Status := req.Status, ResponseMessage := req.ResponseMessage,
                   UpdatedAt := now }
        else r) } ∧
    (req.Validate = none ↔
      req.Status = RequestStatusPending ∨ req.Status = RequestStatusApproved ∨
        req.Status = RequestStatusDeclined) := by
  have hval : req.Validate = none ↔
      req.Status = RequestStatusPending ∨ req.Status = RequestStatusApproved ∨
        req.Status = RequestStatusDeclined := by
    unfold RequestUpdateRequest.Validate RequestStatusPending RequestStatusApproved RequestStatusDeclined
    constructor
    · intro hv
      split_ifs at hv with h1 h2
      simpa [or_assoc] using h2
    · intro hs
      rcases hs with hs | hs | hs <;> simp [hs]
  cases hg : RequestRepository.GetByID w.db id with
  | error e =>
    simp [RequestService.UpdateRequest, hg] at h
  | ok old =>
    by_cases happ : old.ApproverID = userID
    · obtain ⟨h1, h2⟩ := UpdateRequest_eq w now id userID req old hg happ
      rw [h] at h1 h2
      simp only [Except.ok.injEq] at h1
      refine ⟨⟨old, rfl, happ, h1⟩, by rw [h1], ?_, ?_, ?_, h2, hval⟩
      · intro r hr hid
        simp only at h2
        rw [h2] at hr
        simp only [List.mem_map] at hr
        obtain ⟨r0, _, hr0⟩ := hr
        by_cases hid0 : r0.ID = id
        · simp only [hid0, beq_self_eq_true, if_true] at hr0
          rw [← hr0]
        · simp only [beq_iff_eq, hid0, if_false] at hr0
          exact absurd (hr0 ▸ hid) hid0
      · intro r hr hid
        simp only at h2
        rw [h2] at hr
        simp only [List.mem_map] at hr
        obtain ⟨r0, hmem0, hr0⟩ := hr
        by_cases hid0 : r0.ID = id
        · simp only [hid0, beq_self_eq_true, if_true] at hr0
          exact absurd (by rw [← hr0]) hid
        · simp only [beq_iff_eq, hid0, if_false] at hr0
          exact hr0 ▸ hmem0
      · intro r hr hid
        rw [h2]
        simp only [List.mem_map]
        exact ⟨r, hr, by simp only [beq_iff_eq, hid, if_false]⟩
    · simp [RequestService.UpdateRequest, hg, happ] at h

/-- C5, instance: approver 1 holds the pending requests 1 and 2 and approves
request 1; request 2 is stored as before. -/
theorem UpdateRequest_sets_supplied_status_witness :
    RequestService.UpdateRequest { db := sampleListDB, dispatched := [] } 40 1 1
        { Status := "approved", ResponseMessage := "ok" } =
      (.ok { sampleRequest "approved" with ResponseMessage := "ok", UpdatedAt := 40 },
        { db := { sampleListDB with
                  requests := [{ sampleRequest "approved" with
                                 ResponseMessage := "ok", UpdatedAt := 40 },
                    { sampleRequest "pending" with ID := 2, RequesterID := 3, CreatedAt := 30 }] },
          dispatched := [.sendApprovalNotification
            { sampleRequest "approved" with ResponseMessage := "ok", UpdatedAt := 40 }] }) ∧
    ({ sampleRequest "approved" with ResponseMessage := "ok", UpdatedAt := 40 } :
      IntroductionRequest).Status = "approved" ∧
    ∀ r ∈ sampleListDB.requests, r.ID ≠ 1 →
      r ∈ [{ sampleRequest "approved" with ResponseMessage := "ok", UpdatedAt := 40 },
        { sampleRequest "pending" with ID := 2, RequesterID := 3, CreatedAt := 30 }] :=
  have h : RequestService.UpdateRequest { db := sampleListDB, dispatched := [] } 40 1 1
        { Status := "approved", ResponseMessage := "ok" } =
      (.ok { sampleRequest "approved" with ResponseMessage := "ok", UpdatedAt := 40 },
        { db := { sampleListDB with
                  requests := [{ sampleRequest "approved" with
                                 ResponseMessage := "ok", UpdatedAt := 40 },
                    { sampleRequest "pending" with ID := 2, RequesterID := 3, CreatedAt := 30 }] },
          dispatched := [.sendApprovalNotification
            { sampleRequest "approved" with ResponseMessage := "ok", UpdatedAt := 40 }] }) := by
    decide
  ⟨h, (UpdateRequest_sets_supplied_status { db := sampleListDB, dispatched := [] } _ 40 1 1
      { Status := "approved", ResponseMessage := "ok" } _ h).2.1,
    (UpdateRequest_sets_supplied_status { db := sampleListDB, dispatched := [] } _ 40 1 1
      { Status := "approved", ResponseMessage := "ok" } _ h).2.2.2.2.1⟩

/-- C5 (counterexample): a request that is already approved is set back to
pending by its approver; the update passes validation, succeeds and is
stored, so a status change out of approved happens and ends in pending. -/
theorem UpdateRequest_reopens_approved_request :
    RequestRepository.GetByID (sampleWorldWith "approved").db 1 =
      .ok (sampleRequest "approved") ∧
    (sampleRequest "approved").Status ≠ RequestStatusPending ∧
    RequestUpdateRequest.Validate { Status := "pending", ResponseMessage := "" } = none ∧
    RequestService.UpdateRequest (sampleWorldWith "approved") 40 1 1
        { Status := "pending", ResponseMessage := "" } =
      (.ok { sampleRequest "pending" with UpdatedAt := 40 },
        { db := { sampleDB with
                  requests := [{ sampleRequest "pending" with UpdatedAt := 40 }],
                  nextRequestID := 2 },
          dispatched := [] }) ∧
    ({ sampleRequest "pending" with UpdatedAt := 40 } : IntroductionRequest).Status ≠
      RequestStatusApproved ∧
    ({ sampleRequest "pending" with UpdatedAt := 40 } : IntroductionRequest).Status ≠
      RequestStatusDeclined := by
  decide

/-- C6: for every stored request of a well-formed store, whatever its status,
UpdateRequest by its approver succeeds; the request returned and the request
stored under the id afterwards are the old request with the supplied status
and response message and the call time as update time, so id, requester,
approver, target contact, message and creation time are unchanged. -/
theorem UpdateRequest_by_approver (w : World) (now : Time) (r : IntroductionRequest)
    (req : RequestUpdateRequest) (hwf : w.db.WellFormed) (hmem : r ∈ w.db.requests) :
    (RequestService.UpdateRequest w now r.ID r.ApproverID req).1 =
      .ok { ID := r.ID, RequesterID := r.RequesterID, ApproverID := r.ApproverID,
            TargetContactID := r.TargetContactID, Message := r.Message,
            Status := req.Status, ResponseMessage := req.ResponseMessage,
            CreatedAt := r.CreatedAt, UpdatedAt := now } ∧
    RequestRepository.GetByID (RequestService.UpdateRequest w now r.ID r.ApproverID req).2.db r.ID =
      .ok { ID := r.ID, RequesterID := r.RequesterID, ApproverID := r.ApproverID,
            TargetContactID := r.TargetContactID, Message := r.Message,
            Status := req.Status, ResponseMessage := req.ResponseMessage,
            CreatedAt := r.CreatedAt, UpdatedAt := now } ∧
    (RequestService.UpdateRequest w now r.ID r.ApproverID req).2.db.requests.length =
      w.db.requests.length := by
  obtain ⟨h1, h2⟩ := UpdateRequest_eq w now r.ID r.ApproverID req r
    (GetByID_of_mem w.db r hwf hmem) rfl
  refine ⟨h1, stored_after_UpdateRequest w now r req hwf hmem, ?_⟩
  rw [h2]; simp

/-- C6, instance: approver 1 declines request 1, which was approved before. -/
theorem UpdateRequest_by_approver_witness :
    (RequestService.UpdateRequest (sampleWorldWith "approved") 40 1 1
        { Status := "declined", ResponseMessage := "no" }).1 =
      .ok { sampleRequest "declined" with ResponseMessage := "no", UpdatedAt := 40 } ∧
    RequestRepository.GetByID
        (RequestService.UpdateRequest (sampleWorldWith "approved") 40 1 1
          { Status := "declined", ResponseMessage := "no" }).2.db 1 =
      .ok { sampleRequest "declined" with ResponseMessage := "no", UpdatedAt := 40 } ∧
    (RequestService.UpdateRequest (sampleWorldWith "approved") 40 1 1
        { Status := "declined", ResponseMessage := "no" }).2.db.requests.length = 1 :=
  UpdateRequest_by_approver (sampleWorldWith "approved") 40 (sampleRequest "approved")
    { Status := "declined", ResponseMessage := "no" } (by decide) (by decide)

/-- C7: UpdateRequest fails with "request not found" when no stored request
has the id, and with "only the approver can update this request" when the
caller is not the approver of the stored request, the requester included; in
both cases the state is returned as it was (store and dispatched
notifications), and the handler, once the path id and the body are accepted,
answers 404 and 403 with the error text. -/
theorem UpdateRequest_failures (w : World) (now : Time) (id userID : Nat)
    (req : RequestUpdateRequest) :
    ((∀ r ∈ w.db.requests, r.ID ≠ id) →
      RequestService.UpdateRequest w now id userID req = (.error "request not found", w) ∧
      ∀ idParam, ParseUint idParam 32 = some id → req.Validate = none →
        RequestHandler.UpdateRequest w now userID idParam (some req) =
          ({ status := 404, body := .error "request not found" }, w)) ∧
    (∀ r ∈ w.db.requests, w.db.WellFormed → r.ID = id → userID ≠ r.ApproverID →
      RequestService.UpdateRequest w now id userID req =
        (.error "only the approver can update this request", w) ∧
      ∀ idParam, ParseUint idParam 32 = some id → req.Validate = none →
        RequestHandler.UpdateRequest w now userID idParam (some req) =
          ({ status := 403, body := .error "only the approver can update this request" }, w)) := by
  constructor
  · intro hnone
    have hs : RequestService.UpdateRequest w now id userID req =
        (.error "request not found", w) := by
      simp [RequestService.UpdateRequest, GetByID_not_found w.db id hnone]
    refine ⟨hs, ?_⟩
    intro idParam hp hv
    simp [RequestHandler.UpdateRequest, hp, hv, hs, StatusNotFound]
  · intro r hmem hwf hid hne
    have hg : RequestRepository.GetByID w.db id = .ok r := hid ▸ GetByID_of_mem w.db r hwf hmem
    have hs := UpdateRequest_forbidden w now id userID req r hg (Ne.symm hne)
    refine ⟨hs, ?_⟩
    intro idParam hp hv
    simp [RequestHandler.UpdateRequest, hp, hv, hs, StatusForbidden]

/-- C7, instance: no request has id 5, and user 2 is the requester of request 1, not its approver. -/
theorem UpdateRequest_failures_witness :
    (RequestService.UpdateRequest (sampleWorldWith "pending") 40 5 1
        { Status := "approved", ResponseMessage := "" } =
        (.error "request not found", sampleWorldWith "pending") ∧
      RequestHandler.UpdateRequest (sampleWorldWith "pending") 40 1 "5"
        (some { Status := "approved", ResponseMessage := "" }) =
        ({ status := 404, body := .error "request not found" }, sampleWorldWith "pending")) ∧
    (RequestService.UpdateRequest (sampleWorldWith "pending") 40 1 2
        { Status := "approved", ResponseMessage := "" } =
        (.error "only the approver can update this request", sampleWorldWith "pending") ∧
      RequestHandler.UpdateRequest (sampleWorldWith "pending") 40 2 "1"
        (some { Status := "approved", ResponseMessage := "" }) =
        ({ status := 403, body := .error "only the approver can update this request" },
          sampleWorldWith "pending")) := by
  have h1 := (UpdateRequest_failures (sampleWorldWith "pending") 40 5 1
    { Status := "approved", ResponseMessage := "" }).1 (by decide)
  have h2 := (UpdateRequest_failures (sampleWorldWith "pending") 40 1 2
    { Status := "approved", ResponseMessage := "" }).2 (sampleRequest "pending")
    (by decide) (by decide) (by decide) (by decide)
  exact ⟨⟨h1.1, h1.2 "5" (by decide) (by decide)⟩, ⟨h2.1, h2.2 "1" (by decide) (by decide)⟩⟩

/-- C8: DeleteRequest fails with "request not found" (404) when no stored
request has the id; for the stored request with the id it fails with "only
the requester can delete this request" (403) when the caller is not the
requester, whatever the status, with "only pending requests can be deleted"
(403) when the caller is the requester and the status is not pending, and
otherwise succeeds (204) and removes exactly that request. Every failure
returns the state as it was, and the call succeeds only if a pending request
of the caller has the id. -/
theorem DeleteRequest_rules (w : World) (id userID : Nat) :
    ((∀ r ∈ w.db.requests, r.ID ≠ id) →
      RequestService.DeleteRequest w id userID = (.error "request not found", w) ∧
      ∀ idParam, ParseUint idParam 32 = some id →
        RequestHandler.DeleteRequest w userID idParam =
          ({ status := 404, body := .error "request not found" }, w)) ∧
    (∀ r ∈ w.db.requests, w.db.WellFormed → r.ID = id →
      (r.RequesterID ≠ userID →
        RequestService.DeleteRequest w id userID =
          (.error "only the requester can delete this request", w) ∧
        ∀ idParam, ParseUint idParam 32 = some id →
          RequestHandler.DeleteRequest w userID idParam =
            ({ status := 403, body := .error "only the requester can delete this request" },
              w)) ∧
      (r.RequesterID = userID → r.Status ≠ RequestStatusPending →
        RequestService.DeleteRequest w id userID =
          (.error "only pending requests can be deleted", w) ∧
        ∀ idParam, ParseUint idParam 32 = some id →
          RequestHandler.DeleteRequest w userID idParam =
            ({ status := 403, body := .error "only pending requests can be deleted" }, w)) ∧
      (r.RequesterID = userID → r.Status = RequestStatusPending →
        RequestService.DeleteRequest w id userID =
          (.ok (), { w with db := { w.db with
            requests := w.db.requests.filter (fun x => !(x.ID == id)) } }) ∧
        (∀ x, x ∈ w.db.requests.filter (fun x => !(x.ID == id)) ↔
          x ∈ w.db.requests ∧ x ≠ r) ∧
        ∀ idParam, ParseUint idParam 32 = some id →
          RequestHandler.DeleteRequest w userID idParam =
            ({ status := 204, body := .empty }, { w with db := { w.db with
              requests := w.db.requests.filter (fun x => !(x.ID == id)) } }))) ∧
    ((RequestService.DeleteRequest w id userID).1 = .ok () →
      ∃ r ∈ w.db.requests, r.ID = id ∧ r.RequesterID = userID ∧
        r.Status = RequestStatusPending) ∧
    ((RequestService.DeleteRequest w id userID).1 ≠ .ok () →
      (RequestService.DeleteRequest w id userID).2 = w) := by
  refine ⟨?_, ?_, ?_, ?_⟩
  · intro hnone
    have hs : RequestService.DeleteRequest w id userID = (.error "request not found", w) := by
      simp [RequestService.DeleteRequest, GetByID_not_found w.db id hnone]
    refine ⟨hs, ?_⟩
    intro idParam hp
    simp [RequestHandler.DeleteRequest, hp, hs, StatusNotFound]
  · intro r hmem hwf hid
    have hg : RequestRepository.GetByID w.db id = .ok r := hid ▸ GetByID_of_mem w.db r hwf hmem
    refine ⟨?_, ?_, ?_⟩
    · intro h1
      have hs := DeleteRequest_not_requester w id userID r hg h1
      refine ⟨hs, ?_⟩
      intro idParam hp
      simp [RequestHandler.DeleteRequest, hp, hs, StatusForbidden]
    · intro h1 h2
      have hs := DeleteRequest_not_pending w id userID r hg h1 h2
      refine ⟨hs, ?_⟩
      intro idParam hp
      simp [RequestHandler.DeleteRequest, hp, hs, StatusForbidden]
    · intro h1 h2
      have hs := DeleteRequest_ok w id userID r hg h1 h2
      refine ⟨hs, ?_, ?_⟩
      · intro x
        simp only [List.mem_filter, Bool.not_eq_true', beq_eq_false_iff_ne, ne_eq]
        constructor
        · rintro ⟨hx, hne⟩
          exact ⟨hx, fun he => hne (by rw [he, hid])⟩
        · rintro ⟨hx, hne⟩
          exact ⟨hx, fun he => hne (eq_of_ID_eq w.db hwf x r hx hmem (by rw [he, hid]))⟩
      · intro idParam hp
        simp [RequestHandler.DeleteRequest, hp, hs, StatusNoContent]
  · intro hok
    cases hg : RequestRepository.GetByID w.db id with
    | error e => simp [RequestService.DeleteRequest, hg] at hok
    | ok r =>
      obtain ⟨hmem, hid⟩ := GetByID_ok w.db id r hg
      by_cases h1 : r.RequesterID = userID
      · by_cases h2 : r.Status = RequestStatusPending
        · exact ⟨r, hmem, hid, h1, h2⟩
        · rw [DeleteRequest_not_pending w id userID r hg h1 h2] at hok
          simp at hok
      · rw [DeleteRequest_not_requester w id userID r hg h1] at hok
        simp at hok
  · intro hfail
    cases hg : RequestRepository.GetByID w.db id with
    | error e => simp [RequestService.DeleteRequest, hg]
    | ok r =>
      by_cases h1 : r.RequesterID = userID
      · by_cases h2 : r.Status = RequestStatusPending
        · rw [DeleteRequest_ok w id userID r hg h1 h2] at hfail
          exact absurd rfl hfail
        · rw [DeleteRequest_not_pending w id userID r hg h1 h2]
      · rw [DeleteRequest_not_requester w id userID r hg h1]

/-- C8, instance: the four outcomes of DeleteRequest on the sample store. -/
theorem DeleteRequest_rules_witness :
    (RequestService.DeleteRequest (sampleWorldWith "pending") 5 2 =
        (.error "request not found", sampleWorldWith "pending") ∧
      RequestHandler.DeleteRequest (sampleWorldWith "pending") 2 "5" =
        ({ status := 404, body := .error "request not found" }, sampleWorldWith "pending")) ∧
    (RequestService.DeleteRequest (sampleWorldWith "approved") 1 1 =
        (.error "only the requester can delete this request", sampleWorldWith "approved") ∧
      RequestHandler.DeleteRequest (sampleWorldWith "approved") 1 "1" =
        ({ status := 403, body := .error "only the requester can delete this request" },
          sampleWorldWith "approved")) ∧
    (RequestService.DeleteRequest (sampleWorldWith "declined") 1 2 =
        (.error "only pending requests can be deleted", sampleWorldWith "declined") ∧
      RequestHandler.DeleteRequest (sampleWorldWith "declined") 2 "1" =
        ({ status := 403, body := .error "only pending requests can be deleted" },
          sampleWorldWith "declined")) ∧
    (RequestService.DeleteRequest (sampleWorldWith "pending") 1 2 =
        (.ok (), { sampleWorldWith "pending" with db := { (sampleWorldWith "pending").db with
          requests := (sampleWorldWith "pending").db.requests.filter
            (fun x => !(x.ID == 1)) } }) ∧
      RequestHandler.DeleteRequest (sampleWorldWith "pending") 2 "1" =
        ({ status := 204, body := .empty },
          { sampleWorldWith "pending" with db := { (sampleWorldWith "pending").db with
            requests := (sampleWorldWith "pending").db.requests.filter
              (fun x => !(x.ID == 1)) } })) ∧
    (∃ r ∈ (sampleWorldWith "pending").db.requests, r.ID = 1 ∧ r.RequesterID = 2 ∧
      r.Status = RequestStatusPending) ∧
    (RequestService.DeleteRequest (sampleWorldWith "declined") 1 2).2 =
      sampleWorldWith "declined" := by
  have h1 := (DeleteRequest_rules (sampleWorldWith "pending") 5 2).1 (by decide)
  have h2 := ((DeleteRequest_rules (sampleWorldWith "approved") 1 1).2.1
    (sampleRequest "approved") (by decide) (by decide) (by decide)).1 (by decide)
  have h3 := ((DeleteRequest_rules (sampleWorldWith "declined") 1 2).2.1
    (sampleRequest "declined") (by decide) (by decide) (by decide)).2.1 (by decide) (by decide)
  have h4 := ((DeleteRequest_rules (sampleWorldWith "pending") 1 2).2.1
    (sampleRequest "pending") (by decide) (by decide) (by decide)).2.2 (by decide) (by decide)
  have h5 := (DeleteRequest_rules (sampleWorldWith "pending") 1 2).2.2.1 (by decide)
  have h6 := (DeleteRequest_rules (sampleWorldWith "declined") 1 2).2.2.2 (by decide)
  exact ⟨⟨h1.1, h1.2 "5" (by decide)⟩, ⟨h2.1, h2.2 "1" (by decide)⟩,
    ⟨h3.1, h3.2 "1" (by decide)⟩, ⟨h4.1, h4.2.2 "1" (by decide)⟩, h5, h6⟩

/-- C9: for users A and B with A different from B and a stored contact owned
by A for which B has no request yet, in a well-formed store: CreateRequest by
B with approver A succeeds with a pending request; UpdateRequest by A with
status approved then succeeds; and DeleteRequest by B then fails with "only
pending requests can be deleted", the approved request staying stored. -/
theorem scenario_create_approve_delete (w : World) (now1 now2 : Time) (userA userB : Nat)
    (contact : Contact) (message response : String)
    (hwf : w.db.WellFormed)
    (hc : ContactRepository.GetByID w.db contact.ID = .ok contact)
    (hown : contact.UserID = userA) (_hAB : userA ≠ userB)
    (hfresh : ∀ r ∈ w.db.requests,
      ¬ (r.RequesterID = userB ∧ r.TargetContactID = contact.ID)) :
    ∃ created w1 approved w2,
      RequestService.CreateRequest w now1
        { ApproverID := userA, TargetContactID := contact.ID, Message := message } userB =
        (.ok created, w1) ∧
      created.Status = RequestStatusPending ∧
      RequestService.UpdateRequest w1 now2 created.ID userA
        { Status := RequestStatusApproved, ResponseMessage := response } =
        (.ok approved, w2) ∧
      approved.Status = RequestStatusApproved ∧ approved.ID = created.ID ∧
      RequestService.DeleteRequest w2 created.ID userB =
        (.error "only pending requests can be deleted", w2) ∧
      RequestRepository.GetByID w2.db created.ID = .ok approved := by
  have hcreate := CreateRequest_ok w now1
    { ApproverID := userA, TargetContactID := contact.ID, Message := message } userB contact
    hc hown hfresh
  generalize hcr : ({ NewIntroductionRequest now1
      { ApproverID := userA, TargetContactID := contact.ID, Message := message } userB with
      ID := w.db.nextRequestID } : IntroductionRequest) = created at hcreate
  have hcid : created.ID = w.db.nextRequestID := by rw [← hcr]
  have hcapp : created.ApproverID = userA := by rw [← hcr]; rfl
  have hcreq : created.RequesterID = userB := by rw [← hcr]; rfl
  have hcst : created.Status = RequestStatusPending := by rw [← hcr]; rfl
  generalize hw1 : ({ db := { w.db with requests := w.db.requests ++ [created],
                                        nextRequestID := w.db.nextRequestID + 1 },
                      dispatched := w.dispatched ++ [.sendNewRequestNotification created] } :
      World) = w1 at hcreate
  have hwf1 : w1.db.WellFormed := by
    rw [← hw1]; exact WellFormed_insert w.db created hwf hcid
  have hmem1 : created ∈ w1.db.requests := by rw [← hw1]; simp
  have hg1 := GetByID_of_mem w1.db created hwf1 hmem1
  subst hcapp
  obtain ⟨hu1, _⟩ := UpdateRequest_eq w1 now2 created.ID created.ApproverID
    { Status := RequestStatusApproved, ResponseMessage := response } created hg1 rfl
  have hupd := stored_after_UpdateRequest w1 now2 created
    { Status := RequestStatusApproved, ResponseMessage := response } hwf1 hmem1
  refine ⟨created, w1,
    { created with Status := RequestStatusApproved, ResponseMessage := response,
                   UpdatedAt := now2 },
    (RequestService.UpdateRequest w1 now2 created.ID created.ApproverID
      { Status := RequestStatusApproved, ResponseMessage := response }).2,
    hcreate, hcst, ?_, rfl, rfl, ?_, ?_⟩
  · exact Prod.ext hu1 rfl
  · refine DeleteRequest_not_pending _ created.ID userB _ hupd hcreq ?_
    show RequestStatusApproved ≠ RequestStatusPending
    decide
  · exact hupd

/-- C9, instance: users 1 and 2 and contact 7 of the sample store. -/
theorem scenario_create_approve_delete_witness :
    ∃ created w1 approved w2,
      RequestService.CreateRequest sampleWorld 20
        { ApproverID := 1, TargetContactID := sampleContact.ID, Message := "hi" } 2 =
        (.ok created, w1) ∧
      created.Status = RequestStatusPending ∧
      RequestService.UpdateRequest w1 40 created.ID 1
        { Status := RequestStatusApproved, ResponseMessage := "ok" } =
        (.ok approved, w2) ∧
      approved.Status = RequestStatusApproved ∧ approved.ID = created.ID ∧
      RequestService.DeleteRequest w2 created.ID 2 =
        (.error "only pending requests can be deleted", w2) ∧
      RequestRepository.GetByID w2.db created.ID = .ok approved :=
  scenario_create_approve_delete sampleWorld 20 40 1 2 sampleContact "hi" "ok"
    (by decide) (by decide) (by decide) (by decide) (by decide)

/-- C10: for every stored request of a well-formed store and every caller who
is neither its requester nor its approver, GetRequest fails with
"unauthorized to access this request", and the handler, for the path id of
that request, answers with status 404 and a body that holds the error text
only. -/
theorem GetRequest_hides_request_from_others (db : DB) (userID : Nat)
    (r : IntroductionRequest) (hwf : db.WellFormed) (hmem : r ∈ db.requests)
    (h1 : r.RequesterID ≠ userID) (h2 : r.ApproverID ≠ userID) :
    RequestService.GetRequest db r.ID userID = .error "unauthorized to access this request" ∧
    ∀ idParam, ParseUint idParam 32 = some r.ID →
      RequestHandler.GetRequest db userID idParam =
        { status := 404, body := .error "unauthorized to access this request" } := by
  have hs : RequestService.GetRequest db r.ID userID =
      .error "unauthorized to access this request" := by
    simp [RequestService.GetRequest, GetByID_of_mem db r hwf hmem, h1, h2]
  refine ⟨hs, ?_⟩
  intro idParam hp
  simp [RequestHandler.GetRequest, hp, hs, StatusNotFound]

/-- C10, instance: user 3 asks for request 1 of requester 2 and approver 1. -/
theorem GetRequest_hides_request_from_others_witness :
    RequestService.GetRequest (sampleWorldWith "approved").db 1 3 =
      .error "unauthorized to access this request" ∧
    RequestHandler.GetRequest (sampleWorldWith "approved").db 3 "1" =
      { status := 404, body := .error "unauthorized to access this request" } := by
  have h := GetRequest_hides_request_from_others (sampleWorldWith "approved").db 3
    (sampleRequest "approved") (by decide) (by decide) (by decide) (by decide)
  exact ⟨h.1, h.2 "1" (by decide)⟩

/-- C11 (the code at the failing input): user 3 takes no part in request 1 and
no request has id 5; both answers of GET /requests/{id} carry status 404, but
the error body is "unauthorized to access this request" for the request that
exists and "request not found" for the id that no request has, so the two
responses differ. -/
theorem GetRequest_body_tells_existence :
    RequestHandler.GetRequest (sampleWorldWith "pending").db 3 "1" =
      { status := 404, body := .error "unauthorized to access this request" } ∧
    RequestHandler.GetRequest (sampleWorldWith "pending").db 3 "5" =
      { status := 404, body := .error "request not found" } ∧
    RequestHandler.GetRequest (sampleWorldWith "pending").db 3 "1" ≠
      RequestHandler.GetRequest (sampleWorldWith "pending").db 3 "5" := by
  decide

/-- The lookup of a contact by id fails when no stored contact has the id. -/
theorem Contact_GetByID_not_found (db : DB) (id : Nat) (h : ∀ c ∈ db.contacts, c.ID ≠ id) :
    ContactRepository.GetByID db id = .error "contact not found" := by
  have : db.contacts.find? (fun c => c.ID == id) = none := by
    rw [List.find?_eq_none]
    intro c hc
    simpa using h c hc
  simp [ContactRepository.GetByID, this]

/-- C12 (as the code behaves): when no stored contact has the target contact
id, CreateRequest fails with "contact not found" and returns the state it was
given, and the POST /requests handler, for a body that passes validation,
answers with status 400 and that error text. -/
theorem CreateRequest_unknown_contact (w : World) (now : Time) (req : RequestCreateRequest)
    (requesterID : Nat) (h : ∀ c ∈ w.db.contacts, c.ID ≠ req.TargetContactID) :
    RequestService.CreateRequest w now req requesterID = (.error "contact not found", w) ∧
    (req.Validate = none →
      RequestHandler.CreateRequest w now requesterID (some req) =
        ({ status := 400, body := .error "contact not found" }, w)) := by
  have hs : RequestService.CreateRequest w now req requesterID =
      (.error "contact not found", w) := by
    simp [RequestService.CreateRequest, Contact_GetByID_not_found w.db _ h]
  refine ⟨hs, ?_⟩
  intro hv
  simp [RequestHandler.CreateRequest, hv, hs, StatusBadRequest]

/-- C12, instance: user 2 asks for contact 9, which is not stored. -/
theorem CreateRequest_unknown_contact_witness :
    RequestService.CreateRequest sampleWorld 20
        { ApproverID := 1, TargetContactID := 9, Message := "hi" } 2 =
      (.error "contact not found", sampleWorld) ∧
    RequestHandler.CreateRequest sampleWorld 20 2
        (some { ApproverID := 1, TargetContactID := 9, Message := "hi" }) =
      ({ status := 400, body := .error "contact not found" }, sampleWorld) := by
  have h := CreateRequest_unknown_contact sampleWorld 20
    { ApproverID := 1, TargetContactID := 9, Message := "hi" } 2 (by decide)
  exact ⟨h.1, h.2 (by decide)⟩

/-- C12 (counterexample): for the valid body naming contact 9, which is not
stored, the POST /requests handler answers with status 400, not 404. -/
theorem CreateRequest_handler_answers_400 :
    RequestCreateRequest.Validate { ApproverID := 1, TargetContactID := 9, Message := "hi" } =
      none ∧
    (RequestHandler.CreateRequest sampleWorld 20 2
        (some { ApproverID := 1, TargetContactID := 9, Message := "hi" })).1.status = 400 ∧
    (RequestHandler.CreateRequest sampleWorld 20 2
        (some { ApproverID := 1, TargetContactID := 9, Message := "hi" })).1.status ≠ 404 := by
  decide

/-! ### Contact rules: auxiliary facts -/

/-- Lower-casing a character twice is lower-casing it once. -/
theorem Char_toLower_idem (c : Char) : c.toLower.toLower = c.toLower := by
  by_cases h : c.toNat ≥ 65 ∧ c.toNat ≤ 90
  · obtain ⟨n, hn, h1, h2⟩ : ∃ n, c.toNat = n ∧ 65 ≤ n ∧ n ≤ 90 := ⟨_, rfl, h.1, h.2⟩
    have hl : c.toLower = Char.ofNat (n + 32) := by
      rw [← hn]; simp [Char.toLower, h]
    rw [hl]
    interval_cases n <;> decide
  · have hl : c.toLower = c := by
      simp only [Char.toLower, h, if_false]
    rw [hl, hl]

/-- An ASCII character stays within ASCII when lower-cased. -/
theorem Char_toLower_ascii (c : Char) (h : c.toNat ≤ 127) : c.toLower.toNat ≤ 127 := by
  by_cases hu : c.toNat ≥ 65 ∧ c.toNat ≤ 90
  · obtain ⟨n, hn, h1, h2⟩ : ∃ n, c.toNat = n ∧ 65 ≤ n ∧ n ≤ 90 := ⟨_, rfl, hu.1, hu.2⟩
    have hl : c.toLower = Char.ofNat (n + 32) := by
      rw [← hn]; simp [Char.toLower, hu]
    rw [hl]
    interval_cases n <;> decide
  · have hl : c.toLower = c := by
      simp only [Char.toLower, hu, if_false]
    rw [hl]; exact h

/-- The code of the character made from a code outside the surrogates. -/
theorem Char_toNat_ofNat (n : Nat) (h : n < 55296 ∨ (57344 ≤ n ∧ n < 1114112)) :
    (Char.ofNat n).toNat = n := by
  have hv : n.isValidChar := by
    rcases h with h | h
    · exact Or.inl h
    · exact Or.inr ⟨by omega, h.2⟩
  simp only [Char.ofNat, hv, dif_pos, Char.ofNatAux]
  rfl

set_option maxRecDepth 1000000 in
/-- The table of lower-case forms is sound and closed. -/
theorem lowerCaseRangesClosed_true : lowerCaseRangesClosed = true := by decide

/-- Lower-casing a character twice with `unicode.ToLower` is lower-casing it
once. -/
theorem unicode_ToLower_idem (r : Char) :
    unicode.ToLower (unicode.ToLower r) = unicode.ToLower r := by
  by_cases h : r.toNat ≤ MaxASCII
  · have h2 : r.toLower.toNat ≤ MaxASCII := Char_toLower_ascii r h
    simp only [unicode.ToLower, h, h2, if_true, Char_toLower_idem]
  · cases hf : lowerCaseRanges.find? (fun e => e.holds r.toNat) with
    | none => simp only [unicode.ToLower, h, hf, if_false]
    | some e =>
      have hval : unicode.ToLower r = Char.ofNat (e.To + (r.toNat - e.Lo)) := by
        simp only [unicode.ToLower, h, hf, if_false]
      have hmem := List.mem_of_find?_eq_some hf
      have hholds : e.holds r.toNat = true := by simpa using List.find?_some hf
      have hok := lowerCaseRangesClosed_true
      simp only [lowerCaseRangesClosed, List.all_eq_true, Bool.and_eq_true] at hok
      obtain ⟨hsound, hmiss⟩ := hok e hmem
      simp only [CaseRange.sound, Bool.and_eq_true, Bool.or_eq_true, decide_eq_true_eq,
        beq_iff_eq] at hsound
      simp only [CaseRange.holds, Bool.and_eq_true, decide_eq_true_eq, beq_iff_eq] at hholds
      obtain ⟨⟨hlo, hhi⟩, hmod⟩ := hholds
      obtain ⟨⟨⟨hlh, hlo127⟩, hvalid⟩, hascii⟩ := hsound
      have hn : (Char.ofNat (e.To + (r.toNat - e.Lo))).toNat = e.To + (r.toNat - e.Lo) := by
        apply Char_toNat_ofNat
        omega
      rw [hval]
      by_cases ht : e.To + (r.toNat - e.Lo) ≤ MaxASCII
      · have hnu : ¬ ((Char.ofNat (e.To + (r.toNat - e.Lo))).toNat ≥ 65 ∧
            (Char.ofNat (e.To + (r.toNat - e.Lo))).toNat ≤ 90) := by
          rw [hn]
          simp only [MaxASCII] at ht
          omega
        have hl : (Char.ofNat (e.To + (r.toNat - e.Lo))).toLower =
            Char.ofNat (e.To + (r.toNat - e.Lo)) := by
          simp only [Char.toLower, Char.toNat] at hnu ⊢
          simp only [hnu, if_false]
        simp only [unicode.ToLower, hn, ht, if_true, hl]
      · have hnone : lowerCaseRanges.find?
            (fun e2 => e2.holds (e.To + (r.toNat - e.Lo))) = none := by
          rw [List.find?_eq_none]
          intro e2 he2
          have hm := hmiss e2 he2
          simp only [CaseRange.misses, Bool.or_eq_true, Bool.and_eq_true, decide_eq_true_eq,
            beq_iff_eq] at hm
          simp only [CaseRange.holds, Bool.and_eq_true, decide_eq_true_eq, beq_iff_eq,
            not_and, Bool.not_eq_true]
          intro h1 h2
          rcases hm with (hm | hm) | ⟨⟨hs1, hs2⟩, hpar⟩
          · omega
          · omega
          · rw [hs1] at hmod
            rw [hs2] at h2
            omega
        simp only [unicode.ToLower, hn, ht, if_false, hnone]

/-- Lower-casing a string twice is lower-casing it once. -/
theorem ToLower_idem (s : String) : ToLower (ToLower s) = ToLower s := by
  have : unicode.ToLower ∘ unicode.ToLower = unicode.ToLower := funext unicode_ToLower_idem
  simp [ToLower, this]

/-- Lower-casing reaches the letters outside ASCII: the accented capital E,
the Kelvin sign, the capital I with dot, the capital sharp S and the capital
sigma. -/
theorem ToLower_samples :
    ToLower "ÉVA@x.com" = "éva@x.com" ∧ ToLower "K@x.com" = "k@x.com" ∧
    ToLower "Bob@Y.com" = "bob@y.com" ∧
    ToLower "İẞΣ" = "ißσ" := by
  decide

/-- The owner holds the email exactly when a stored row of the owner carries
the lower-cased email. -/
theorem holdsEmail_iff (db : DB) (userID : Nat) (email : String) :
    db.holdsEmail userID email = true ↔
      ∃ c ∈ db.contacts, c.Email = ToLower email ∧ c.UserID = userID := by
  simp [DB.holdsEmail, List.any_eq_true]

/-- The owner does not hold the email exactly when no stored row of the owner
carries the lower-cased email. -/
theorem holdsEmail_false_iff (db : DB) (userID : Nat) (email : String) :
    db.holdsEmail userID email = false ↔
      ∀ c ∈ db.contacts, ¬ (c.Email = ToLower email ∧ c.UserID = userID) := by
  rw [← Bool.not_eq_true, holdsEmail_iff]
  simp

/-- The answer of `IsEmailUsed`. -/
theorem IsEmailUsed_eq (db : DB) (email : String) (userID : Nat) :
    ContactRepository.IsEmailUsed db email userID = .ok (db.holdsEmail userID email) := by
  have : decide (db.contacts.countP
      (fun c => c.Email == ToLower email && c.UserID == userID) > 0) =
      db.holdsEmail userID email := by
    rw [Bool.eq_iff_iff, holdsEmail_iff]
    simp [List.countP_pos_iff]
  simp only [ContactRepository.IsEmailUsed, this]

/-- CreateContact in closed form: a conflict when the owner holds the email,
and otherwise one row appended under the next id. -/
theorem CreateContact_eq (db : DB) (now : Time) (req : ContactCreateRequest) (userID : Nat) :
    ContactService.CreateContact db now req userID =
      if db.holdsEmail userID req.Email then
        (.error "email already exists for one of your contacts", db)
      else
        (.ok { NewContactFromCreateRequest now req userID with ID := db.nextContactID },
          { db with
            contacts := db.contacts ++ [{ storedRow now userID req with ID := db.nextContactID }]
            nextContactID := db.nextContactID + 1 }) := by
  unfold ContactService.CreateContact
  rw [IsEmailUsed_eq]
  cases db.holdsEmail userID req.Email <;>
    simp [ContactRepository.Create, storedRow, NewContactFromCreateRequest]

/-- The loop body of BatchImportContacts in closed form. -/
theorem BatchImport_body_eq (now : Time) (userID : Nat) (result : BatchImportResponse) (db : DB)
    (item : ContactCreateRequest) :
    ContactService.BatchImportContacts.body now userID (result, db) item =
      if db.holdsEmail userID item.Email then
        ({ SuccessCount := result.SuccessCount, ErrorCount := result.ErrorCount + 1,
           Errors := result.Errors ++
             [{ Data := item, Errors := ["email already exists for one of your contacts"] }] },
         db)
      else
        ({ SuccessCount := result.SuccessCount + 1, ErrorCount := result.ErrorCount,
           Errors := result.Errors },
         { db with
            contacts := db.contacts ++ [{ storedRow now userID item with ID := db.nextContactID }]
            nextContactID := db.nextContactID + 1 }) := by
  unfold ContactService.BatchImportContacts.body
  simp only [NewContactFromCreateRequest]
  rw [IsEmailUsed_eq]
  cases db.holdsEmail userID item.Email <;>
    simp [ContactRepository.Create, storedRow, NewContactFromCreateRequest]

/-- Holding an email after one row was appended. -/
theorem holdsEmail_insert (db : DB) (row : Contact) (n userID : Nat) (email : String) :
    ({ db with contacts := db.contacts ++ [row], nextContactID := n } : DB).holdsEmail
        userID email =
      (db.holdsEmail userID email || (row.Email == ToLower email && row.UserID == userID)) := by
  simp [DB.holdsEmail, List.any_append]

/-- A successful scoped lookup returns a stored row with the id and the owner. -/
theorem GetByIDAndUserID_ok (db : DB) (id userID : Nat) (c : Contact)
    (h : ContactRepository.GetByIDAndUserID db id userID = .ok c) :
    c ∈ db.contacts ∧ c.ID = id ∧ c.UserID = userID := by
  unfold ContactRepository.GetByIDAndUserID at h
  cases hf : db.contacts.find? (fun c => c.ID == id && c.UserID == userID) with
  | none => simp [hf] at h
  | some c0 =>
    simp only [hf, Except.ok.injEq] at h
    subst h
    have := List.find?_some hf
    simp only [Bool.and_eq_true, beq_iff_eq] at this
    exact ⟨List.mem_of_find?_eq_some hf, this.1, this.2⟩

/-- The scoped lookup fails when no stored row has the id and the owner. -/
theorem GetByIDAndUserID_not_found (db : DB) (id userID : Nat)
    (h : ∀ c ∈ db.contacts, ¬ (c.ID = id ∧ c.UserID = userID)) :
    ContactRepository.GetByIDAndUserID db id userID = .error "contact not found" := by
  have : db.contacts.find? (fun c => c.ID == id && c.UserID == userID) = none := by
    rw [List.find?_eq_none]
    intro c hc
    simpa using h c hc
  simp [ContactRepository.GetByIDAndUserID, this]

/-- The field block keeps id, owner, email and creation time. -/
theorem UpdateContact_fields_keeps (req : ContactUpdateRequest) (c : Contact) :
    (ContactService.UpdateContact.fields req c).ID = c.ID ∧
    (ContactService.UpdateContact.fields req c).UserID = c.UserID ∧
    (ContactService.UpdateContact.fields req c).Email = c.Email ∧
    (ContactService.UpdateContact.fields req c).CreatedAt = c.CreatedAt := by
  unfold ContactService.UpdateContact.fields
  by_cases h1 : req.FirstName = "" <;> by_cases h2 : req.LastName = "" <;> simp [h1, h2]

/-- The results of the email block: a conflict, the contact as it was, or the
contact with the supplied email, which the owner did not hold. -/
theorem UpdateContact_email_cases (db : DB) (userID : Nat) (req : ContactUpdateRequest)
    (c : Contact) :
    (req.Email ≠ "" ∧ req.Email ≠ c.Email ∧ db.holdsEmail userID req.Email = true ∧
      ContactService.UpdateContact.email db userID req c =
        .error "email already exists for one of your contacts") ∨
    (req.Email ≠ "" ∧ req.Email ≠ c.Email ∧ db.holdsEmail userID req.Email = false ∧
      ContactService.UpdateContact.email db userID req c = .ok { c with Email := req.Email }) ∨
    ((req.Email = "" ∨ req.Email = c.Email) ∧
      ContactService.UpdateContact.email db userID req c = .ok c) := by
  unfold ContactService.UpdateContact.email
  rw [IsEmailUsed_eq]
  by_cases h1 : req.Email = ""
  · right; right; simp [h1]
  · by_cases h2 : req.Email = c.Email
    · right; right; simp [h2]
    · cases hh : db.holdsEmail userID req.Email with
      | true => left; simp [h1, h2]
      | false => right; left; simp [h1, h2]

/-- UpdateContact in closed form, once the scoped lookup and the email block
have succeeded. -/
theorem UpdateContact_eq (db : DB) (now : Time) (id userID : Nat) (req : ContactUpdateRequest)
    (c c1 : Contact) (hg : ContactRepository.GetByIDAndUserID db id userID = .ok c)
    (he : ContactService.UpdateContact.email db userID req c = .ok c1)
    (hid : c1.ID = c.ID) (hu : c1.UserID = c.UserID) :
    ContactService.UpdateContact db now id userID req =
      (.ok { ContactService.UpdateContact.fields req c1 with UpdatedAt := now },
        { db with
          contacts := db.contacts.map (fun x =>
            if x.ID == id && x.UserID == userID then
              ContactRepository.Update.set
                { ContactService.UpdateContact.fields req c1 with UpdatedAt := now } x
            else x) }) := by
  obtain ⟨hmem, hcid, hcu⟩ := GetByIDAndUserID_ok db id userID c hg
  obtain ⟨hf1, hf2, _, _⟩ := UpdateContact_fields_keeps req c1
  have hfid : (ContactService.UpdateContact.fields req c1).ID = id := by rw [hf1, hid, hcid]
  have hfu : (ContactService.UpdateContact.fields req c1).UserID = userID := by
    rw [hf2, hu, hcu]
  have hcnt : db.contacts.countP (fun x => x.ID == id && x.UserID == userID) ≠ 0 := by
    have : 0 < db.contacts.countP (fun x => x.ID == id && x.UserID == userID) :=
      List.countP_pos_iff.mpr ⟨c, hmem, by simp [hcid, hcu]⟩
    exact Nat.pos_iff_ne_zero.mp this
  unfold ContactService.UpdateContact
  simp only [hg, he, ContactRepository.Update, hfid, hfu, hcnt, beq_iff_eq, if_false]

/-- Rewriting the rows with a given id and owner, under their id and owner
and with one email for all of them, keeps the (owner, email) pairs distinct
when ids are distinct and no row with another id of that owner has the
email. -/
theorem nodup_pairs_map (l : List Contact) (id userID : Nat) (email : String)
    (g : Contact → Contact)
    (hg : ∀ c, (g c).ID = c.ID ∧ (g c).UserID = c.UserID ∧ (g c).Email = email)
    (hid : (l.map (fun c => c.ID)).Nodup)
    (hp : (l.map (fun c => (c.UserID, c.Email))).Nodup)
    (hfresh : ∀ c ∈ l, c.ID ≠ id → ¬ (c.UserID = userID ∧ c.Email = email)) :
    ((l.map (fun c => if c.ID == id && c.UserID == userID then g c else c)).map
      (fun c => (c.UserID, c.Email))).Nodup := by
  induction l with
  | nil => simp
  | cons a l ih =>
    rw [List.map_cons, List.nodup_cons] at hid hp
    have ih2 := ih hid.2 hp.2 (fun c hc => hfresh c (List.mem_cons_of_mem a hc))
    rw [List.map_cons, List.map_cons, List.nodup_cons]
    refine ⟨?_, ih2⟩
    intro hmem
    simp only [List.map_map, List.mem_map, Function.comp] at hmem
    obtain ⟨b, hb, hpair⟩ := hmem
    have hba : b.ID ≠ a.ID := fun he => hid.1 (List.mem_map.mpr ⟨b, hb, he⟩)
    by_cases ha : a.ID = id ∧ a.UserID = userID
    · have hbid : b.ID ≠ id := fun he => hba (he.trans ha.1.symm)
      simp only [ha.1, ha.2, hbid, beq_self_eq_true, Bool.and_self, if_true, beq_iff_eq,
        false_and, Bool.false_and, if_false, Bool.and_eq_true] at hpair
      rw [(hg a).2.1, (hg a).2.2, ha.2] at hpair
      injection hpair with h1 h2
      exact hfresh b (List.mem_cons_of_mem a hb) hbid ⟨h1, h2⟩
    · have hfa : (if (a.ID == id && a.UserID == userID) = true then g a else a) = a := by
        simp only [Bool.and_eq_true, beq_iff_eq, ha, if_false]
      rw [hfa] at hpair
      by_cases hbm : b.ID = id ∧ b.UserID = userID
      · simp only [hbm.1, hbm.2, beq_self_eq_true, Bool.and_self, if_true] at hpair
        rw [(hg b).2.1, (hg b).2.2, hbm.2] at hpair
        injection hpair with h1 h2
        have haid : a.ID ≠ id := fun he => ha ⟨he, h1.symm⟩
        exact hfresh a (List.mem_cons_self a l) haid ⟨h1.symm, h2.symm⟩
      · have hfb : (if (b.ID == id && b.UserID == userID) = true then g b else b) = b := by
          simp only [Bool.and_eq_true, beq_iff_eq, hbm, if_false]
        rw [hfb] at hpair
        exact hp.1 (List.mem_map.mpr ⟨b, hb, hpair⟩)

/-- Appending the row of a create request whose email the owner does not hold
keeps the contact table well-formed and the emails unique. -/
theorem Invariant_insert (db : DB) (now : Time) (userID : Nat) (req : ContactCreateRequest)
    (hwf : db.ContactsWellFormed) (hu : db.EmailsUnique)
    (hfree : db.holdsEmail userID req.Email = false) :
    ({ db with
        contacts := db.contacts ++ [{ storedRow now userID req with ID := db.nextContactID }]
        nextContactID := db.nextContactID + 1 } : DB).ContactsWellFormed ∧
    ({ db with
        contacts := db.contacts ++ [{ storedRow now userID req with ID := db.nextContactID }]
        nextContactID := db.nextContactID + 1 } : DB).EmailsUnique := by
  obtain ⟨h1, h2, h3⟩ := hwf
  rw [holdsEmail_false_iff] at hfree
  refine ⟨⟨?_, ?_, ?_⟩, ?_⟩
  · simp only [List.map_append, List.nodup_append]
    refine ⟨h1, by simp, ?_⟩
    intro a ha hb
    simp only [List.map_cons, List.map_nil, List.mem_singleton] at hb
    rcases List.mem_map.mp ha with ⟨c, hc, hcid⟩
    have := h2 c hc
    omega
  · intro c hc
    rcases List.mem_append.mp hc with hc | hc
    · have := h2 c hc
      show c.ID < db.nextContactID + 1
      omega
    · simp only [List.mem_singleton] at hc
      rw [hc]
      show db.nextContactID < db.nextContactID + 1
      omega
  · intro c hc
    rcases List.mem_append.mp hc with hc | hc
    · exact h3 c hc
    · simp only [List.mem_singleton] at hc
      rw [hc]
      exact ToLower_idem req.Email
  · unfold DB.EmailsUnique
    simp only [List.map_append, List.nodup_append]
    refine ⟨hu, by simp, ?_⟩
    intro a ha hb
    simp only [List.map_cons, List.map_nil, List.mem_singleton] at hb
    rcases List.mem_map.mp ha with ⟨c, hc, hpair⟩
    rw [hb] at hpair
    injection hpair with hp1 hp2
    exact hfree c hc ⟨hp2, hp1⟩

/-- CreateContact keeps the contact table well-formed and the emails unique. -/
theorem Invariant_create (db : DB) (now : Time) (req : ContactCreateRequest) (userID : Nat)
    (hwf : db.ContactsWellFormed) (hu : db.EmailsUnique) :
    (ContactService.CreateContact db now req userID).2.ContactsWellFormed ∧
    (ContactService.CreateContact db now req userID).2.EmailsUnique := by
  rw [CreateContact_eq]
  cases hh : db.holdsEmail userID req.Email with
  | true => exact ⟨hwf, hu⟩
  | false => exact Invariant_insert db now userID req hwf hu hh

/-- BatchImportContacts keeps the contact table well-formed and the emails
unique. -/
theorem Invariant_batchImport (db : DB) (now : Time) (req : ContactBatchImportRequest)
    (userID : Nat) (hwf : db.ContactsWellFormed) (hu : db.EmailsUnique) :
    (ContactService.BatchImportContacts db now req userID).2.ContactsWellFormed ∧
    (ContactService.BatchImportContacts db now req userID).2.EmailsUnique := by
  have key : ∀ (items : List ContactCreateRequest) (acc : BatchImportResponse × DB),
      acc.2.ContactsWellFormed → acc.2.EmailsUnique →
      (items.foldl (ContactService.BatchImportContacts.body now userID) acc).2.ContactsWellFormed ∧
      (items.foldl (ContactService.BatchImportContacts.body now userID) acc).2.EmailsUnique := by
    intro items
    induction items with
    | nil => intro acc h1 h2; exact ⟨h1, h2⟩
    | cons item rest ih =>
      intro acc h1 h2
      rw [List.foldl_cons]
      obtain ⟨result, db0⟩ := acc
      apply ih
      · rw [BatchImport_body_eq]
        cases hh : db0.holdsEmail userID item.Email with
        | true => exact h1
        | false => exact (Invariant_insert db0 now userID item h1 h2 hh).1
      · rw [BatchImport_body_eq]
        cases hh : db0.holdsEmail userID item.Email with
        | true => exact h2
        | false => exact (Invariant_insert db0 now userID item h1 h2 hh).2
  exact key req.Contacts _ hwf hu

/-- DeleteContact keeps the contact table well-formed and the emails unique. -/
theorem Invariant_delete (db : DB) (id userID : Nat)
    (hwf : db.ContactsWellFormed) (hu : db.EmailsUnique) :
    (ContactService.DeleteContact db id userID).2.ContactsWellFormed ∧
    (ContactService.DeleteContact db id userID).2.EmailsUnique := by
  unfold ContactService.DeleteContact ContactRepository.Delete
  by_cases hcnt : db.contacts.countP (fun c => c.ID == id && c.UserID == userID) = 0
  · simp only [hcnt, beq_self_eq_true, if_true]
    exact ⟨hwf, hu⟩
  · simp only [beq_iff_eq, hcnt, if_false]
    obtain ⟨h1, h2, h3⟩ := hwf
    exact ⟨⟨h1.sublist (List.Sublist.map _ (List.filter_sublist _)),
        fun c hc => h2 c (List.mem_of_mem_filter hc),
        fun c hc => h3 c (List.mem_of_mem_filter hc)⟩,
      List.Nodup.sublist (List.Sublist.map _ (List.filter_sublist _)) hu⟩

/-- The `UPDATE` of the contact repository keeps the contact table well-formed
and the emails unique when no row of the owner under another id has the new
email. -/
theorem Invariant_update_rows (db : DB) (id userID : Nat) (contact : Contact)
    (hwf : db.ContactsWellFormed) (hu : db.EmailsUnique)
    (hfresh : ∀ x ∈ db.contacts, x.ID ≠ id →
      ¬ (x.UserID = userID ∧ x.Email = ToLower contact.Email)) :
    ({ db with contacts := db.contacts.map (fun x =>
        if x.ID == id && x.UserID == userID then ContactRepository.Update.set contact x
        else x) } : DB).ContactsWellFormed ∧
    ({ db with contacts := db.contacts.map (fun x =>
        if x.ID == id && x.UserID == userID then ContactRepository.Update.set contact x
        else x) } : DB).EmailsUnique := by
  obtain ⟨h1, h2, h3⟩ := hwf
  have hkeep : ∀ x : Contact,
      (if (x.ID == id && x.UserID == userID) = true then ContactRepository.Update.set contact x
        else x).ID = x.ID := by
    intro x
    split <;> simp [ContactRepository.Update.set]
  refine ⟨⟨?_, ?_, ?_⟩, ?_⟩
  · simp only [List.map_map]
    have hfun : ((fun c : Contact => c.ID) ∘ fun x =>
        if (x.ID == id && x.UserID == userID) = true then ContactRepository.Update.set contact x
        else x) = fun c => c.ID := funext hkeep
    rw [hfun]; exact h1
  · intro c hc
    simp only [List.mem_map] at hc
    obtain ⟨x, hx, rfl⟩ := hc
    rw [hkeep x]; exact h2 x hx
  · intro c hc
    simp only [List.mem_map] at hc
    obtain ⟨x, hx, rfl⟩ := hc
    split
    · simp [ContactRepository.Update.set, ToLower_idem]
    · exact h3 x hx
  · exact nodup_pairs_map db.contacts id userID (ToLower contact.Email)
      (ContactRepository.Update.set contact)
      (fun c => by simp [ContactRepository.Update.set]) h1 hu hfresh

/-- UpdateContact keeps the contact table well-formed and the emails unique. -/
theorem Invariant_update (db : DB) (now : Time) (id userID : Nat) (req : ContactUpdateRequest)
    (hwf : db.ContactsWellFormed) (hu : db.EmailsUnique) :
    (ContactService.UpdateContact db now id userID req).2.ContactsWellFormed ∧
    (ContactService.UpdateContact db now id userID req).2.EmailsUnique := by
  cases hg : ContactRepository.GetByIDAndUserID db id userID with
  | error e =>
    have : ContactService.UpdateContact db now id userID req = (.error e, db) := by
      simp [ContactService.UpdateContact, hg]
    rw [this]; exact ⟨hwf, hu⟩
  | ok c =>
    obtain ⟨hmem, hcid, hcu⟩ := GetByIDAndUserID_ok db id userID c hg
    rcases UpdateContact_email_cases db userID req c with
      ⟨_, _, _, he⟩ | ⟨_, _, hfree, he⟩ | ⟨_, he⟩
    · have : ContactService.UpdateContact db now id userID req =
          (.error "email already exists for one of your contacts", db) := by
        simp [ContactService.UpdateContact, hg, he]
      rw [this]; exact ⟨hwf, hu⟩
    · rw [UpdateContact_eq db now id userID req c _ hg he rfl rfl]
      apply Invariant_update_rows db id userID _ hwf hu
      intro x hx _ hxp
      have hem : (ContactService.UpdateContact.fields req { c with Email := req.Email }).Email =
          req.Email := (UpdateContact_fields_keeps req _).2.2.1
      simp only [hem] at hxp
      exact (holdsEmail_false_iff db userID req.Email).mp hfree x hx ⟨hxp.2, hxp.1⟩
    · rw [UpdateContact_eq db now id userID req c c hg he rfl rfl]
      apply Invariant_update_rows db id userID _ hwf hu
      intro x hx hxid hxp
      have hem : (ContactService.UpdateContact.fields req c).Email = c.Email :=
        (UpdateContact_fields_keeps req _).2.2.1
      simp only [hem, hwf.2.2 c hmem] at hxp
      have hpair : (fun c : Contact => (c.UserID, c.Email)) x =
          (fun c : Contact => (c.UserID, c.Email)) c := by
        simp [hxp.1, hxp.2, hcu]
      have hxc : x = c := List.inj_on_of_nodup_map hu hx hmem hpair
      exact hxid (by rw [hxc, hcid])

/-- Reachable stores have a well-formed contact table with unique emails. -/
theorem ContactReachable_invariant (db : DB) (h : ContactReachable db) :
    db.ContactsWellFormed ∧ db.EmailsUnique := by
  induction h with
  | init users requests nextRequestID nextContactID nextUserID =>
    simp [DB.ContactsWellFormed, DB.EmailsUnique]
  | create db now req userID _ ih => exact Invariant_create db now req userID ih.1 ih.2
  | update db now id userID req _ ih => exact Invariant_update db now id userID req ih.1 ih.2
  | delete db id userID _ ih => exact Invariant_delete db id userID ih.1 ih.2
  | batchImport db now req userID _ ih =>
    exact Invariant_batchImport db now req userID ih.1 ih.2
  | other db db2 _ hrows hnext ih =>
    unfold DB.ContactsWellFormed DB.EmailsUnique
    rw [hrows, hnext]; exact ih

/-- In a list whose (owner, email) pairs are distinct, at most one row matches
a given pair. -/
theorem filter_owner_email_length_le_one (l : List Contact) (owner : Nat) (email : String)
    (h : (l.map (fun c => (c.UserID, c.Email))).Nodup) :
    (l.filter (fun c => c.UserID == owner && c.Email == email)).length ≤ 1 := by
  induction l with
  | nil => simp
  | cons a l ih =>
    rw [List.map_cons, List.nodup_cons] at h
    by_cases hp : a.UserID = owner ∧ a.Email = email
    · have hnil : l.filter (fun c => c.UserID == owner && c.Email == email) = [] := by
        rw [List.filter_eq_nil_iff]
        intro c hc hq
        simp only [Bool.and_eq_true, beq_iff_eq] at hq
        exact h.1 (List.mem_map.mpr ⟨c, hc, by rw [hq.1, hq.2, hp.1, hp.2]⟩)
      simp [List.filter_cons, hp.1, hp.2, hnil]
    · have hq : (a.UserID == owner && a.Email == email) = false := by
        simpa using hp
      rw [List.filter_cons, hq]
      exact ih h.2

/-- C14: in every store reachable from an empty contact table by CreateContact,
UpdateContact, DeleteContact and BatchImportContacts calls, at most one
stored contact has a given owner and a given stored email. -/
theorem at_most_one_contact_per_owner_email (db : DB) (h : ContactReachable db)
    (owner : Nat) (email : String) :
    (db.contacts.filter (fun c => c.UserID == owner && c.Email == email)).length ≤ 1 :=
  filter_owner_email_length_le_one db.contacts owner email (ContactReachable_invariant db h).2

/-- C14, instance: the store after a create, a batch import repeating the
email, and an update that tries to take it under another letter case. -/
theorem at_most_one_contact_per_owner_email_witness :
    ((ContactService.UpdateContact
        (ContactService.BatchImportContacts
          (ContactService.CreateContact { sampleDB with contacts := [] } 30
            (sampleCreate "Dan@Y.com") 2).2 31
          { Contacts := [sampleCreate "dan@y.com", sampleCreate "eve@y.com"] } 2).2 32 9 2
        (sampleUpdate "DAN@y.com" "Eve")).2.contacts.filter
      (fun c => c.UserID == 2 && c.Email == "dan@y.com")).length ≤ 1 :=
  at_most_one_contact_per_owner_email _
    (ContactReachable.update _ 32 9 2 (sampleUpdate "DAN@y.com" "Eve")
      (ContactReachable.batchImport _ 31
        { Contacts := [sampleCreate "dan@y.com", sampleCreate "eve@y.com"] } 2
        (ContactReachable.create _ 30 (sampleCreate "Dan@Y.com") 2
          (ContactReachable.init sampleDB.users sampleDB.requests 1 8 3)))) 2 "dan@y.com"

/-- After the `UPDATE` of the contact repository the scoped lookup returns the
row it returned before, rewritten by the `SET` clause. -/
theorem GetByIDAndUserID_after_update (db : DB) (id userID : Nat) (contact c : Contact)
    (hg : ContactRepository.GetByIDAndUserID db id userID = .ok c) :
    ContactRepository.GetByIDAndUserID
        ({ db with contacts := db.contacts.map (fun x =>
            if x.ID == id && x.UserID == userID then ContactRepository.Update.set contact x
            else x) } : DB) id userID =
      .ok (ContactRepository.Update.set contact c) := by
  obtain ⟨_, hcid, hcu⟩ := GetByIDAndUserID_ok db id userID c hg
  have hfind : db.contacts.find? (fun c => c.ID == id && c.UserID == userID) = some c := by
    unfold ContactRepository.GetByIDAndUserID at hg
    cases hf : db.contacts.find? (fun c => c.ID == id && c.UserID == userID) with
    | none => simp [hf] at hg
    | some c0 => simp only [hf, Except.ok.injEq] at hg; rw [hg]
  have hcomp : ((fun c : Contact => c.ID == id && c.UserID == userID) ∘ fun x =>
      if (x.ID == id && x.UserID == userID) = true then ContactRepository.Update.set contact x
      else x) = fun c => c.ID == id && c.UserID == userID := by
    funext x
    simp only [Function.comp]
    split <;> simp_all [ContactRepository.Update.set]
  unfold ContactRepository.GetByIDAndUserID
  simp only [List.find?_map, hcomp, hfind, Option.map_some', hcid, hcu, beq_self_eq_true,
    Bool.and_self, if_true]

/-- C15: when UpdateContact succeeds on the contact c found for the id and the
caller, the contact returned and the row stored afterwards have the first
name of the request when that is non-empty and the first name of c otherwise,
likewise the last name; company, position, notes, phone and link of the
request, empty or not; and the id and the owner of c. -/
theorem UpdateContact_field_rules (db db2 : DB) (now : Time) (id userID : Nat)
    (req : ContactUpdateRequest) (updated : Contact)
    (h : ContactService.UpdateContact db now id userID req = (.ok updated, db2)) :
    ∃ c stored, ContactRepository.GetByIDAndUserID db id userID = .ok c ∧
      ContactRepository.GetByIDAndUserID db2 id userID = .ok stored ∧
      updated.FirstName = (if req.FirstName = "" then c.FirstName else req.FirstName) ∧
      updated.LastName = (if req.LastName = "" then c.LastName else req.LastName) ∧
      updated.Company = req.Company ∧ updated.Position = req.Position ∧
      updated.Notes = req.Notes ∧ updated.Phone = req.Phone ∧
      updated.LinkedInURL = req.LinkedInURL ∧
      updated.ID = c.ID ∧ updated.UserID = c.UserID ∧
      stored.FirstName = updated.FirstName ∧ stored.LastName = updated.LastName ∧
      stored.Company = req.Company ∧ stored.Position = req.Position ∧
      stored.Notes = req.Notes ∧ stored.Phone = req.Phone ∧
      stored.LinkedInURL = req.LinkedInURL ∧
      stored.ID = c.ID ∧ stored.UserID = c.UserID := by
  cases hg : ContactRepository.GetByIDAndUserID db id userID with
  | error e => simp [ContactService.UpdateContact, hg] at h
  | ok c =>
    have hfields : ∀ c1 : Contact, c1.ID = c.ID → c1.UserID = c.UserID →
        c1.FirstName = c.FirstName → c1.LastName = c.LastName →
        ContactService.UpdateContact.email db userID req c = .ok c1 →
        ∃ stored,
          ContactRepository.GetByIDAndUserID db2 id userID = .ok stored ∧
          updated.FirstName = (if req.FirstName = "" then c.FirstName else req.FirstName) ∧
          updated.LastName = (if req.LastName = "" then c.LastName else req.LastName) ∧
          updated.Company = req.Company ∧ updated.Position = req.Position ∧
          updated.Notes = req.Notes ∧ updated.Phone = req.Phone ∧
          updated.LinkedInURL = req.LinkedInURL ∧
          updated.ID = c.ID ∧ updated.UserID = c.UserID ∧
          stored.FirstName = updated.FirstName ∧ stored.LastName = updated.LastName ∧
          stored.Company = req.Company ∧ stored.Position = req.Position ∧
          stored.Notes = req.Notes ∧ stored.Phone = req.Phone ∧
          stored.LinkedInURL = req.LinkedInURL ∧
          stored.ID = c.ID ∧ stored.UserID = c.UserID := by
      intro c1 h1 h2 h3 h4 he
      rw [UpdateContact_eq db now id userID req c c1 hg he h1 h2] at h
      simp only [Prod.mk.injEq, Except.ok.injEq] at h
      obtain ⟨hupd, hdb⟩ := h
      subst hupd
      subst hdb
      refine ⟨ContactRepository.Update.set
        { ContactService.UpdateContact.fields req c1 with UpdatedAt := now } c,
        GetByIDAndUserID_after_update db id userID _ c hg, ?_⟩
      · unfold ContactService.UpdateContact.fields ContactRepository.Update.set
        by_cases hf : req.FirstName = "" <;> by_cases hl : req.LastName = "" <;>
          simp [hf, hl, h1, h2, h3, h4]
    rcases UpdateContact_email_cases db userID req c with
      ⟨_, _, _, he⟩ | ⟨_, _, _, he⟩ | ⟨_, he⟩
    · simp [ContactService.UpdateContact, hg, he] at h
    · obtain ⟨stored, hs⟩ := hfields { c with Email := req.Email } rfl rfl rfl rfl he
      exact ⟨c, stored, rfl, hs⟩
    · obtain ⟨stored, hs⟩ := hfields c rfl rfl rfl rfl he
      exact ⟨c, stored, rfl, hs⟩

/-- C15, instance: owner 1 updates contact 7 with a new first name and empty
other fields. -/
theorem UpdateContact_field_rules_witness :
    ∃ c stored, ContactRepository.GetByIDAndUserID sampleDB 7 1 = .ok c ∧
      ContactRepository.GetByIDAndUserID
        (ContactService.UpdateContact sampleDB 40 7 1 (sampleUpdate "" "Caro")).2 7 1 =
        .ok stored ∧
      c.FirstName = "Carol" ∧ c.LastName = "C" ∧ c.Company = "Acme" ∧
      stored.FirstName = "Caro" ∧ stored.LastName = "C" ∧ stored.Company = "" ∧
      stored.ID = 7 ∧ stored.UserID = 1 := by
  obtain ⟨c, stored, h1, h2, h3, h4, _, _, _, _, _, _, _, h12, h13, h14, _, _, _, _, h19,
      h20⟩ :=
    UpdateContact_field_rules sampleDB
      (ContactService.UpdateContact sampleDB 40 7 1 (sampleUpdate "" "Caro")).2 40 7 1
      (sampleUpdate "" "Caro")
      { sampleContact with FirstName := "Caro", Company := "", Position := "", UpdatedAt := 40 }
      (by decide)
  have hc : c = sampleContact := by
    have : ContactRepository.GetByIDAndUserID sampleDB 7 1 = .ok sampleContact := by decide
    rw [this] at h1
    simp only [Except.ok.injEq] at h1
    exact h1.symm
  subst hc
  refine ⟨sampleContact, stored, h1, h2, by decide, by decide, by decide, ?_, ?_, h14, ?_, ?_⟩
  · rw [h12, h3]; decide
  · rw [h13, h4]; decide
  · rw [h19]; decide
  · rw [h20]; decide

/-- C16 (as the code behaves): for the contact c found for the id and the
caller in a well-formed contact table, when the request supplies a non-empty
email different from the email of c: if another contact of the owner is
stored under the lower-cased supplied email the call fails with "email
already exists for one of your contacts" and the store is returned as it was;
if no contact of the owner is stored under it the call succeeds, the contact
returned carries the supplied email and the stored row the lower-cased one.
When the supplied email is empty or equal to the email of c the call succeeds
whatever the other contacts hold and the email of the returned contact and of
the stored row is that of c. -/
theorem UpdateContact_email_rules (db : DB) (now : Time) (id userID : Nat)
    (req : ContactUpdateRequest) (c : Contact) (hwf : db.ContactsWellFormed)
    (hg : ContactRepository.GetByIDAndUserID db id userID = .ok c) :
    (req.Email ≠ "" → req.Email ≠ c.Email →
      (∃ o ∈ db.contacts, o.ID ≠ id ∧ o.UserID = userID ∧ o.Email = ToLower req.Email) →
      ContactService.UpdateContact db now id userID req =
        (.error "email already exists for one of your contacts", db)) ∧
    (req.Email ≠ "" → req.Email ≠ c.Email → db.holdsEmail userID req.Email = false →
      ∃ updated db2 stored,
        ContactService.UpdateContact db now id userID req = (.ok updated, db2) ∧
        updated.Email = req.Email ∧
        ContactRepository.GetByIDAndUserID db2 id userID = .ok stored ∧
        stored.Email = ToLower req.Email) ∧
    ((req.Email = "" ∨ req.Email = c.Email) →
      ∃ updated db2 stored,
        ContactService.UpdateContact db now id userID req = (.ok updated, db2) ∧
        updated.Email = c.Email ∧
        ContactRepository.GetByIDAndUserID db2 id userID = .ok stored ∧
        stored.Email = c.Email) := by
  obtain ⟨hmem, _, _⟩ := GetByIDAndUserID_ok db id userID c hg
  refine ⟨?_, ?_, ?_⟩
  · intro h1 h2 hother
    obtain ⟨o, ho, _, hou, hoe⟩ := hother
    have hheld : db.holdsEmail userID req.Email = true :=
      (holdsEmail_iff db userID req.Email).mpr ⟨o, ho, hoe, hou⟩
    rcases UpdateContact_email_cases db userID req c with
      ⟨_, _, _, he⟩ | ⟨_, _, hfree, _⟩ | ⟨hsame, _⟩
    · simp [ContactService.UpdateContact, hg, he]
    · rw [hheld] at hfree; exact absurd hfree (by decide)
    · rcases hsame with h | h
      · exact absurd h h1
      · exact absurd h h2
  · intro h1 h2 hfree
    rcases UpdateContact_email_cases db userID req c with
      ⟨_, _, hheld, _⟩ | ⟨_, _, _, he⟩ | ⟨hsame, _⟩
    · rw [hfree] at hheld; exact absurd hheld (by decide)
    · refine ⟨_, _, _, UpdateContact_eq db now id userID req c _ hg he rfl rfl, ?_,
        GetByIDAndUserID_after_update db id userID _ c hg, ?_⟩
      · exact (UpdateContact_fields_keeps req _).2.2.1
      · show ToLower (ContactService.UpdateContact.fields req { c with Email := req.Email }).Email =
          ToLower req.Email
        rw [(UpdateContact_fields_keeps req _).2.2.1]
    · rcases hsame with h | h
      · exact absurd h h1
      · exact absurd h h2
  · intro hsame
    rcases UpdateContact_email_cases db userID req c with
      ⟨h1, h2, _, _⟩ | ⟨h1, h2, _, _⟩ | ⟨_, he⟩
    · rcases hsame with h | h
      · exact absurd h h1
      · exact absurd h h2
    · rcases hsame with h | h
      · exact absurd h h1
      · exact absurd h h2
    · refine ⟨_, _, _, UpdateContact_eq db now id userID req c c hg he rfl rfl, ?_,
        GetByIDAndUserID_after_update db id userID _ c hg, ?_⟩
      · exact (UpdateContact_fields_keeps req _).2.2.1
      · show ToLower (ContactService.UpdateContact.fields req c).Email = c.Email
        rw [(UpdateContact_fields_keeps req _).2.2.1]
        exact hwf.2.2 c hmem

/-- C16, instance: owner 1 holds contact 7 and, under éva@x.com, contact 8, and
moves contact 7 to ÉVA@x.com; and, holding contact 7 only, moves it to a new
email and updates it without an email. -/
theorem UpdateContact_email_rules_witness :
    ContactService.UpdateContact
        sampleDBAccented 40 7 1 (sampleUpdate "ÉVA@x.com" "") =
      (.error "email already exists for one of your contacts",
        sampleDBAccented) ∧
    (∃ updated db2 stored,
      ContactService.UpdateContact sampleDB 40 7 1 (sampleUpdate "Zoë@Y.com" "") =
        (.ok updated, db2) ∧
      updated.Email = "Zoë@Y.com" ∧
      ContactRepository.GetByIDAndUserID db2 7 1 = .ok stored ∧
      stored.Email = ToLower "Zoë@Y.com") ∧
    (∃ updated db2 stored,
      ContactService.UpdateContact sampleDB 40 7 1 (sampleUpdate "" "Caro") =
        (.ok updated, db2) ∧
      updated.Email = sampleContact.Email ∧
      ContactRepository.GetByIDAndUserID db2 7 1 = .ok stored ∧
      stored.Email = sampleContact.Email) := by
  have h1 := (UpdateContact_email_rules
    sampleDBAccented 40 7 1 (sampleUpdate "ÉVA@x.com" "") sampleContact
    (by decide) (by decide)).1 (by decide) (by decide)
    ⟨{ sampleContact with ID := 8, Email := "éva@x.com" }, by decide, by decide, by decide,
      by decide⟩
  have h2 := (UpdateContact_email_rules sampleDB 40 7 1 (sampleUpdate "Zoë@Y.com" "")
    sampleContact (by decide) (by decide)).2.1 (by decide) (by decide) (by decide)
  have h3 := (UpdateContact_email_rules sampleDB 40 7 1 (sampleUpdate "" "Caro")
    sampleContact (by decide) (by decide)).2.2 (Or.inl (by decide))
  exact ⟨h1, h2, h3⟩

/-- C16 (counterexample): contact 7 is the only contact of owner 1 and is
stored under x@y.com.  An update supplying X@Y.com, which is non-empty and
differs from the current email while no other contact holds it, fails with
the conflict error; and an update supplying New@Y.com leaves the row stored
under new@y.com, not under the supplied email. -/
theorem UpdateContact_case_change_conflicts :
    sampleDB.contacts = [sampleContact] ∧ sampleContact.Email = "x@y.com" ∧
    ContactService.UpdateContact sampleDB 40 7 1 (sampleUpdate "X@Y.com" "") =
      (.error "email already exists for one of your contacts", sampleDB) ∧
    (ContactService.UpdateContact sampleDB 40 7 1 (sampleUpdate "New@Y.com" "")).2.contacts.map
      (fun c => c.Email) = ["new@y.com"] := by
  decide

/-- Rewriting the rows of one owner, under their owner, leaves the rows of the
other owners as they were. -/
theorem filter_others_map (l : List Contact) (id userID : Nat) (g : Contact → Contact)
    (hg : ∀ c, (g c).UserID = c.UserID) :
    (l.map (fun x => if x.ID == id && x.UserID == userID then g x else x)).filter
        (fun c => c.UserID != userID) =
      l.filter (fun c => c.UserID != userID) := by
  induction l with
  | nil => simp
  | cons a l ih =>
    simp only [Bool.and_eq_true, beq_iff_eq] at ih
    by_cases hu : a.UserID = userID
    · by_cases hi : a.ID = id
      · simp [List.filter_cons, hu, hi, hg a, ih]
      · simp [List.filter_cons, hu, hi, ih]
    · simp [List.filter_cons, hu, ih]

/-- What UpdateContact does to the contact table: nothing, or the rows with
the id and the owner are rewritten by a `SET` clause. -/
theorem UpdateContact_state (db : DB) (now : Time) (id userID : Nat)
    (req : ContactUpdateRequest) :
    (ContactService.UpdateContact db now id userID req).2 = db ∨
    ∃ contact, (ContactService.UpdateContact db now id userID req).2 =
      { db with contacts := db.contacts.map (fun x =>
          if x.ID == id && x.UserID == userID then ContactRepository.Update.set contact x
          else x) } := by
  cases hg : ContactRepository.GetByIDAndUserID db id userID with
  | error e => left; simp [ContactService.UpdateContact, hg]
  | ok c =>
    rcases UpdateContact_email_cases db userID req c with
      ⟨_, _, _, he⟩ | ⟨_, _, _, he⟩ | ⟨_, he⟩
    · left; simp [ContactService.UpdateContact, hg, he]
    · right
      exact ⟨_, by rw [UpdateContact_eq db now id userID req c _ hg he rfl rfl]⟩
    · right
      exact ⟨_, by rw [UpdateContact_eq db now id userID req c c hg he rfl rfl]⟩

/-- C17: when no stored contact has the id together with the caller as owner
(the id is absent or belongs to another user), UpdateContact and
DeleteContact fail with "contact not found" and return the store as it was;
and whatever the arguments, the contacts of every other owner are the same
after UpdateContact and after DeleteContact as before. -/
theorem contact_mutation_owner_scoped (db : DB) (now : Time) (id userID : Nat)
    (req : ContactUpdateRequest) :
    ((∀ c ∈ db.contacts, ¬ (c.ID = id ∧ c.UserID = userID)) →
      ContactService.UpdateContact db now id userID req = (.error "contact not found", db) ∧
      ContactService.DeleteContact db id userID = (.error "contact not found", db)) ∧
    (ContactService.UpdateContact db now id userID req).2.contacts.filter
        (fun c => c.UserID != userID) =
      db.contacts.filter (fun c => c.UserID != userID) ∧
    (ContactService.DeleteContact db id userID).2.contacts.filter
        (fun c => c.UserID != userID) =
      db.contacts.filter (fun c => c.UserID != userID) := by
  refine ⟨?_, ?_, ?_⟩
  · intro hnone
    constructor
    · simp [ContactService.UpdateContact, GetByIDAndUserID_not_found db id userID hnone]
    · have hcnt : db.contacts.countP (fun c => c.ID == id && c.UserID == userID) = 0 := by
        rw [List.countP_eq_zero]
        intro c hc
        simpa using hnone c hc
      simp [ContactService.DeleteContact, ContactRepository.Delete, hcnt]
  · rcases UpdateContact_state db now id userID req with h | ⟨contact, h⟩
    · rw [h]
    · rw [h]
      exact filter_others_map db.contacts id userID _
        (fun c => by simp [ContactRepository.Update.set])
  · unfold ContactService.DeleteContact ContactRepository.Delete
    by_cases hcnt : db.contacts.countP (fun c => c.ID == id && c.UserID == userID) = 0
    · simp [hcnt]
    · simp only [beq_iff_eq, hcnt, if_false, List.filter_filter]
      apply List.filter_congr
      intro c _
      by_cases hu : c.UserID = userID <;> simp [hu]

/-- C17, instance: user 2 addresses contact 7 of user 1, and contact 9, which
is not stored. -/
theorem contact_mutation_owner_scoped_witness :
    (ContactService.UpdateContact sampleDB 40 7 2 (sampleUpdate "z@y.com" "Zed") =
        (.error "contact not found", sampleDB) ∧
      ContactService.DeleteContact sampleDB 7 2 = (.error "contact not found", sampleDB)) ∧
    (ContactService.UpdateContact sampleDB 40 9 1 (sampleUpdate "z@y.com" "Zed") =
        (.error "contact not found", sampleDB) ∧
      ContactService.DeleteContact sampleDB 9 1 = (.error "contact not found", sampleDB)) :=
  ⟨(contact_mutation_owner_scoped sampleDB 40 7 2 (sampleUpdate "z@y.com" "Zed")).1
      (by decide),
    (contact_mutation_owner_scoped sampleDB 40 9 1 (sampleUpdate "z@y.com" "Zed")).1
      (by decide)⟩

/-- The loop of BatchImportContacts, from any intermediate result and store:
the failed items form a sub-list of the items in input order, each is
reported once and is held by the owner afterwards, and every item is either
counted as a success and inserted or counted as an error. -/
theorem BatchImport_fold_counts (now : Time) (userID : Nat) :
    ∀ (items : List ContactCreateRequest) (acc : BatchImportResponse × DB),
      ∃ failed : List ContactCreateRequest, failed.Sublist items ∧
        (items.foldl (ContactService.BatchImportContacts.body now userID) acc).1.Errors =
          acc.1.Errors ++ failed.map duplicateEmailError ∧
        (items.foldl (ContactService.BatchImportContacts.body now userID) acc).1.ErrorCount =
          acc.1.ErrorCount + failed.length ∧
        (items.foldl (ContactService.BatchImportContacts.body now userID) acc).1.SuccessCount +
          failed.length = acc.1.SuccessCount + items.length ∧
        (items.foldl (ContactService.BatchImportContacts.body now userID) acc).2.contacts.length +
          failed.length = acc.2.contacts.length + items.length ∧
        (∀ d ∈ failed,
          (items.foldl (ContactService.BatchImportContacts.body now userID) acc).2.holdsEmail
            userID d.Email = true) ∧
        (∀ e, acc.2.holdsEmail userID e = true →
          (items.foldl (ContactService.BatchImportContacts.body now userID) acc).2.holdsEmail
            userID e = true) := by
  intro items
  induction items with
  | nil =>
    intro acc
    exact ⟨[], List.Sublist.refl _, by simp, by simp, by simp, by simp, by simp,
      fun _ h => h⟩
  | cons a rest ih =>
    intro acc
    obtain ⟨result, db⟩ := acc
    rw [List.foldl_cons, BatchImport_body_eq]
    cases hh : db.holdsEmail userID a.Email with
    | true =>
      simp only [if_true]
      obtain ⟨failed, hsub, herr, hcnt, hsucc, hlen, hheld, hmono⟩ := ih
        ({ SuccessCount := result.SuccessCount, ErrorCount := result.ErrorCount + 1,
           Errors := result.Errors ++ [duplicateEmailError a] }, db)
      refine ⟨a :: failed, hsub.cons₂ a, ?_, ?_, ?_, ?_, ?_, hmono⟩
      · rw [show ([{ Data := a, Errors := ["email already exists for one of your contacts"] }] :
            List BatchImportError) = [duplicateEmailError a] from rfl, herr]
        simp
      · rw [show ([{ Data := a, Errors := ["email already exists for one of your contacts"] }] :
            List BatchImportError) = [duplicateEmailError a] from rfl, hcnt]
        simp only [List.length_cons]; omega
      · rw [show ([{ Data := a, Errors := ["email already exists for one of your contacts"] }] :
            List BatchImportError) = [duplicateEmailError a] from rfl]
        simp only [List.length_cons] at hsucc ⊢; omega
      · rw [show ([{ Data := a, Errors := ["email already exists for one of your contacts"] }] :
            List BatchImportError) = [duplicateEmailError a] from rfl]
        simp only [List.length_cons] at hlen ⊢; omega
      · intro d hd
        rw [show ([{ Data := a, Errors := ["email already exists for one of your contacts"] }] :
            List BatchImportError) = [duplicateEmailError a] from rfl]
        rcases List.mem_cons.mp hd with rfl | hd
        · exact hmono _ hh
        · exact hheld d hd
    | false =>
      simp only [Bool.false_eq_true, if_false]
      obtain ⟨failed, hsub, herr, hcnt, hsucc, hlen, hheld, hmono⟩ := ih
        ({ SuccessCount := result.SuccessCount + 1, ErrorCount := result.ErrorCount,
           Errors := result.Errors },
         { db with
            contacts := db.contacts ++ [{ storedRow now userID a with ID := db.nextContactID }]
            nextContactID := db.nextContactID + 1 })
      refine ⟨failed, hsub.cons a, herr, hcnt, ?_, ?_, hheld, ?_⟩
      · simp only [List.length_cons] at hsucc ⊢; omega
      · simp only [List.length_append, List.length_cons, List.length_nil] at hlen ⊢; omega
      · intro e he
        apply hmono
        rw [holdsEmail_insert, he]; rfl

/-- Holding an email depends on the lower-cased email only. -/
theorem holdsEmail_congr (db : DB) (userID : Nat) (e1 e2 : String)
    (h : ToLower e1 = ToLower e2) : db.holdsEmail userID e1 = db.holdsEmail userID e2 := by
  simp only [DB.holdsEmail, h]

/-- The loop of BatchImportContacts, started after the items `earlier` of a
batch imported into the store `db0`: the items that duplicate an email fail,
in input order, and the other items are inserted, in input order. -/
theorem BatchImport_fold_classified (now : Time) (userID : Nat) (db0 : DB) :
    ∀ (items earlier : List ContactCreateRequest) (acc : BatchImportResponse × DB),
      (∀ e, acc.2.holdsEmail userID e =
        (db0.holdsEmail userID e || earlier.any (fun j => ToLower j.Email == ToLower e))) →
      (items.foldl (ContactService.BatchImportContacts.body now userID) acc).1 =
        { SuccessCount := acc.1.SuccessCount +
            ((withEarlier earlier items).filter
              (fun p => !duplicatesEmail db0 userID p)).length
          ErrorCount := acc.1.ErrorCount +
            ((withEarlier earlier items).filter (duplicatesEmail db0 userID)).length
          Errors := acc.1.Errors ++
            (((withEarlier earlier items).filter (duplicatesEmail db0 userID)).map
              Prod.snd).map duplicateEmailError } ∧
      (items.foldl (ContactService.BatchImportContacts.body now userID) acc).2.contacts.map
          (fun c => { c with ID := 0 }) =
        acc.2.contacts.map (fun c => { c with ID := 0 }) ++
          (((withEarlier earlier items).filter
            (fun p => !duplicatesEmail db0 userID p)).map Prod.snd).map
            (storedRow now userID) := by
  intro items
  induction items with
  | nil => intro earlier acc _; simp [withEarlier]
  | cons a rest ih =>
    intro earlier acc hinv
    obtain ⟨result, db⟩ := acc
    simp only at hinv
    rw [List.foldl_cons, BatchImport_body_eq]
    have hdup : duplicatesEmail db0 userID (earlier, a) = db.holdsEmail userID a.Email := by
      rw [hinv a.Email]; rfl
    cases hh : db.holdsEmail userID a.Email with
    | true =>
      rw [hh] at hdup
      simp only [if_true]
      have hinv2 : ∀ e, db.holdsEmail userID e =
          (db0.holdsEmail userID e ||
            (earlier ++ [a]).any (fun j => ToLower j.Email == ToLower e)) := by
        intro e
        by_cases he : ToLower a.Email = ToLower e
        · rw [← holdsEmail_congr db userID a.Email e he, hh]
          simp [he]
        · have hb : (ToLower a.Email == ToLower e) = false := by simp [he]
          rw [hinv e, List.any_append, List.any_cons, List.any_nil, hb]
          simp
      obtain ⟨h1, h2⟩ := ih (earlier ++ [a])
        ({ SuccessCount := result.SuccessCount, ErrorCount := result.ErrorCount + 1,
           Errors := result.Errors ++
             [{ Data := a, Errors := ["email already exists for one of your contacts"] }] }, db)
        hinv2
      rw [h1, h2]
      simp only [withEarlier, List.filter_cons, hdup, Bool.not_true, Bool.false_eq_true,
        if_false, if_true, List.length_cons, List.map_cons, List.append_assoc,
        List.singleton_append]
      refine ⟨?_, trivial⟩
      congr 1
      · omega
    | false =>
      rw [hh] at hdup
      simp only [Bool.false_eq_true, if_false]
      have hinv2 : ∀ e, ({ db with
            contacts := db.contacts ++ [{ storedRow now userID a with ID := db.nextContactID }]
            nextContactID := db.nextContactID + 1 } : DB).holdsEmail userID e =
          (db0.holdsEmail userID e ||
            (earlier ++ [a]).any (fun j => ToLower j.Email == ToLower e)) := by
        intro e
        rw [holdsEmail_insert, hinv e]
        simp [List.any_append, storedRow, NewContactFromCreateRequest, Bool.or_assoc]
      obtain ⟨h1, h2⟩ := ih (earlier ++ [a])
        ({ SuccessCount := result.SuccessCount + 1, ErrorCount := result.ErrorCount,
           Errors := result.Errors },
         { db with
            contacts := db.contacts ++ [{ storedRow now userID a with ID := db.nextContactID }]
            nextContactID := db.nextContactID + 1 })
        hinv2
      rw [h1, h2]
      simp only [withEarlier, List.filter_cons, hdup, Bool.not_false, if_true,
        Bool.false_eq_true, if_false, List.length_cons, List.map_cons, List.map_append,
        List.map_nil, List.append_assoc, List.singleton_append]
      refine ⟨?_, ?_⟩
      · congr 1
        omega
      · simp [storedRow, NewContactFromCreateRequest]

/-- The items of a batch with the items before them are as many as the items,
and their second parts are the items. -/
theorem withEarlier_snd (items earlier : List ContactCreateRequest) :
    (withEarlier earlier items).map Prod.snd = items := by
  induction items generalizing earlier with
  | nil => rfl
  | cons a rest ih => simp [withEarlier, ih]

/-- C18: BatchImportContacts returns a result and no error for every batch;
the successes and the errors add up to the number of items, `Errors` has
`ErrorCount` entries, and these are the failed items in input order, each
with its data and the duplicate-email message; the failed items are exactly
the items that duplicate an email, those whose email the owner held before
the import or an earlier item of the batch carries, up to letter case; the
successes are the other items, and exactly these are inserted, in input
order; and every failed item is held by the owner afterwards. -/
theorem BatchImport_processes_every_item (db : DB) (now : Time)
    (req : ContactBatchImportRequest) (userID : Nat) :
    ∃ result failed,
      (ContactService.BatchImportContacts db now req userID).1 = .ok result ∧
      result.SuccessCount + result.ErrorCount = req.Contacts.length ∧
      result.Errors.length = result.ErrorCount ∧
      failed.Sublist req.Contacts ∧
      result.Errors = failed.map duplicateEmailError ∧
      result.Errors.map (fun e => e.Data) = failed ∧
      (ContactService.BatchImportContacts db now req userID).2.contacts.length =
        db.contacts.length + result.SuccessCount ∧
      (∀ d ∈ failed,
        (ContactService.BatchImportContacts db now req userID).2.holdsEmail userID d.Email =
          true) ∧
      failed = duplicateItems db userID req.Contacts ∧
      result.SuccessCount = (freshItems db userID req.Contacts).length ∧
      (ContactService.BatchImportContacts db now req userID).2.contacts.map
          (fun c => { c with ID := 0 }) =
        db.contacts.map (fun c => { c with ID := 0 }) ++
          (freshItems db userID req.Contacts).map (storedRow now userID) := by
  obtain ⟨failed, hsub, herr, hcnt, hsucc, hlen, hheld, _⟩ :=
    BatchImport_fold_counts now userID req.Contacts
      ({ SuccessCount := 0, ErrorCount := 0, Errors := [] }, db)
  obtain ⟨hc1, hc2⟩ := BatchImport_fold_classified now userID db req.Contacts []
    ({ SuccessCount := 0, ErrorCount := 0, Errors := [] }, db) (by intro e; simp)
  simp only [List.nil_append, Nat.zero_add] at herr hcnt hsucc hlen hc1
  have hdata : ∀ l : List ContactCreateRequest,
      (l.map duplicateEmailError).map (fun e => e.Data) = l := by
    intro l
    rw [List.map_map]
    have : ((fun e : BatchImportError => e.Data) ∘ duplicateEmailError) = fun d => d := by
      funext d; rfl
    rw [this, List.map_id']
  have hfailed : failed = duplicateItems db userID req.Contacts := by
    have h1 := congrArg (fun r : BatchImportResponse => r.Errors.map (fun e => e.Data)) hc1
    simp only [herr, hdata] at h1
    exact h1
  refine ⟨_, failed, rfl, ?_, ?_, hsub, herr, ?_, ?_, hheld, hfailed, ?_, hc2⟩
  · rw [hcnt]; exact hsucc
  · rw [herr, hcnt, List.length_map]
  · rw [herr]; exact hdata failed
  · show (req.Contacts.foldl (ContactService.BatchImportContacts.body now userID)
        ({ SuccessCount := 0, ErrorCount := 0, Errors := [] }, db)).2.contacts.length = _
    omega
  · have h1 := congrArg (fun r : BatchImportResponse => r.SuccessCount) hc1
    simp only [freshItems, List.length_map]
    exact h1

/-- C18, instance: owner 1 holds x@y.com and imports ÉVA@x.com, X@y.com,
éva@X.com and dan@y.com: the second item duplicates the email held, the third
the email of the first item. -/
theorem BatchImport_processes_every_item_witness :
    (ContactService.BatchImportContacts sampleDB 31
        { Contacts := [sampleCreate "ÉVA@x.com", sampleCreate "X@y.com",
                       sampleCreate "éva@X.com", sampleCreate "dan@y.com"] } 1).1 =
      .ok { SuccessCount := 2, ErrorCount := 2,
            Errors := [duplicateEmailError (sampleCreate "X@y.com"),
                       duplicateEmailError (sampleCreate "éva@X.com")] } ∧
    duplicateItems sampleDB 1 [sampleCreate "ÉVA@x.com", sampleCreate "X@y.com",
        sampleCreate "éva@X.com", sampleCreate "dan@y.com"] =
      [sampleCreate "X@y.com", sampleCreate "éva@X.com"] ∧
    freshItems sampleDB 1 [sampleCreate "ÉVA@x.com", sampleCreate "X@y.com",
        sampleCreate "éva@X.com", sampleCreate "dan@y.com"] =
      [sampleCreate "ÉVA@x.com", sampleCreate "dan@y.com"] ∧
    (ContactService.BatchImportContacts sampleDB 31
        { Contacts := [sampleCreate "ÉVA@x.com", sampleCreate "X@y.com",
                       sampleCreate "éva@X.com", sampleCreate "dan@y.com"] } 1).2.contacts.map
        (fun c => { c with ID := 0 }) =
      sampleDB.contacts.map (fun c => { c with ID := 0 }) ++
        (freshItems sampleDB 1 [sampleCreate "ÉVA@x.com", sampleCreate "X@y.com",
          sampleCreate "éva@X.com", sampleCreate "dan@y.com"]).map (storedRow 31 1) := by
  obtain ⟨result, failed, h1, _, _, _, h5, _, _, _, h9, h10, h11⟩ :=
    BatchImport_processes_every_item sampleDB 31
      { Contacts := [sampleCreate "ÉVA@x.com", sampleCreate "X@y.com",
                     sampleCreate "éva@X.com", sampleCreate "dan@y.com"] } 1
  exact ⟨by decide, by decide, by decide, h11⟩

/-- The loop of BatchImportContacts on items whose lower-cased emails are
pairwise distinct: the items the owner held before the loop fail, in input
order, and the other items are inserted, in input order. -/
theorem BatchImport_fold_distinct (now : Time) (userID : Nat) :
    ∀ (items : List ContactCreateRequest) (acc : BatchImportResponse × DB),
      (items.map (fun i => ToLower i.Email)).Nodup →
      (items.foldl (ContactService.BatchImportContacts.body now userID) acc).1 =
        { SuccessCount := acc.1.SuccessCount +
            (items.filter (fun i => !acc.2.holdsEmail userID i.Email)).length
          ErrorCount := acc.1.ErrorCount +
            (items.filter (fun i => acc.2.holdsEmail userID i.Email)).length
          Errors := acc.1.Errors ++
            (items.filter (fun i => acc.2.holdsEmail userID i.Email)).map duplicateEmailError } ∧
      (items.foldl (ContactService.BatchImportContacts.body now userID) acc).2.contacts.map
          (fun c => { c with ID := 0 }) =
        acc.2.contacts.map (fun c => { c with ID := 0 }) ++
          (items.filter (fun i => !acc.2.holdsEmail userID i.Email)).map
            (storedRow now userID) := by
  intro items
  induction items with
  | nil => intro acc _; simp
  | cons a rest ih =>
    intro acc hnd
    obtain ⟨result, db⟩ := acc
    rw [List.map_cons, List.nodup_cons] at hnd
    rw [List.foldl_cons, BatchImport_body_eq]
    cases hh : db.holdsEmail userID a.Email with
    | true =>
      simp only [if_true]
      obtain ⟨h1, h2⟩ := ih
        ({ SuccessCount := result.SuccessCount, ErrorCount := result.ErrorCount + 1,
           Errors := result.Errors ++
             [{ Data := a, Errors := ["email already exists for one of your contacts"] }] }, db)
        hnd.2
      rw [h1, h2]
      simp only [List.filter_cons, hh, Bool.not_true, Bool.false_eq_true, if_false, if_true,
        List.length_cons, List.map_cons, List.append_assoc, List.singleton_append]
      refine ⟨?_, trivial⟩
      congr 1
      · omega
    | false =>
      simp only [Bool.false_eq_true, if_false]
      have hsame : ∀ i ∈ rest,
          ({ db with
              contacts := db.contacts ++ [{ storedRow now userID a with ID := db.nextContactID }]
              nextContactID := db.nextContactID + 1 } : DB).holdsEmail userID i.Email =
            db.holdsEmail userID i.Email := by
        intro i hi
        rw [holdsEmail_insert]
        have hne : ToLower a.Email ≠ ToLower i.Email := fun he =>
          hnd.1 (List.mem_map.mpr ⟨i, hi, he.symm⟩)
        simp [storedRow, hne]
      obtain ⟨h1, h2⟩ := ih
        ({ SuccessCount := result.SuccessCount + 1, ErrorCount := result.ErrorCount,
           Errors := result.Errors },
         { db with
            contacts := db.contacts ++ [{ storedRow now userID a with ID := db.nextContactID }]
            nextContactID := db.nextContactID + 1 })
        hnd.2
      rw [h1, h2]
      have hf1 : rest.filter (fun i => ({ db with
              contacts := db.contacts ++ [{ storedRow now userID a with ID := db.nextContactID }]
              nextContactID := db.nextContactID + 1 } : DB).holdsEmail userID i.Email) =
          rest.filter (fun i => db.holdsEmail userID i.Email) :=
        List.filter_congr (fun i hi => hsame i hi)
      have hf2 : rest.filter (fun i => !({ db with
              contacts := db.contacts ++ [{ storedRow now userID a with ID := db.nextContactID }]
              nextContactID := db.nextContactID + 1 } : DB).holdsEmail userID i.Email) =
          rest.filter (fun i => !db.holdsEmail userID i.Email) :=
        List.filter_congr (fun i hi => by rw [hsame i hi])
      simp only [hf1, hf2, List.filter_cons, hh, Bool.not_false, if_true, Bool.false_eq_true,
        if_false, List.length_cons, List.map_cons, List.map_append, List.map_nil,
        List.append_assoc, List.singleton_append]
      refine ⟨?_, ?_⟩
      · congr 1
        omega
      · simp [storedRow, NewContactFromCreateRequest]

/-- C20: Login with an email under which no user is stored, whatever the
password, and Login with the email of a stored user and a password that the
stored hash does not match return the same triple, an empty token, no user
and the error "invalid email or password"; and for both the handler, once the
body passes validation, answers with status 401 and that error text. -/
theorem Login_failures_coincide (lib : Libraries) (s : AuthService) (db : DB) (now : Time)
    (unknown wrong : UserLoginRequest) (user : User)
    (h1 : ∀ u ∈ db.users, u.Email ≠ ToLower unknown.Email)
    (h2 : UserRepository.GetByEmail db wrong.Email = .ok user)
    (h3 : user.CheckPassword lib wrong.Password = false) :
    AuthService.Login lib s db now unknown = ("", none, some "invalid email or password") ∧
    AuthService.Login lib s db now wrong = ("", none, some "invalid email or password") ∧
    (unknown.Validate lib = none →
      AuthHandler.Login lib s db now (some unknown) =
        { status := 401, body := .error "invalid email or password" }) ∧
    (wrong.Validate lib = none →
      AuthHandler.Login lib s db now (some wrong) =
        { status := 401, body := .error "invalid email or password" }) := by
  have hnone : UserRepository.GetByEmail db unknown.Email = .error "user not found" := by
    have : db.users.find? (fun u => u.Email == ToLower unknown.Email) = none := by
      rw [List.find?_eq_none]
      intro u hu
      simpa using h1 u hu
    simp [UserRepository.GetByEmail, this]
  have hu : AuthService.Login lib s db now unknown =
      ("", none, some "invalid email or password") := by
    simp [AuthService.Login, hnone]
  have hw : AuthService.Login lib s db now wrong =
      ("", none, some "invalid email or password") := by
    simp [AuthService.Login, h2, h3]
  refine ⟨hu, hw, ?_, ?_⟩
  · intro hv
    simp [AuthHandler.Login, hv, hu, StatusUnauthorized]
  · intro hv
    simp [AuthHandler.Login, hv, hw, StatusUnauthorized]

/-- C20, instance: no user is stored under zoë@y.com, and user B is stored
under éva@x.com and the hash of `pw`, not of `bad`. -/
theorem Login_failures_coincide_witness :
    AuthService.Login sampleLib sampleAuth sampleAuthDBAccented 50
        { Email := "Zoë@y.com", Password := "pw" } =
      ("", none, some "invalid email or password") ∧
    AuthService.Login sampleLib sampleAuth sampleAuthDBAccented 50
        { Email := "ÉVA@x.com", Password := "bad" } =
      ("", none, some "invalid email or password") ∧
    AuthHandler.Login sampleLib sampleAuth sampleAuthDBAccented 50
        (some { Email := "Zoë@y.com", Password := "pw" }) =
      { status := 401, body := .error "invalid email or password" } ∧
    AuthHandler.Login sampleLib sampleAuth sampleAuthDBAccented 50
        (some { Email := "ÉVA@x.com", Password := "bad" }) =
      { status := 401, body := .error "invalid email or password" } := by
  have h := Login_failures_coincide sampleLib sampleAuth sampleAuthDBAccented 50
    { Email := "Zoë@y.com", Password := "pw" } { Email := "ÉVA@x.com", Password := "bad" }
    { sampleUserB with Email := "éva@x.com", PasswordHash := "h:pw" }
    (by decide) (by decide) (by decide)
  exact ⟨h.1, h.2.1, h.2.2.1 (by decide), h.2.2.2 (by decide)⟩

/-- The lookup by email succeeds when a user is stored under the lower-cased
email. -/
theorem GetByEmail_of_mem (db : DB) (email : String) (u : User) (hmem : u ∈ db.users)
    (he : u.Email = ToLower email) :
    ∃ found, UserRepository.GetByEmail db email = .ok found := by
  unfold UserRepository.GetByEmail
  cases hf : db.users.find? (fun x => x.Email == ToLower email) with
  | none =>
    rw [List.find?_eq_none] at hf
    exact absurd (by simpa using he) (hf u hmem)
  | some found => exact ⟨found, rfl⟩

/-- Register keeps the emails of the user table lower-cased. -/
theorem Register_keeps_emails_lowerCased (lib : Libraries) (s : AuthService) (db : DB)
    (now : Time) (salt : String) (req : UserSignupRequest) (h : db.UserEmailsLowerCased) :
    (AuthService.Register lib s db now salt req).2.UserEmailsLowerCased := by
  unfold AuthService.Register
  cases UserRepository.GetByEmail db req.Email with
  | ok _ => exact h
  | error _ =>
    cases hn : NewUserFromSignupRequest lib now salt req with
    | error _ => exact h
    | ok user =>
      have hins : ({ db with
          users := db.users ++ [{ user with ID := db.nextUserID, Email := ToLower user.Email }]
          nextUserID := db.nextUserID + 1 } : DB).UserEmailsLowerCased := by
        intro u hu
        rcases List.mem_append.mp hu with hu | hu
        · exact h u hu
        · simp only [List.mem_singleton] at hu
          rw [hu]
          exact ToLower_idem user.Email
      simp only [UserRepository.Create]
      split <;> exact hins

/-- The user tables of reachable stores hold lower-cased emails. -/
theorem UserReachable_lowerCased (db : DB) (h : UserReachable db) :
    db.UserEmailsLowerCased := by
  induction h with
  | init contacts requests nextRequestID nextContactID nextUserID =>
    intro u hu
    simp at hu
  | register lib s db now salt req _ ih =>
    exact Register_keeps_emails_lowerCased lib s db now salt req ih
  | other db db2 _ hrows ih =>
    intro u hu
    obtain ⟨v, hv, hve⟩ := hrows u hu
    rw [← hve]
    exact ih v hv

/-- A header made of `Bearer `, with the blank, and a token has the prefix, and
trimming the prefix gives the token. -/
theorem Bearer_header (token : String) :
    HasPrefix ("Bearer " ++ token) "Bearer " = true ∧
    TrimPrefix ("Bearer " ++ token) "Bearer " = token := by
  have h1 : HasPrefix ("Bearer " ++ token) "Bearer " = true := by
    simp [HasPrefix, String.data_append, List.isPrefixOf_iff_prefix]
  refine ⟨h1, ?_⟩
  simp only [TrimPrefix, h1, if_true, String.data_append, List.drop_left]

/-- C22: AuthMiddleware answers 401 without running the rest of the chain
when the Authorization header is missing, when it does not start with
`Bearer `, when the token after that prefix is empty and when ParseJWT
rejects the token; when ParseJWT accepts the token the rest of the chain is
run on the context with userID set to the user id of the claims, which is
what GetUserID then returns. -/
theorem AuthMiddleware_gate (lib : Libraries) (jwtSecret : String) (c : Context)
    (authHeader : String) (next : Context → Response) :
    (authHeader = "" →
      AuthMiddleware lib jwtSecret c authHeader next =
        { status := 401, body := .error "Authorization header is required" }) ∧
    (authHeader ≠ "" → HasPrefix authHeader "Bearer " = false →
      AuthMiddleware lib jwtSecret c authHeader next =
        { status := 401, body := .error "Authorization header must start with Bearer" }) ∧
    (authHeader = "Bearer " →
      AuthMiddleware lib jwtSecret c authHeader next =
        { status := 401, body := .error "Token is required" }) ∧
    (∀ token, authHeader = "Bearer " ++ token → token ≠ "" →
      (∀ err, ParseJWT lib token jwtSecret = .error err →
        AuthMiddleware lib jwtSecret c authHeader next =
          { status := 401, body := .error "Invalid or expired token" }) ∧
      (∀ userID, ParseJWT lib token jwtSecret = .ok userID →
        AuthMiddleware lib jwtSecret c authHeader next = next { c with userID := some userID } ∧
        GetUserID { c with userID := some userID } = userID)) := by
  refine ⟨?_, ?_, ?_, ?_⟩
  · intro h
    simp [AuthMiddleware, h, StatusUnauthorized]
  · intro h1 h2
    simp [AuthMiddleware, h1, h2, StatusUnauthorized]
  · intro h
    subst h
    have h1 : HasPrefix "Bearer " "Bearer " = true := by decide
    have h2 : TrimPrefix "Bearer " "Bearer " = "" := by decide
    have h3 : ("Bearer " == "") = false := by decide
    simp only [AuthMiddleware, h1, h2, h3, StatusUnauthorized]
    rfl
  · intro token h htok
    subst h
    obtain ⟨hp, ht⟩ := Bearer_header token
    have hne : ("Bearer " ++ token) ≠ "" := by
      intro he
      have := congrArg String.length he
      simp only [String.length_append] at this
      have h7 : "Bearer ".length = 7 := by decide
      rw [h7] at this
      simp at this
    constructor
    · intro err hj
      simp [AuthMiddleware, hne, hp, ht, htok, hj, StatusUnauthorized]
    · intro userID hj
      refine ⟨?_, rfl⟩
      simp [AuthMiddleware, hne, hp, ht, htok, hj]

/-- C22, instance: the five kinds of header under the sample library, with a
rest of the chain that answers with the user id it reads from the context. -/
theorem AuthMiddleware_gate_witness :
    AuthMiddleware sampleLib "k" { userID := none } ""
        (fun ctx => { status := 200 + GetUserID ctx, body := .empty }) =
      { status := 401, body := .error "Authorization header is required" } ∧
    AuthMiddleware sampleLib "k" { userID := none } "Token k.2"
        (fun ctx => { status := 200 + GetUserID ctx, body := .empty }) =
      { status := 401, body := .error "Authorization header must start with Bearer" } ∧
    AuthMiddleware sampleLib "k" { userID := none } "Bearer "
        (fun ctx => { status := 200 + GetUserID ctx, body := .empty }) =
      { status := 401, body := .error "Token is required" } ∧
    AuthMiddleware sampleLib "k" { userID := none } ("Bearer " ++ "k.old")
        (fun ctx => { status := 200 + GetUserID ctx, body := .empty }) =
      { status := 401, body := .error "Invalid or expired token" } ∧
    AuthMiddleware sampleLib "k" { userID := none } ("Bearer " ++ "k.2")
        (fun ctx => { status := 200 + GetUserID ctx, body := .empty }) =
      { status := 202, body := .empty } := by
  have h1 := (AuthMiddleware_gate sampleLib "k" { userID := none } ""
    (fun ctx => { status := 200 + GetUserID ctx, body := .empty })).1 rfl
  have h2 := (AuthMiddleware_gate sampleLib "k" { userID := none } "Token k.2"
    (fun ctx => { status := 200 + GetUserID ctx, body := .empty })).2.1 (by decide) (by decide)
  have h3 := (AuthMiddleware_gate sampleLib "k" { userID := none } "Bearer "
    (fun ctx => { status := 200 + GetUserID ctx, body := .empty })).2.2.1 rfl
  have h4 := ((AuthMiddleware_gate sampleLib "k" { userID := none } ("Bearer " ++ "k.old")
    (fun ctx => { status := 200 + GetUserID ctx, body := .empty })).2.2.2 "k.old" rfl
    (by decide)).1 "invalid token" (by decide)
  have h5 := ((AuthMiddleware_gate sampleLib "k" { userID := none } ("Bearer " ++ "k.2")
    (fun ctx => { status := 200 + GetUserID ctx, body := .empty })).2.2.2 "k.2" rfl
    (by decide)).2 2 (by decide)
  exact ⟨h1, h2, h3, h4, h5.1⟩

/-- A listed row is a stored row in which the user takes part. -/
theorem GetRequestsByType_mem (db : DB) (userID : Nat) (isSent : Bool)
    (rows : List IntroductionRequest) (r : IntroductionRequest)
    (h : RequestService.GetRequestsByType db userID isSent = .ok rows) (hr : r ∈ rows) :
    r ∈ db.requests ∧ (r.RequesterID = userID ∨ r.ApproverID = userID) := by
  unfold RequestService.GetRequestsByType at h
  cases isSent with
  | true =>
    simp only [if_true, RequestRepository.GetAllByRequesterID, Except.ok.injEq] at h
    subst h
    rw [orderByCreatedAtDesc, List.mem_insertionSort, List.mem_filter] at hr
    exact ⟨hr.1, Or.inl (by simpa using hr.2)⟩
  | false =>
    simp only [Bool.false_eq_true, if_false, RequestRepository.GetAllByApproverID,
      Except.ok.injEq] at h
    subst h
    rw [orderByCreatedAtDesc, List.mem_insertionSort, List.mem_filter] at hr
    exact ⟨hr.1, Or.inr (by simpa using hr.2)⟩

/-- For a stored row in which the user takes part, GetRequest succeeds exactly
when requester, approver and target contact are found, and then returns what
`resolvedResponse` is built from. -/
theorem GetRequest_resolved (db : DB) (userID : Nat) (r : IntroductionRequest)
    (hwf : db.WellFormed) (hmem : r ∈ db.requests)
    (hpart : r.RequesterID = userID ∨ r.ApproverID = userID) :
    (match RequestService.GetRequest db r.ID userID with
      | .error _ => none
      | .ok (fullRequest, requester, approver, contact) =>
        some (fullRequest.ToResponse requester approver contact)) = resolvedResponse db r := by
  have hcond : (r.RequesterID != userID && r.ApproverID != userID) = false := by
    rcases hpart with h | h <;> simp [h]
  unfold RequestService.GetRequest resolvedResponse
  rw [GetByID_of_mem db r hwf hmem]
  simp only [hcond, Bool.false_eq_true, if_false]
  cases UserRepository.GetByID db r.RequesterID <;>
    cases UserRepository.GetByID db r.ApproverID <;>
    cases ContactRepository.GetByID db r.TargetContactID <;> rfl

/-- C23: in a well-formed store ListRequests answers 200 with the response
items of the rows returned for the user, in the order of the rows, for
exactly those rows whose requester, approver and target contact are all
found; a row with one of them missing is left out and the answer is still
200. -/
theorem ListRequests_skips_unresolved (db : DB) (userID : Nat) (typeParam : Option String)
    (hwf : db.WellFormed) :
    ∃ rows,
      RequestService.GetRequestsByType db userID (typeParam.getD "received" == "sent") =
        .ok rows ∧
      RequestHandler.ListRequests db userID typeParam =
        { status := 200, body := .requests (rows.filterMap (resolvedResponse db)) } ∧
      (rows.filterMap (resolvedResponse db)).map (fun x => x.ID) =
        (rows.filter (fun r => (resolvedResponse db r).isSome)).map (fun r => r.ID) ∧
      ∀ r, (resolvedResponse db r).isSome = true ↔
        ∃ requester approver contact,
          UserRepository.GetByID db r.RequesterID = .ok requester ∧
          UserRepository.GetByID db r.ApproverID = .ok approver ∧
          ContactRepository.GetByID db r.TargetContactID = .ok contact := by
  have hrows : ∃ rows,
      RequestService.GetRequestsByType db userID (typeParam.getD "received" == "sent") =
        .ok rows := by
    unfold RequestService.GetRequestsByType RequestRepository.GetAllByRequesterID
      RequestRepository.GetAllByApproverID
    split <;> exact ⟨_, rfl⟩
  obtain ⟨rows, hrows⟩ := hrows
  refine ⟨rows, hrows, ?_, ?_, ?_⟩
  · unfold RequestHandler.ListRequests
    simp only [hrows, StatusOK]
    congr 2
    apply List.filterMap_congr
    intro r hr
    obtain ⟨hmem, hpart⟩ := GetRequestsByType_mem db userID _ rows r hrows hr
    exact GetRequest_resolved db userID r hwf hmem hpart
  · have key : ∀ l : List IntroductionRequest,
        (l.filterMap (resolvedResponse db)).map (fun x => x.ID) =
          (l.filter (fun r => (resolvedResponse db r).isSome)).map (fun r => r.ID) := by
      intro l
      induction l with
      | nil => rfl
      | cons a l ih =>
        cases ha : resolvedResponse db a with
        | none => simp [List.filterMap_cons, List.filter_cons, ha, ih]
        | some resp =>
          have hid : resp.ID = a.ID := by
            unfold resolvedResponse at ha
            split at ha
            · simp only [Option.some.injEq] at ha
              rw [← ha]; rfl
            · exact absurd ha (by simp)
          simp [List.filterMap_cons, List.filter_cons, ha, ih, hid]
    exact key rows
  · intro r
    unfold resolvedResponse
    cases UserRepository.GetByID db r.RequesterID <;>
      cases UserRepository.GetByID db r.ApproverID <;>
      cases ContactRepository.GetByID db r.TargetContactID <;> simp

/-- C23, instance: of the two requests user 1 has received, the later one has
a requester who is not stored; the listing holds the earlier one only. -/
theorem ListRequests_skips_unresolved_witness :
    RequestHandler.ListRequests sampleListDB 1 none =
      { status := 200,
        body := .requests
          [(sampleRequest "pending").ToResponse sampleUserB sampleUserA sampleContact] } := by
  obtain ⟨rows, h1, h2, _, _⟩ := ListRequests_skips_unresolved sampleListDB 1 none (by decide)
  have hrows : RequestService.GetRequestsByType sampleListDB 1
      ((none : Option String).getD "received" == "sent") =
      .ok [{ sampleRequest "pending" with ID := 2, RequesterID := 3, CreatedAt := 30 },
        sampleRequest "pending"] := by decide
  rw [hrows] at h1
  simp only [Except.ok.injEq] at h1
  subst h1
  rw [h2]
  decide

/-- The notifications UpdateRequest dispatches on a stored request, by its
approver. -/
theorem UpdateRequest_dispatched (w : World) (now : Time) (id userID : Nat)
    (req : RequestUpdateRequest) (old : IntroductionRequest)
    (hg : RequestRepository.GetByID w.db id = .ok old) (happ : old.ApproverID = userID) :
    (RequestService.UpdateRequest w now id userID req).2.dispatched =
      w.dispatched ++
        (if req.Status == RequestStatusApproved then
          [.sendApprovalNotification
            { old with Status := req.Status, ResponseMessage := req.ResponseMessage,
                       UpdatedAt := now }]
        else if req.Status == RequestStatusDeclined then
          [.sendDeclineNotification
            { old with Status := req.Status, ResponseMessage := req.ResponseMessage,
                       UpdatedAt := now }]
        else []) := by
  obtain ⟨hmem, hid⟩ := GetByID_ok w.db id old hg
  subst happ
  have hcnt : w.db.requests.countP (fun r => r.ID ==
      ({ old with Status := req.Status,
                  ResponseMessage := req.ResponseMessage } : IntroductionRequest).ID) ≠ 0 := by
    have : 0 < w.db.requests.countP (fun r => r.ID == old.ID) :=
      List.countP_pos_iff.mpr ⟨old, hmem, by simp⟩
    exact Nat.pos_iff_ne_zero.mp this
  unfold RequestService.UpdateRequest
  simp only [hg, bne_self_eq_false, Bool.false_eq_true, if_false, Update_ok _ _ _ hcnt]
  split_ifs <;> simp

/-- C24: after a successful UpdateRequest the list of dispatched tasks has
grown by exactly one approval task when the new status is approved, by
exactly one decline task when it is declined, and not at all otherwise, in
particular for pending; and whenever such a task runs on a store in which
requester, approver and target contact of the request are found and the
transport accepts the mail, the approval task hands over one mail addressed to
the requester, the target contact and the approver, and the decline task one
mail addressed to the requester only. -/
theorem UpdateRequest_notifications (w w2 : World) (now : Time) (id userID : Nat)
    (req : RequestUpdateRequest) (updated : IntroductionRequest)
    (h : RequestService.UpdateRequest w now id userID req = (.ok updated, w2)) :
    (req.Status = RequestStatusApproved →
      w2.dispatched = w.dispatched ++ [.sendApprovalNotification updated]) ∧
    (req.Status = RequestStatusDeclined →
      w2.dispatched = w.dispatched ++ [.sendDeclineNotification updated]) ∧
    (req.Status ≠ RequestStatusApproved → req.Status ≠ RequestStatusDeclined →
      w2.dispatched = w.dispatched) ∧
    (∀ (m : Mailer) (delivery : Delivery) (db : DB) (outbox : List Email)
        (requester approver : User) (contact : Contact),
      UserRepository.GetByID db updated.RequesterID = .ok requester →
      UserRepository.GetByID db updated.ApproverID = .ok approver →
      ContactRepository.GetByID db updated.TargetContactID = .ok contact →
      (∀ mail, delivery mail = none) →
      (∃ mail, RequestService.sendApprovalNotification m delivery db outbox updated =
          outbox ++ [mail] ∧
        mail.To = [requester.Email, contact.Email, approver.Email]) ∧
      (∃ mail, RequestService.sendDeclineNotification m delivery db outbox updated =
          outbox ++ [mail] ∧
        mail.To = [requester.Email])) := by
  have hmail : ∀ (m : Mailer) (delivery : Delivery) (db : DB) (outbox : List Email)
      (requester approver : User) (contact : Contact),
      UserRepository.GetByID db updated.RequesterID = .ok requester →
      UserRepository.GetByID db updated.ApproverID = .ok approver →
      ContactRepository.GetByID db updated.TargetContactID = .ok contact →
      (∀ mail, delivery mail = none) →
      (∃ mail, RequestService.sendApprovalNotification m delivery db outbox updated =
          outbox ++ [mail] ∧
        mail.To = [requester.Email, contact.Email, approver.Email]) ∧
      (∃ mail, RequestService.sendDeclineNotification m delivery db outbox updated =
          outbox ++ [mail] ∧
        mail.To = [requester.Email]) := by
    intro m delivery db outbox requester approver contact h1 h2 h3 hd
    constructor
    · have hrun : RequestService.sendApprovalNotification m delivery db outbox updated =
          outbox ++ [(Email.mk m.fromEmail [requester.Email, contact.Email, approver.Email]
            ("Introduction: " ++ requester.FirstName ++ " " ++ requester.LastName ++
              " <> " ++ contact.FirstName ++ " " ++ contact.LastName)
            "request_approved.html" requester approver contact updated)] := by
        simp only [RequestService.sendApprovalNotification, h1, h2, h3,
          Mailer.SendRequestApprovedEmail, Mailer.sendEmailToMultiple, hd]
      exact ⟨_, hrun, rfl⟩
    · have hrun : RequestService.sendDeclineNotification m delivery db outbox updated =
          outbox ++ [(Email.mk m.fromEmail [requester.Email]
            ("Introduction request to " ++ contact.FirstName ++ " " ++ contact.LastName ++
              " was declined")
            "request_declined.html" requester approver contact updated)] := by
        simp only [RequestService.sendDeclineNotification, h1, h2, h3,
          Mailer.SendRequestDeclinedEmail, Mailer.sendEmail, Mailer.sendEmailToMultiple, hd]
      exact ⟨_, hrun, rfl⟩
  cases hg : RequestRepository.GetByID w.db id with
  | error e => simp [RequestService.UpdateRequest, hg] at h
  | ok old =>
    by_cases happ : old.ApproverID = userID
    · obtain ⟨hv, _⟩ := UpdateRequest_eq w now id userID req old hg happ
      have hd := UpdateRequest_dispatched w now id userID req old hg happ
      rw [h] at hv hd
      simp only [Except.ok.injEq] at hv
      simp only at hd
      rw [← hv] at hd
      refine ⟨?_, ?_, ?_, hmail⟩
      · intro hs
        rw [hd]
        simp [hs]
      · intro hs
        rw [hd]
        have hne : (req.Status == RequestStatusApproved) = false := by
          rw [hs]; decide
        have heq : (req.Status == RequestStatusDeclined) = true := by
          rw [hs]; decide
        simp only [hne, heq, Bool.false_eq_true, if_false, if_true]
      · intro h1 h2
        rw [hd]
        simp [h1, h2]
    · simp [RequestService.UpdateRequest, hg, happ] at h

/-- C24, instance: approver 1 approves request 1; one approval task is
dispatched, and run on the sample store it hands over one mail to the
requester, the contact and the approver. -/
theorem UpdateRequest_notifications_witness :
    ({ db := { sampleDB with
                requests := [{ sampleRequest "approved" with
                               ResponseMessage := "ok", UpdatedAt := 40 }],
                nextRequestID := 2 },
       dispatched := [.sendApprovalNotification
         { sampleRequest "approved" with ResponseMessage := "ok", UpdatedAt := 40 }] } :
      World).dispatched =
      (sampleWorldWith "pending").dispatched ++ [.sendApprovalNotification
        { sampleRequest "approved" with ResponseMessage := "ok", UpdatedAt := 40 }] ∧
    ∃ mail, RequestService.sendApprovalNotification sampleMailer deliveryUp sampleDB []
        { sampleRequest "approved" with ResponseMessage := "ok", UpdatedAt := 40 } =
        [] ++ [mail] ∧
      mail.To = [sampleUserB.Email, sampleContact.Email, sampleUserA.Email] := by
  have h := UpdateRequest_notifications (sampleWorldWith "pending")
    { db := { sampleDB with
              requests := [{ sampleRequest "approved" with
                             ResponseMessage := "ok", UpdatedAt := 40 }],
              nextRequestID := 2 },
      dispatched := [.sendApprovalNotification
        { sampleRequest "approved" with ResponseMessage := "ok", UpdatedAt := 40 }] }
    40 1 1 { Status := "approved", ResponseMessage := "ok" }
    { sampleRequest "approved" with ResponseMessage := "ok", UpdatedAt := 40 } (by decide)
  exact ⟨h.1 (by decide),
    (h.2.2.2 sampleMailer deliveryUp sampleDB [] sampleUserB sampleUserA sampleContact
      (by decide) (by decide) (by decide) (fun _ => rfl)).1⟩

/-- CreateRequest reads the contact table, the request table and its counter
only: on two states that agree on these it returns the same value or error
and leaves the same request table. -/
theorem CreateRequest_reads (w w2 : World) (now : Time) (req : RequestCreateRequest)
    (requesterID : Nat) (hc : w.db.contacts = w2.db.contacts)
    (hr : w.db.requests = w2.db.requests) (hn : w.db.nextRequestID = w2.db.nextRequestID) :
    (RequestService.CreateRequest w now req requesterID).1 =
      (RequestService.CreateRequest w2 now req requesterID).1 ∧
    (RequestService.CreateRequest w now req requesterID).2.db.requests =
      (RequestService.CreateRequest w2 now req requesterID).2.db.requests := by
  have hget : ContactRepository.GetByID w.db req.TargetContactID =
      ContactRepository.GetByID w2.db req.TargetContactID := by
    simp only [ContactRepository.GetByID, hc]
  have hex : RequestRepository.Exists w.db requesterID req.TargetContactID =
      RequestRepository.Exists w2.db requesterID req.TargetContactID := by
    simp only [RequestRepository.Exists, hr]
  unfold RequestService.CreateRequest
  rw [hget, hex]
  cases ContactRepository.GetByID w2.db req.TargetContactID with
  | error e => exact ⟨rfl, hr⟩
  | ok contact =>
    by_cases hown : contact.UserID = req.ApproverID
    · cases hfound : RequestRepository.Exists w2.db requesterID req.TargetContactID with
      | error e => simp [hown, hr]
      | ok found =>
        cases found with
        | true => simp [hown, hr]
        | false => simp [hown, RequestRepository.Create, hr, hn]
    · simp [hown, hr]

/-- UpdateRequest reads the request table only: on two states that agree on it
the call returns the same value or error and leaves the same request table. -/
theorem UpdateRequest_reads (w w2 : World) (now : Time) (id userID : Nat)
    (req : RequestUpdateRequest) (hr : w.db.requests = w2.db.requests) :
    (RequestService.UpdateRequest w now id userID req).1 =
      (RequestService.UpdateRequest w2 now id userID req).1 ∧
    (RequestService.UpdateRequest w now id userID req).2.db.requests =
      (RequestService.UpdateRequest w2 now id userID req).2.db.requests := by
  have hget : RequestRepository.GetByID w.db id = RequestRepository.GetByID w2.db id := by
    simp only [RequestRepository.GetByID, hr]
  unfold RequestService.UpdateRequest
  rw [hget]
  cases RequestRepository.GetByID w2.db id with
  | error e => exact ⟨rfl, hr⟩
  | ok request =>
    by_cases happ : request.ApproverID = userID
    · simp only [happ, bne_self_eq_false, Bool.false_eq_true, if_false,
        RequestRepository.Update, hr]
      by_cases hcnt : w2.db.requests.countP (fun r => r.ID == request.ID) = 0
      · simp [hcnt, hr]
      · by_cases h1 : req.Status = RequestStatusApproved
        · simp [hcnt, h1]
        · by_cases h2 : req.Status = RequestStatusDeclined
          · have hne : RequestStatusDeclined ≠ RequestStatusApproved := by decide
            simp [hcnt, h2, hne]
          · simp [hcnt, h1, h2]
    · simp [happ, hr]

/-- C25: the value or error returned by CreateRequest and by UpdateRequest and
the request table they leave are fixed by what the call itself reads, the
contact table, the request table and its counter for CreateRequest and the
request table for UpdateRequest. Two runs that agree on these return the same
value or error and have the same request table once the dispatched tasks have
run, whatever the user table and, for UpdateRequest, the contact table hold,
so whether the lookups of the notification succeed or fail, and whatever the
transport does with the mails; and the tasks leave the store as the call left
it. -/
theorem notification_outcome_unobservable (m : Mailer) (delivery1 delivery2 : Delivery)
    (outbox1 outbox2 : List Email) (w w2 : World) (now : Time) (req : RequestCreateRequest)
    (requesterID id userID : Nat) (upd : RequestUpdateRequest) :
    (w.db.contacts = w2.db.contacts → w.db.requests = w2.db.requests →
      w.db.nextRequestID = w2.db.nextRequestID →
      (RequestService.CreateRequest w now req requesterID).1 =
        (RequestService.CreateRequest w2 now req requesterID).1 ∧
      ((RequestService.CreateRequest w now req requesterID).2.runDispatched m delivery1
          outbox1).1.db.requests =
        ((RequestService.CreateRequest w2 now req requesterID).2.runDispatched m delivery2
          outbox2).1.db.requests ∧
      ((RequestService.CreateRequest w now req requesterID).2.runDispatched m delivery1
          outbox1).1.db =
        (RequestService.CreateRequest w now req requesterID).2.db) ∧
    (w.db.requests = w2.db.requests →
      (RequestService.UpdateRequest w now id userID upd).1 =
        (RequestService.UpdateRequest w2 now id userID upd).1 ∧
      ((RequestService.UpdateRequest w now id userID upd).2.runDispatched m delivery1
          outbox1).1.db.requests =
        ((RequestService.UpdateRequest w2 now id userID upd).2.runDispatched m delivery2
          outbox2).1.db.requests ∧
      ((RequestService.UpdateRequest w now id userID upd).2.runDispatched m delivery1
          outbox1).1.db =
        (RequestService.UpdateRequest w now id userID upd).2.db) := by
  constructor
  · intro hc hr hn
    obtain ⟨h1, h2⟩ := CreateRequest_reads w w2 now req requesterID hc hr hn
    exact ⟨h1, h2, rfl⟩
  · intro hr
    obtain ⟨h1, h2⟩ := UpdateRequest_reads w w2 now id userID upd hr
    exact ⟨h1, h2, rfl⟩

/-- C25, instance: user 2 asks for contact 7 of approver 1, once in the sample
store with the transport up and once in the same store without users and with
the transport down. In the first run one mail is delivered, in the second the
lookup of the requester fails and none is; the value returned and the request
table are the same. Then approver 1 approves request 1 in both stores. -/
theorem notification_outcome_unobservable_witness :
    ((RequestService.CreateRequest sampleWorld 20
        { ApproverID := 1, TargetContactID := 7, Message := "hi" } 2).2.runDispatched
      sampleMailer deliveryUp []).2.length = 1 ∧
    ((RequestService.CreateRequest { sampleWorld with db := { sampleDB with users := [] } } 20
        { ApproverID := 1, TargetContactID := 7, Message := "hi" } 2).2.runDispatched
      sampleMailer deliveryDown []).2.length = 0 ∧
    ((RequestService.CreateRequest sampleWorld 20
        { ApproverID := 1, TargetContactID := 7, Message := "hi" } 2).2.runDispatched
      sampleMailer deliveryDown []).2.length = 0 ∧
    (RequestService.CreateRequest sampleWorld 20
        { ApproverID := 1, TargetContactID := 7, Message := "hi" } 2).1 =
      .ok (sampleRequest "pending") ∧
    ((RequestService.CreateRequest sampleWorld 20
        { ApproverID := 1, TargetContactID := 7, Message := "hi" } 2).1 =
      (RequestService.CreateRequest { sampleWorld with db := { sampleDB with users := [] } } 20
        { ApproverID := 1, TargetContactID := 7, Message := "hi" } 2).1 ∧
    ((RequestService.CreateRequest sampleWorld 20
        { ApproverID := 1, TargetContactID := 7, Message := "hi" } 2).2.runDispatched
      sampleMailer deliveryUp []).1.db.requests =
    ((RequestService.CreateRequest { sampleWorld with db := { sampleDB with users := [] } } 20
        { ApproverID := 1, TargetContactID := 7, Message := "hi" } 2).2.runDispatched
      sampleMailer deliveryDown []).1.db.requests ∧
    ((RequestService.CreateRequest sampleWorld 20
        { ApproverID := 1, TargetContactID := 7, Message := "hi" } 2).2.runDispatched
      sampleMailer deliveryUp []).1.db =
    (RequestService.CreateRequest sampleWorld 20
        { ApproverID := 1, TargetContactID := 7, Message := "hi" } 2).2.db) ∧
    ((RequestService.UpdateRequest (sampleWorldWith "pending") 40 1 1
        { Status := "approved", ResponseMessage := "ok" }).1 =
      (RequestService.UpdateRequest
        { sampleWorldWith "pending" with
          db := { (sampleWorldWith "pending").db with users := [], contacts := [] } } 40 1 1
        { Status := "approved", ResponseMessage := "ok" }).1 ∧
    ((RequestService.UpdateRequest (sampleWorldWith "pending") 40 1 1
        { Status := "approved", ResponseMessage := "ok" }).2.runDispatched
      sampleMailer deliveryUp []).1.db.requests =
    ((RequestService.UpdateRequest
        { sampleWorldWith "pending" with
          db := { (sampleWorldWith "pending").db with users := [], contacts := [] } } 40 1 1
        { Status := "approved", ResponseMessage := "ok" }).2.runDispatched
      sampleMailer deliveryDown []).1.db.requests ∧
    ((RequestService.UpdateRequest (sampleWorldWith "pending") 40 1 1
        { Status := "approved", ResponseMessage := "ok" }).2.runDispatched
      sampleMailer deliveryUp []).1.db =
    (RequestService.UpdateRequest (sampleWorldWith "pending") 40 1 1
        { Status := "approved", ResponseMessage := "ok" }).2.db) :=
  ⟨by decide, by decide, by decide, by decide,
    (notification_outcome_unobservable sampleMailer deliveryUp deliveryDown [] [] sampleWorld
      { sampleWorld with db := { sampleDB with users := [] } } 20
      { ApproverID := 1, TargetContactID := 7, Message := "hi" } 2 1 1
      { Status := "approved", ResponseMessage := "ok" }).1 rfl rfl rfl,
    (notification_outcome_unobservable sampleMailer deliveryUp deliveryDown [] []
      (sampleWorldWith "pending")
      { sampleWorldWith "pending" with
        db := { (sampleWorldWith "pending").db with users := [], contacts := [] } } 40
      { ApproverID := 1, TargetContactID := 7, Message := "hi" } 2 1 1
      { Status := "approved", ResponseMessage := "ok" }).2 rfl⟩

/-- C28: replacing the password hash of a user changes nothing in the response
built from the user, nor in the contact response built with the user as
owner, nor in the request response built with the user as requester or as
approver. -/
theorem ToResponse_ignores_PasswordHash (u requester approver : User) (c : Contact)
    (r : IntroductionRequest) (hash hash1 hash2 : String) :
    ({ u with PasswordHash := hash } : User).ToResponse = u.ToResponse ∧
    c.ToResponse { u with PasswordHash := hash } = c.ToResponse u ∧
    r.ToResponse { requester with PasswordHash := hash1 } { approver with PasswordHash := hash2 }
        c =
      r.ToResponse requester approver c :=
  ⟨rfl, rfl, rfl⟩

/-- A pattern character without special meaning matches itself. -/
theorem likeMatch_literal (c : Char) (pattern text : List Char) (hc : likeSpecial c = false) :
    likeMatch (c :: pattern) text =
      match text with
      | [] => false
      | x :: rest => x == c && likeMatch pattern rest := by
  simp only [likeSpecial, Bool.or_eq_false_iff, beq_eq_false_iff_ne, ne_eq] at hc
  obtain ⟨⟨h1, h2⟩, h3⟩ := hc
  conv_lhs => unfold likeMatch
  split
  · simp_all
  · simp_all
  · simp_all
  · simp_all
  · rename_i heq
    cases heq
    rfl

/-- A pattern of plain characters followed by `%` matches the texts that start
with these characters. -/
theorem likeMatch_prefix (q : List Char) (hq : ∀ c ∈ q, likeSpecial c = false)
    (text : List Char) :
    likeMatch (q ++ ['%']) text = true ↔ q <+: text := by
  induction q generalizing text with
  | nil =>
    simp only [List.nil_append, List.nil_prefix, iff_true]
    unfold likeMatch
    simp only [List.any_eq_true, List.mem_tails]
    exact ⟨[], List.nil_suffix, by simp [likeMatch]⟩
  | cons c q ih =>
    have hc := hq c (List.mem_cons_self _ _)
    have hq2 : ∀ c ∈ q, likeSpecial c = false := fun x hx => hq x (List.mem_cons_of_mem _ hx)
    rw [List.cons_append, likeMatch_literal c _ _ hc]
    cases text with
    | nil => simp
    | cons x rest =>
      simp only [Bool.and_eq_true, beq_iff_eq, ih hq2 rest, List.cons_prefix_cons]
      constructor
      · rintro ⟨h1, h2⟩; exact ⟨h1.symm, h2⟩
      · rintro ⟨h1, h2⟩; exact ⟨h1.symm, h2⟩

/-- A pattern of plain characters between two `%` matches the texts that
contain these characters in a row. -/
theorem likeMatch_infix (q : List Char) (hq : ∀ c ∈ q, likeSpecial c = false)
    (text : List Char) :
    likeMatch ('%' :: (q ++ ['%'])) text = true ↔ q <:+: text := by
  unfold likeMatch
  simp only [List.any_eq_true, List.mem_tails, likeMatch_prefix q hq,
    List.infix_iff_prefix_suffix]
  constructor
  · rintro ⟨t, h1, h2⟩; exact ⟨t, h2, h1⟩
  · rintro ⟨t, h1, h2⟩; exact ⟨t, h2, h1⟩

/-- For a query without a character that is special in a LIKE pattern,
SearchContacts returns exactly the contacts of the owner whose first name,
last name or company contains the query as a case-insensitive substring. -/
theorem SearchContacts_plain_query (db : DB) (userID : Nat) (query : String)
    (hq : ∀ c ∈ (ToLower query).data, likeSpecial c = false) :
    ∃ rows, ContactService.SearchContacts db userID query = .ok rows ∧
      ∀ c, c ∈ rows ↔ c ∈ db.contacts ∧ c.UserID = userID ∧
        (containsIgnoreCase c.FirstName query ∨ containsIgnoreCase c.LastName query ∨
          containsIgnoreCase c.Company query) := by
  refine ⟨_, rfl, ?_⟩
  intro c
  have hpat : ∀ text : String,
      lowerLike text ("%" ++ ToLower query ++ "%") = true ↔ containsIgnoreCase text query := by
    intro text
    have hdata : ("%" ++ ToLower query ++ "%").data = '%' :: ((ToLower query).data ++ ['%']) := by
      simp [String.data_append]
    unfold lowerLike containsIgnoreCase
    rw [hdata]
    exact likeMatch_infix _ hq _
  unfold orderByName
  rw [(List.perm_insertionSort _ _).mem_iff]
  simp only [List.mem_filter, Bool.and_eq_true, Bool.or_eq_true, beq_iff_eq, hpat, or_assoc]

/-- C26: owner 1 holds the one contact Carol C of Acme. The queries "c_r" and
"%" are contained in none of the three fields, and SearchContacts returns the
contact for both: the characters `_` and `%` of the query act as wildcards of
the LIKE pattern. -/
theorem SearchContacts_query_wildcards :
    sampleDB.contacts = [sampleContact] ∧
    ContactService.SearchContacts sampleDB 1 "c_r" = .ok [sampleContact] ∧
    ¬ containsIgnoreCase sampleContact.FirstName "c_r" ∧
    ¬ containsIgnoreCase sampleContact.LastName "c_r" ∧
    ¬ containsIgnoreCase sampleContact.Company "c_r" ∧
    ContactService.SearchContacts sampleDB 1 "%" = .ok [sampleContact] ∧
    ¬ containsIgnoreCase sampleContact.FirstName "%" ∧
    ¬ containsIgnoreCase sampleContact.LastName "%" ∧
    ¬ containsIgnoreCase sampleContact.Company "%" :=
  ⟨rfl, by decide, by decide, by decide, by decide, by decide, by decide, by decide, by decide⟩

/-- Atoi reports a syntax error, with the value 0, for every string that is
not a decimal integer. -/
theorem Atoi_syntax (s : String) (h : ¬ DecimalInteger s) : Atoi s = (0, some .ErrSyntax) := by
  have key : ∀ digits : List Char,
      (s.data = digits ∨ s.data = '+' :: digits ∨ s.data = '-' :: digits) →
      (digits.isEmpty || !digits.all Char.isDigit) = true := by
    intro digits hd
    by_contra hcon
    apply h
    simp only [Bool.or_eq_true, List.isEmpty_iff, Bool.not_eq_true', not_or,
      Bool.not_eq_false, List.all_eq_true] at hcon
    exact ⟨digits, hd, hcon.1, hcon.2⟩
  unfold Atoi
  simp only
  split
  · rfl
  · rename_i hcond
    exfalso
    apply hcond
    split
    · rename_i rest heq
      exact key rest (Or.inr (Or.inl heq))
    · rename_i rest heq
      exact key rest (Or.inr (Or.inr heq))
    · exact key s.data (Or.inl rfl)

/-- C30: for a user u who owns a stored contact and has no request for it, in
a well-formed store: CreateRequest by u with approver u succeeds and stores a
pending request whose requester and approver are both u, and UpdateRequest by
u with status approved then succeeds and stores the request as approved. -/
theorem CreateRequest_to_oneself (w : World) (now1 now2 : Time) (u : Nat)
    (contact : Contact) (message response : String)
    (hwf : w.db.WellFormed)
    (hc : ContactRepository.GetByID w.db contact.ID = .ok contact)
    (hown : contact.UserID = u)
    (hfresh : ∀ r ∈ w.db.requests, ¬ (r.RequesterID = u ∧ r.TargetContactID = contact.ID)) :
    ∃ created w1 approved w2,
      RequestService.CreateRequest w now1
        { ApproverID := u, TargetContactID := contact.ID, Message := message } u =
        (.ok created, w1) ∧
      created.Status = RequestStatusPending ∧
      created.RequesterID = u ∧ created.ApproverID = u ∧
      created.TargetContactID = contact.ID ∧
      RequestRepository.GetByID w1.db created.ID = .ok created ∧
      RequestService.UpdateRequest w1 now2 created.ID u
        { Status := RequestStatusApproved, ResponseMessage := response } =
        (.ok approved, w2) ∧
      approved.Status = RequestStatusApproved ∧ approved.ID = created.ID ∧
      approved.RequesterID = u ∧ approved.ApproverID = u ∧
      RequestRepository.GetByID w2.db created.ID = .ok approved := by
  have hcreate := CreateRequest_ok w now1
    { ApproverID := u, TargetContactID := contact.ID, Message := message } u contact
    hc hown hfresh
  generalize hcr : ({ NewIntroductionRequest now1
      { ApproverID := u, TargetContactID := contact.ID, Message := message } u with
      ID := w.db.nextRequestID } : IntroductionRequest) = created at hcreate
  have hcid : created.ID = w.db.nextRequestID := by rw [← hcr]
  have hcapp : created.ApproverID = u := by rw [← hcr]; rfl
  have hcreq : created.RequesterID = u := by rw [← hcr]; rfl
  have hcst : created.Status = RequestStatusPending := by rw [← hcr]; rfl
  have hctg : created.TargetContactID = contact.ID := by rw [← hcr]; rfl
  generalize hw1 : ({ db := { w.db with requests := w.db.requests ++ [created],
                                        nextRequestID := w.db.nextRequestID + 1 },
                      dispatched := w.dispatched ++ [.sendNewRequestNotification created] } :
      World) = w1 at hcreate
  have hwf1 : w1.db.WellFormed := by
    rw [← hw1]; exact WellFormed_insert w.db created hwf hcid
  have hmem1 : created ∈ w1.db.requests := by rw [← hw1]; simp
  have hg1 := GetByID_of_mem w1.db created hwf1 hmem1
  subst hcapp
  obtain ⟨hu1, _⟩ := UpdateRequest_eq w1 now2 created.ID created.ApproverID
    { Status := RequestStatusApproved, ResponseMessage := response } created hg1 rfl
  have hupd := stored_after_UpdateRequest w1 now2 created
    { Status := RequestStatusApproved, ResponseMessage := response } hwf1 hmem1
  exact ⟨created, w1,
    { created with Status := RequestStatusApproved, ResponseMessage := response,
                   UpdatedAt := now2 },
    (RequestService.UpdateRequest w1 now2 created.ID created.ApproverID
      { Status := RequestStatusApproved, ResponseMessage := response }).2,
    hcreate, hcst, hcreq, rfl, hctg, hg1, Prod.ext hu1 rfl, rfl, rfl, hcreq, rfl, hupd⟩

/-- C30, instance: user 1 asks for an introduction to the own contact 7 and
approves the request. -/
theorem CreateRequest_to_oneself_witness :
    ∃ created w1 approved w2,
      RequestService.CreateRequest sampleWorld 20
        { ApproverID := 1, TargetContactID := sampleContact.ID, Message := "hi" } 1 =
        (.ok created, w1) ∧
      created.Status = RequestStatusPending ∧
      created.RequesterID = 1 ∧ created.ApproverID = 1 ∧
      created.TargetContactID = sampleContact.ID ∧
      RequestRepository.GetByID w1.db created.ID = .ok created ∧
      RequestService.UpdateRequest w1 40 created.ID 1
        { Status := RequestStatusApproved, ResponseMessage := "ok" } =
        (.ok approved, w2) ∧
      approved.Status = RequestStatusApproved ∧ approved.ID = created.ID ∧
      approved.RequesterID = 1 ∧ approved.ApproverID = 1 ∧
      RequestRepository.GetByID w2.db created.ID = .ok approved :=
  CreateRequest_to_oneself sampleWorld 20 40 1 sampleContact "hi" "ok"
    (by decide) (by decide) (by decide) (by decide)

end IntroHub
